import Mathlib

/-!
# Repair-Management-System: settings store and notification pipeline

A shallow embedding of the Go backend (`backend/services/settings.go`,
`backend/services/telegram.go`, `backend/api/repair_request.go`,
`backend/api/settings.go`, `backend/middleware/role.go`) together with the
properties of its notification pipeline.

Modelling conventions
* The relational store `config.DB` is a record of in-memory tables; the
  primary key of a settings row is its position in the table.  A query
  fails only with record-not-found and a write only on a taken primary key;
  an outage of the database itself is outside the model.
* A Go `error` result is `Option Error` (`none` is `nil`); a
  `(value, error)` result is `Except Error value`.
* `os.Getenv` is a function `Env`, returning `""` for an unset variable.
* `http.Post` is an oracle `Transport` from the outbound call to its result.
* A `go f(args)` statement appends the call to the list of dispatched
  notifications, in program order.
* A Go pointer to `uint` is a pair of the allocation it points into and
  the pointee; `==` on pointers compares the allocation only.  Whether a
  database scan writes a `*uint` column through the pointer the field holds
  or into a fresh cell is a parameter (`scanAllocates`) of the handlers.
* `gorm`'s `Save` writes the id of a held `Technician` into `TechnicianID`
  before it stores the row, and `Create` fills an empty `Status` or
  `Priority` with the default of its column tag and writes it back.
* `services/encryption.go` is not part of the sources; its interface is
  a parameter of the settings service, its round-trip law a hypothesis.
* A Go `string` that is measured or sliced is the list of its bytes
  (`GoString`), the UTF-8 encoding of the text.
* A finite `float64` is the rational number it stands for; every
  operation is the exact operation followed by rounding to the nearest
  number with a 53-bit significand, ties to even.
* The order in which `range` visits a Go map is a parameter of the run.
* A nil dereference is the result `Except.error Panic.nilDereference`.
-/

namespace RepairSystem

/-! ## Errors -/

/-- Go `error` values that the modelled code can produce. -/
inductive Error where
  | recordNotFound
  | crypto (msg : String)
  | parseBool (input : String)
  | transport (msg : String)
  | badStatus (statusCode : Nat)
  | database (msg : String)
deriving DecidableEq, Repr

deriving instance DecidableEq for Except

/-- The process environment: `os.Getenv`. -/
abbrev Env := String → String

/-! ## models/setting.go -/

/-- A row of the `settings` table (`models.Setting`). -/
structure Setting where
  Key : String
  Value : String
deriving DecidableEq, Repr

def SettingTelegramEnabled : String := "telegram_enabled"
def SettingTelegramBotToken : String := "telegram_bot_token"
def SettingTelegramChatID : String := "telegram_chat_id"
def SettingTelegramNotifyNewRequest : String := "telegram_notify_new_request"
def SettingTelegramNotifyStatusChange : String := "telegram_notify_status_change"
def SettingTelegramNotifyAssignment : String := "telegram_notify_assignment"
def SettingTelegramNotifyCompletion : String := "telegram_notify_completion"

/-- The `settings` table, rows in primary-key order. -/
abbrev SettingsTable := List Setting

/-- The query `config.DB.Where("key = ?", key).First(&setting)`: the first row
with that key, `none` for record-not-found. -/
def firstByKey (db : SettingsTable) (key : String) : Option Setting :=
  db.find? (fun row => row.Key == key)

/-- The write `config.DB.Save(&setting)` for a setting that `firstByKey`
returned: the row with that primary key gets the new value. -/
def saveByKey : SettingsTable → String → String → SettingsTable
  | [], _, _ => []
  | row :: rest, key, value =>
    if row.Key == key then { row with Value := value } :: rest
    else row :: saveByKey rest key value

/-- The write `config.DB.Create(&setting)`: a new row after the existing ones. -/
def createSetting (db : SettingsTable) (key value : String) : SettingsTable :=
  db ++ [{ Key := key, Value := value }]

/-! ## services/encryption.go -/

/-- Modelled from the spec: `services/encryption.go` (the type
`EncryptionService` with `Encrypt` and `Decrypt`) is missing from the
sources.  The spec describes a symmetric scheme whose `encrypt` may draw a
random nonce and whose operations can fail; `Encrypt` therefore takes the
nonce drawn for the call. -/
structure EncryptionService where
  Encrypt : Nat → String → Except Error String
  Decrypt : String → Except Error String

/-- Modelled from the spec: the round-trip property of the missing
`EncryptionService`, "for all plaintext v, decrypt(encrypt(v)) == v", for
every nonce. -/
def EncryptionService.RoundTrip (e : EncryptionService) : Prop :=
  ∀ (nonce : Nat) (v c : String), e.Encrypt nonce v = Except.ok c → e.Decrypt c = Except.ok v

/-- A toy instance of the encryption interface used to evaluate the model on
concrete stores: one nonce character followed by the reversed plaintext. -/
def toyEncryption : EncryptionService where
  Encrypt := fun nonce v => Except.ok (String.mk (Char.ofNat (97 + nonce % 26) :: v.data.reverse))
  Decrypt := fun c =>
    match c.data with
    | [] => Except.error (Error.crypto "ciphertext too short")
    | _ :: body => Except.ok (String.mk body.reverse)

/-! ## services/settings.go -/

structure SettingsService where
  encryption : EncryptionService

/-- `isSensitiveKey`: a scan of the fixed list of sensitive keys. -/
def SettingsService.isSensitiveKey (_s : SettingsService) (key : String) : Bool :=
  [SettingTelegramBotToken].any (fun sensitiveKey => key == sensitiveKey)

/-- `SetSetting`: encrypt a sensitive value, then update the row of the key
or create it. -/
def SettingsService.SetSetting (s : SettingsService) (nonce : Nat) (db : SettingsTable)
    (key value : String) : Except Error SettingsTable :=
  let stored : Except Error String :=
    if s.isSensitiveKey key then s.encryption.Encrypt nonce value else Except.ok value
  match stored with
  | Except.error err => Except.error err
  | Except.ok value =>
    match firstByKey db key with
    | none => Except.ok (createSetting db key value)
    | some _ => Except.ok (saveByKey db key value)

/-- `GetSetting`: fetch the row and decrypt a sensitive value. -/
def SettingsService.GetSetting (s : SettingsService) (db : SettingsTable) (key : String) :
    Except Error String :=
  match firstByKey db key with
  | none => Except.error Error.recordNotFound
  | some setting =>
    if s.isSensitiveKey key then s.encryption.Decrypt setting.Value
    else Except.ok setting.Value

/-- `GetSettingWithDefault`. -/
def SettingsService.GetSettingWithDefault (s : SettingsService) (db : SettingsTable)
    (key defaultValue : String) : String :=
  match s.GetSetting db key with
  | Except.error _ => defaultValue
  | Except.ok value => value

/-- Go `strconv.ParseBool`. -/
def ParseBool (str : String) : Except Error Bool :=
  if str ∈ ["1", "t", "T", "TRUE", "true", "True"] then Except.ok true
  else if str ∈ ["0", "f", "F", "FALSE", "false", "False"] then Except.ok false
  else Except.error (Error.parseBool str)

/-- Go `strconv.FormatBool`. -/
def FormatBool (b : Bool) : String := if b then "true" else "false"

/-- `GetBoolSetting`: every error becomes `false`. -/
def SettingsService.GetBoolSetting (s : SettingsService) (db : SettingsTable) (key : String) :
    Bool :=
  match s.GetSetting db key with
  | Except.error _ => false
  | Except.ok value =>
    match ParseBool value with
    | Except.error _ => false
    | Except.ok result => result

/-- `SetBoolSetting`. -/
def SettingsService.SetBoolSetting (s : SettingsService) (nonce : Nat) (db : SettingsTable)
    (key : String) (value : Bool) : Except Error SettingsTable :=
  s.SetSetting nonce db key (FormatBool value)

/-! ## services/telegram.go -/

structure TelegramService where
  BotToken : String
  ChatID : String
  Enabled : Bool
  settingsService : Option SettingsService

/-- The JSON body of the outbound call (`TelegramMessage`). -/
structure TelegramMessage where
  ChatID : String
  Text : String
  ParseMode : String
deriving DecidableEq, Repr

/-- One `http.Post(url, contentType, body)`. -/
structure OutboundCall where
  url : String
  contentType : String
  body : TelegramMessage
deriving DecidableEq, Repr

/-- What `http.Post` gives back: a transport failure or a response status. -/
inductive HttpResult where
  | failure (msg : String)
  | response (statusCode : Nat)
deriving DecidableEq, Repr

/-- The network, as seen by `http.Post`. -/
abbrev Transport := OutboundCall → HttpResult

/-- `NewTelegramServiceWithSettings`. -/
def NewTelegramServiceWithSettings (settingsService : SettingsService) (db : SettingsTable)
    (env : Env) : TelegramService :=
  let botToken := settingsService.GetSettingWithDefault db SettingTelegramBotToken (env "TELEGRAM_BOT_TOKEN")
  let chatID := settingsService.GetSettingWithDefault db SettingTelegramChatID (env "TELEGRAM_CHAT_ID")
  let enabled := settingsService.GetBoolSetting db SettingTelegramEnabled
  let enabled := if !enabled then env "TELEGRAM_ENABLED" == "true" else enabled
  { BotToken := botToken, ChatID := chatID, Enabled := enabled,
    settingsService := some settingsService }

/-- `refreshSettings`: reload the three fields when a settings service is attached. -/
def TelegramService.refreshSettings (s : TelegramService) (db : SettingsTable) (env : Env) :
    TelegramService :=
  match s.settingsService with
  | none => s
  | some settingsService =>
    let s := { s with BotToken := settingsService.GetSettingWithDefault db SettingTelegramBotToken (env "TELEGRAM_BOT_TOKEN") }
    let s := { s with ChatID := settingsService.GetSettingWithDefault db SettingTelegramChatID (env "TELEGRAM_CHAT_ID") }
    let s := { s with Enabled := settingsService.GetBoolSetting db SettingTelegramEnabled }
    if !s.Enabled then { s with Enabled := env "TELEGRAM_ENABLED" == "true" } else s

/-- `IsEnabled`: the answer and the refreshed service. -/
def TelegramService.IsEnabled (s : TelegramService) (db : SettingsTable) (env : Env) :
    Bool × TelegramService :=
  let s := s.refreshSettings db env
  (s.Enabled && s.BotToken != "" && s.ChatID != "", s)

/-- The result of a call into the service: the returned `error`, the outbound
calls it made, and the service afterwards. -/
structure SendResult where
  err : Option Error
  calls : List OutboundCall
  service : TelegramService

/-- The outbound call of `SendMessage` for a message: the bot endpoint of the
token, and the chat id, the text and parse mode HTML as the body. -/
def sentCall (s : TelegramService) (message : String) : OutboundCall :=
  { url := "https://api.telegram.org/bot" ++ s.BotToken ++ "/sendMessage",
    contentType := "application/json",
    body := { ChatID := s.ChatID, Text := message, ParseMode := "HTML" } }

/-- `SendMessage`.  `json.Marshal` of a struct of three strings returns no
error, so the body is kept as the struct. -/
def TelegramService.SendMessage (s : TelegramService) (db : SettingsTable) (env : Env)
    (post : Transport) (message : String) : SendResult :=
  let (enabled, s) := s.IsEnabled db env
  if !enabled then { err := none, calls := [], service := s }
  else
    let call := sentCall s message
    match post call with
    | HttpResult.failure msg => { err := some (Error.transport msg), calls := [call], service := s }
    | HttpResult.response statusCode =>
      if statusCode != 200 then
        { err := some (Error.badStatus statusCode), calls := [call], service := s }
      else { err := none, calls := [call], service := s }

/-- The frame shared by `NotifyNewRepairRequest`, `NotifyStatusChange`,
`NotifyAssignment`, `NotifyCompletion` and `NotifyRejection`: return nil unless
`IsEnabled`, otherwise `SendMessage` of the message the method has rendered. -/
def TelegramService.notify (s : TelegramService) (db : SettingsTable) (env : Env)
    (post : Transport) (message : String) : SendResult :=
  let (enabled, s) := s.IsEnabled db env
  if !enabled then { err := none, calls := [], service := s }
  else s.SendMessage db env post message

/-! ## models/user.go, models/category.go, models/repair_request.go -/

/-- Go `time.Time`, in nanoseconds since the zero time; `0` is the zero value. -/
abbrev Time := Nat

def RoleAdmin : String := "admin"
def RoleTechnician : String := "technician"
def RoleRequester : String := "requester"

/-- A row of `users` (`models.User`; timestamps and password hash left out). -/
structure User where
  ID : Nat
  Username : String
  Email : String
  FullName : String
  Role : String
  PhoneNumber : String
  TelegramID : String
deriving DecidableEq, Repr

/-- A row of `categories` (`models.Category`). -/
structure Category where
  ID : Nat
  Name : String
  Description : String
deriving DecidableEq, Repr

structure Comment where
  ID : Nat
  RepairRequestID : Nat
  UserID : Nat
  Content : String
deriving DecidableEq, Repr

structure PartUsed where
  ID : Nat
  RepairRequestID : Nat
  Name : String
  Quantity : Int
  UnitPrice : Rat
deriving DecidableEq, Repr

def StatusPending : String := "pending"
def StatusInProgress : String := "in_progress"
def StatusWaitingPart : String := "waiting_part"
def StatusCompleted : String := "completed"
def StatusRejected : String := "rejected"

/-- The places where the handlers obtain a fresh `uint` cell for
`TechnicianID`: the first database load, the JSON binding of the request
body, the reload after the write, and the write itself when it has to fill a
nil field. -/
inductive Alloc where
  | load
  | bind
  | reload
  | save
deriving DecidableEq, Repr

/-- A non-nil `*uint`: the cell it points to and the number stored there. -/
structure UintPtr where
  alloc : Alloc
  val : Nat
deriving DecidableEq, Repr

/-- Go `p != q` on two `*uint` values: nil against nil is equal, two non-nil
pointers are equal when they point to the same cell; the numbers stored are
not looked at. -/
def ptrNe (p q : Option UintPtr) : Bool :=
  p.map (fun x => x.alloc) != q.map (fun x => x.alloc)

/-- The struct `models.RepairRequest` as held in memory by a handler (the
soft-delete column left out; `float64` amounts are rationals). -/
structure RepairRequest where
  ID : Nat
  CreatedAt : Time
  UpdatedAt : Time
  Title : String
  Description : String
  Location : String
  CategoryID : Nat
  Category : Category
  RequesterID : Nat
  Requester : User
  TechnicianID : Option UintPtr
  Technician : Option User
  Status : String
  Priority : String
  Images : List String
  CompletedAt : Option Time
  RejectionReason : String
  Comments : List Comment
  Cost : Rat
  PartsUsed : List PartUsed
deriving DecidableEq, Repr

/-- The columns of a row of `repair_requests`. -/
structure RepairRequestRow where
  ID : Nat
  CreatedAt : Time
  UpdatedAt : Time
  Title : String
  Description : String
  Location : String
  CategoryID : Nat
  RequesterID : Nat
  TechnicianID : Option Nat
  Status : String
  Priority : String
  Images : List String
  CompletedAt : Option Time
  RejectionReason : String
  Cost : Rat
deriving DecidableEq, Repr

/-- The zero value of `models.User`. -/
def User.zero : User :=
  { ID := 0, Username := "", Email := "", FullName := "", Role := "", PhoneNumber := "",
    TelegramID := "" }

/-- The zero value of `models.Category`. -/
def Category.zero : Category := { ID := 0, Name := "", Description := "" }

/-- The zero value of `models.RepairRequest` (`var request models.RepairRequest`). -/
def RepairRequest.zero : RepairRequest :=
  { ID := 0, CreatedAt := 0, UpdatedAt := 0, Title := "", Description := "", Location := "",
    CategoryID := 0, Category := Category.zero, RequesterID := 0, Requester := User.zero,
    TechnicianID := none, Technician := none, Status := "", Priority := "", Images := [],
    CompletedAt := none, RejectionReason := "", Comments := [], Cost := 0, PartsUsed := [] }

/-! ## config/database.go: the tables -/

structure DB where
  settings : SettingsTable
  users : List User
  categories : List Category
  repairRequests : List RepairRequestRow

/-- The columns written for a struct by `Create` and `Save`. -/
def RepairRequest.toRow (r : RepairRequest) : RepairRequestRow :=
  { ID := r.ID, CreatedAt := r.CreatedAt, UpdatedAt := r.UpdatedAt, Title := r.Title,
    Description := r.Description, Location := r.Location, CategoryID := r.CategoryID,
    RequesterID := r.RequesterID, TechnicianID := r.TechnicianID.map (fun p => p.val),
    Status := r.Status, Priority := r.Priority, Images := r.Images,
    CompletedAt := r.CompletedAt, RejectionReason := r.RejectionReason, Cost := r.Cost }

/-- How a scan of the `technician_id` column fills the `*uint` field: NULL
gives nil; a number goes into a fresh cell of site `site`, or, when
`scanAllocates` is false and the field already points to a cell, into that
cell. -/
def scanTechnicianID (scanAllocates : Bool) (site : Alloc) (current : Option UintPtr)
    (column : Option Nat) : Option UintPtr :=
  match column with
  | none => none
  | some v =>
    match current with
    | some p => if scanAllocates then some { alloc := site, val := v } else some { p with val := v }
    | none => some { alloc := site, val := v }

/-- A scan of the columns of `row` into the struct `into` (what `First` does
before the preloads). -/
def scanRow (scanAllocates : Bool) (site : Alloc) (into : RepairRequest) (row : RepairRequestRow) :
    RepairRequest :=
  { into with
    ID := row.ID, CreatedAt := row.CreatedAt, UpdatedAt := row.UpdatedAt, Title := row.Title,
    Description := row.Description, Location := row.Location, CategoryID := row.CategoryID,
    RequesterID := row.RequesterID,
    TechnicianID := scanTechnicianID scanAllocates site into.TechnicianID row.TechnicianID,
    Status := row.Status, Priority := row.Priority, Images := row.Images,
    CompletedAt := row.CompletedAt, RejectionReason := row.RejectionReason, Cost := row.Cost }

/-- The row of `repair_requests` with primary key `id`. -/
def findRequest (db : DB) (id : Int) : Option RepairRequestRow :=
  db.repairRequests.find? (fun row => (row.ID : Int) == id)

/-- `Preload("Technician")`: the user the technician id refers to, nil when
there is none. -/
def preloadTechnician (db : DB) (r : RepairRequest) : RepairRequest :=
  { r with Technician :=
      match r.TechnicianID with
      | none => none
      | some p => db.users.find? (fun u => u.ID == p.val) }

/-- `Preload("Requester")`: the requesting user, the zero struct when there is none. -/
def preloadRequester (db : DB) (r : RepairRequest) : RepairRequest :=
  { r with Requester := (db.users.find? (fun u => u.ID == r.RequesterID)).getD User.zero }

/-- `Preload("Category")`: the category, the zero struct when there is none. -/
def preloadCategory (db : DB) (r : RepairRequest) : RepairRequest :=
  { r with Category := (db.categories.find? (fun c => c.ID == r.CategoryID)).getD Category.zero }

/-- What gorm does with the `Technician` association before it writes the
row: a struct that holds a technician (the pointer is not nil) gets the
primary key of that technician as its `TechnicianID`, written into the cell
the field points to, or into a fresh cell when the field is nil.  The row of
the technician itself is left as it is. -/
def syncTechnicianID (r : RepairRequest) : RepairRequest :=
  match r.Technician with
  | none => r
  | some technician =>
    { r with
      TechnicianID :=
        match r.TechnicianID with
        | some p => some { p with val := technician.ID }
        | none => some { alloc := Alloc.save, val := technician.ID } }

/-- `config.DB.Save(&request)` for a loaded request: the technician id is
taken from a technician the struct holds, `UpdatedAt` is set to the current
time, and the row with the primary key is rewritten with the columns of the
struct.  The handler holds no other association at this point: its first
query preloads the technician only. -/
def saveRequest (db : DB) (now : Time) (r : RepairRequest) : DB × RepairRequest :=
  let r := syncTechnicianID r
  let r := { r with UpdatedAt := now }
  ({ db with repairRequests :=
      db.repairRequests.map (fun row => if row.ID == r.ID then r.toRow else row) }, r)

/-- The primary key `Create` gives a struct: its own when it is not zero, the
next free one otherwise. -/
def assignID (db : DB) (r : RepairRequest) : RepairRequest :=
  if r.ID == 0 then
    { r with ID := (db.repairRequests.map (fun row => row.ID)).foldl max 0 + 1 }
  else r

/-- The timestamps `Create` gives a struct: a zero `CreatedAt` becomes the
current time, `UpdatedAt` is the current time. -/
def stampTimes (now : Time) (r : RepairRequest) : RepairRequest :=
  { (if r.CreatedAt == 0 then { r with CreatedAt := now } else r) with UpdatedAt := now }

/-- The column defaults `Create` gives a struct, from the tags
`default:'pending'` of `Status` and `default:'medium'` of `Priority`: an
empty field takes its default, and the default is written back into the
struct. -/
def applyDefaults (r : RepairRequest) : RepairRequest :=
  let r := if r.Status == "" then { r with Status := "pending" } else r
  if r.Priority == "" then { r with Priority := "medium" } else r

/-- `config.DB.Create(&request)`: the primary key is assigned, a taken one is
a constraint error; the column defaults and the timestamps are set and the
row is added.  A body that carries a whole `technician`, `requester` or
`category` object is outside the model. -/
def createRequest (db : DB) (now : Time) (r : RepairRequest) : Except Error (DB × RepairRequest) :=
  let r := assignID db r
  if db.repairRequests.any (fun row => row.ID == r.ID) then
    Except.error (Error.database "UNIQUE constraint failed: repair_requests.id")
  else
    let r := applyDefaults r
    let r := stampTimes now r
    Except.ok ({ db with repairRequests := db.repairRequests ++ [r.toRow] }, r)

/-- `ShouldBindJSON`: the decoder puts a `technicianId` of the body into a
cell of its own. -/
def bindJSON (body : RepairRequest) : RepairRequest :=
  { body with TechnicianID := body.TechnicianID.map (fun p => { p with alloc := Alloc.bind }) }

/-! ## middleware/role.go -/

/-- What a gin context can hold under a key: a `models.User` value, a
`*models.User` pointer, or something else. -/
inductive CtxValue where
  | userValue (u : User)
  | userPointer (u : User)
  | other (text : String)
deriving DecidableEq, Repr

/-- The gin context of a request, as far as the modelled code reads it:
`c.Get("user")`. -/
structure Context where
  user : Option CtxValue
deriving DecidableEq, Repr

/-- What a middleware does with the request. -/
inductive Verdict where
  | next
  | abort (statusCode : Nat) (msg : String)
deriving DecidableEq, Repr

/-- `RequireRole`. -/
def RequireRole (roles : List String) (c : Context) : Verdict :=
  match c.user with
  | none => Verdict.abort 401 "User not found in context"
  | some (CtxValue.userValue user) =>
    if roles.any (fun role => user.Role == role) then Verdict.next
    else Verdict.abort 403 "Insufficient permissions"
  | some _ => Verdict.abort 500 "Invalid user type"

/-- `RequireAdminOrTechnician`, the guard of `PUT /api/repair-requests/:id`. -/
def RequireAdminOrTechnician (c : Context) : Verdict :=
  RequireRole [RoleAdmin, RoleTechnician] c

/-! ## api/repair_request.go -/

/-- A notification call started with `go`: the method and its arguments. -/
inductive Notification where
  | NewRepairRequest (request : RepairRequest) (requester : User)
  | StatusChange (request : RepairRequest) (oldStatus : String) (technician : Option User)
  | Assignment (request : RepairRequest) (technician : Option User)
  | Completion (request : RepairRequest) (technician : Option User)
  | Rejection (request : RepairRequest) (reason : String) (admin : User)
deriving DecidableEq, Repr

/-- The five kinds of notification. -/
inductive Kind where
  | newTicket
  | statusChanged
  | assigned
  | completed
  | rejected
deriving DecidableEq, Repr

def Notification.kind : Notification → Kind
  | Notification.NewRepairRequest _ _ => Kind.newTicket
  | Notification.StatusChange _ _ _ => Kind.statusChanged
  | Notification.Assignment _ _ => Kind.assigned
  | Notification.Completion _ _ => Kind.completed
  | Notification.Rejection _ _ _ => Kind.rejected

/-- The body of a response: an error message or the request. -/
inductive Body where
  | error (msg : String)
  | request (r : RepairRequest)
deriving DecidableEq, Repr

/-- What a handler leaves behind: the HTTP response, the database, the
handler's telegram service and the notifications it started, in order. -/
structure HandlerResult where
  statusCode : Nat
  body : Body
  db : DB
  service : TelegramService
  dispatched : List Notification

/-- The step `if updateData.Title != "" then request.Title = updateData.Title`. -/
def mergeTitle (request updateData : RepairRequest) : RepairRequest :=
  if updateData.Title != "" then { request with Title := updateData.Title } else request

/-- The step `if updateData.Description != "" then request.Description = updateData.Description`. -/
def mergeDescription (request updateData : RepairRequest) : RepairRequest :=
  if updateData.Description != "" then { request with Description := updateData.Description } else request

/-- The step `if updateData.Location != "" then request.Location = updateData.Location`. -/
def mergeLocation (request updateData : RepairRequest) : RepairRequest :=
  if updateData.Location != "" then { request with Location := updateData.Location } else request

/-- The step `if updateData.CategoryID != 0 then request.CategoryID = updateData.CategoryID`. -/
def mergeCategoryID (request updateData : RepairRequest) : RepairRequest :=
  if updateData.CategoryID != 0 then { request with CategoryID := updateData.CategoryID } else request

/-- The step `if updateData.TechnicianID != nil then request.TechnicianID = updateData.TechnicianID`. -/
def mergeTechnicianID (request updateData : RepairRequest) : RepairRequest :=
  if updateData.TechnicianID.isSome then { request with TechnicianID := updateData.TechnicianID } else request

/-- The step `if updateData.Status != "" then request.Status = updateData.Status`. -/
def mergeStatus (request updateData : RepairRequest) : RepairRequest :=
  if updateData.Status != "" then { request with Status := updateData.Status } else request

/-- The step `if updateData.Priority != "" then request.Priority = updateData.Priority`. -/
def mergePriority (request updateData : RepairRequest) : RepairRequest :=
  if updateData.Priority != "" then { request with Priority := updateData.Priority } else request

/-- The step `if updateData.RejectionReason != "" then request.RejectionReason = updateData.RejectionReason`. -/
def mergeRejectionReason (request updateData : RepairRequest) : RepairRequest :=
  if updateData.RejectionReason != "" then { request with RejectionReason := updateData.RejectionReason } else request

/-- The step `if updateData.Cost != 0 then request.Cost = updateData.Cost`. -/
def mergeCost (request updateData : RepairRequest) : RepairRequest :=
  if updateData.Cost != 0 then { request with Cost := updateData.Cost } else request

/-- The step `if updateData.CompletedAt != nil then request.CompletedAt = updateData.CompletedAt`. -/
def mergeCompletedAt (request updateData : RepairRequest) : RepairRequest :=
  if updateData.CompletedAt.isSome then { request with CompletedAt := updateData.CompletedAt } else request

/-- The field merge of `UpdateRepairRequest`: its ten steps in order. -/
def mergeUpdate (request updateData : RepairRequest) : RepairRequest :=
  let request := mergeTitle request updateData
  let request := mergeDescription request updateData
  let request := mergeLocation request updateData
  let request := mergeCategoryID request updateData
  let request := mergeTechnicianID request updateData
  let request := mergeStatus request updateData
  let request := mergePriority request updateData
  let request := mergeRejectionReason request updateData
  let request := mergeCost request updateData
  let request := mergeCompletedAt request updateData
  request

/-- The notifications `UpdateRepairRequest` starts once `IsEnabled` has
answered true, in the order of its `go` statements. -/
def updateNotifications (c : Context) (request : RepairRequest) (oldStatus : String)
    (oldTechnicianID : Option UintPtr) : List Notification :=
  (if request.Status != oldStatus then
      [Notification.StatusChange request oldStatus request.Technician] else [])
  ++ (if ptrNe request.TechnicianID oldTechnicianID && request.TechnicianID.isSome then
      [Notification.Assignment request request.Technician] else [])
  ++ (if request.Status == StatusCompleted then
      [Notification.Completion request request.Technician] else [])
  ++ (if request.Status == StatusRejected && request.RejectionReason != "" then
      match c.user with
      | some (CtxValue.userPointer admin) =>
        [Notification.Rejection request request.RejectionReason admin]
      | _ => []
    else [])

/-- The first query of `UpdateRepairRequest`,
`config.DB.Preload("Technician").First(&request, id)`, into a zero struct:
the request as it was before the update, `none` for record-not-found. -/
def loadRequest (scanAllocates : Bool) (db : DB) (id : Int) : Option RepairRequest :=
  (findRequest db id).map
    (fun row => preloadTechnician db (scanRow scanAllocates Alloc.load RepairRequest.zero row))

/-- The query after the write of `UpdateRepairRequest`,
`config.DB.Preload("Category").Preload("Requester").Preload("Technician").First(&request, request.ID)`;
its error is not looked at, so a missing row leaves the struct as it is. -/
def reloadUpdated (scanAllocates : Bool) (db : DB) (request : RepairRequest) : RepairRequest :=
  match findRequest db request.ID with
  | none => request
  | some row =>
    preloadTechnician db (preloadRequester db (preloadCategory db
      (scanRow scanAllocates Alloc.reload request row)))

/-- The query after the write of `CreateRepairRequest`,
`config.DB.Preload("Category").Preload("Requester").First(&request, request.ID)`. -/
def reloadCreated (scanAllocates : Bool) (db : DB) (request : RepairRequest) : RepairRequest :=
  match findRequest db request.ID with
  | none => request
  | some row =>
    preloadRequester db (preloadCategory db (scanRow scanAllocates Alloc.reload request row))

/-- `UpdateRepairRequest`, `PUT /api/repair-requests/:id`.  `id` is the result
of `strconv.Atoi` on the path parameter and `body` the result of decoding the
request body (`none` when it fails); `scanAllocates` says whether a database
scan puts a `*uint` column into a fresh cell. -/
def UpdateRepairRequest (scanAllocates : Bool) (service : TelegramService) (db : DB) (env : Env)
    (now : Time) (c : Context) (id : Option Int) (body : Option RepairRequest) : HandlerResult :=
  match id with
  | none =>
    { statusCode := 400, body := Body.error "Invalid repair request ID", db := db,
      service := service, dispatched := [] }
  | some id =>
    match loadRequest scanAllocates db id with
    | none =>
      { statusCode := 404, body := Body.error "Repair request not found", db := db,
        service := service, dispatched := [] }
    | some request =>
      let oldStatus := request.Status
      let oldTechnicianID := request.TechnicianID
      match body with
      | none =>
        { statusCode := 400, body := Body.error "invalid request body", db := db,
          service := service, dispatched := [] }
      | some body =>
        let updateData := bindJSON body
        let request := mergeUpdate request updateData
        let (db, request) := saveRequest db now request
        let request := reloadUpdated scanAllocates db request
        let (enabled, service) := service.IsEnabled db.settings env
        { statusCode := 200, body := Body.request request, db := db, service := service,
          dispatched :=
            if enabled then updateNotifications c request oldStatus oldTechnicianID else [] }

/-- `CreateRepairRequest`, `POST /api/repair-requests`. -/
def CreateRepairRequest (scanAllocates : Bool) (service : TelegramService) (db : DB) (env : Env)
    (now : Time) (body : Option RepairRequest) : HandlerResult :=
  match body with
  | none =>
    { statusCode := 400, body := Body.error "invalid request body", db := db,
      service := service, dispatched := [] }
  | some body =>
    let request := bindJSON body
    let request := if request.Status == "" then { request with Status := StatusPending } else request
    match createRequest db now request with
    | Except.error _ =>
      { statusCode := 500, body := Body.error "Failed to create repair request", db := db,
        service := service, dispatched := [] }
    | Except.ok (db, request) =>
      let request := reloadCreated scanAllocates db request
      let (enabled, service) := service.IsEnabled db.settings env
      { statusCode := 201, body := Body.request request, db := db, service := service,
        dispatched :=
          if enabled then [Notification.NewRepairRequest request request.Requester] else [] }

/-- The request as `UpdateRepairRequest` holds it after the merge, the write
and the reload: the ticket after the update. -/
def updatedRequest (scanAllocates : Bool) (db : DB) (now : Time) (old body : RepairRequest) :
    RepairRequest :=
  reloadUpdated scanAllocates (saveRequest db now (mergeUpdate old (bindJSON body))).1
    (saveRequest db now (mergeUpdate old (bindJSON body))).2

/-! ## Concrete data for evaluating the model -/

def demoSettingsService : SettingsService := { encryption := toyEncryption }

/-- A store with telegram switched on, a token (encrypted, plaintext
`123:abc`), a chat id, and the toggles of new requests, status changes and
assignments switched off. -/
def demoSettings : SettingsTable :=
  [{ Key := "telegram_enabled", Value := "true" },
   { Key := "telegram_bot_token", Value := "acba:321" },
   { Key := "telegram_chat_id", Value := "42" },
   { Key := "telegram_notify_new_request", Value := "false" },
   { Key := "telegram_notify_status_change", Value := "false" },
   { Key := "telegram_notify_assignment", Value := "false" },
   { Key := "telegram_notify_completion", Value := "true" }]

/-- The same store with telegram switched off. -/
def demoSettingsOff : SettingsTable :=
  [{ Key := "telegram_enabled", Value := "false" },
   { Key := "telegram_bot_token", Value := "acba:321" },
   { Key := "telegram_chat_id", Value := "42" }]

def demoEnv : Env := fun _ => ""

/-- An environment that sets `TELEGRAM_ENABLED=true`. -/
def demoEnvEnabled : Env := fun name => if name == "TELEGRAM_ENABLED" then "true" else ""

def demoAdmin : User :=
  { ID := 1, Username := "admin", Email := "admin@example.com", FullName := "Admin",
    Role := "admin", PhoneNumber := "", TelegramID := "" }

def demoTechnician : User :=
  { ID := 7, Username := "somchai", Email := "somchai@example.com", FullName := "Somchai",
    Role := "technician", PhoneNumber := "", TelegramID := "" }

/-- Ticket 1: pending, nobody assigned. -/
def demoPendingRow : RepairRequestRow :=
  { ID := 1, CreatedAt := 1000, UpdatedAt := 1000, Title := "Printer jam", Description := "Tray 2",
    Location := "Room 12", CategoryID := 0, RequesterID := 1, TechnicianID := none,
    Status := "pending", Priority := "medium", Images := [], CompletedAt := none,
    RejectionReason := "", Cost := 0 }

/-- Ticket 2: in progress, assigned to technician 7. -/
def demoAssignedRow : RepairRequestRow :=
  { demoPendingRow with ID := 2, TechnicianID := some 7, Status := "in_progress" }

/-- Ticket 3: completed by technician 7. -/
def demoCompletedRow : RepairRequestRow :=
  { demoPendingRow with
    ID := 3, TechnicianID := some 7, Status := "completed", CompletedAt := some 5000 }

def demoDB : DB :=
  { settings := demoSettings, users := [demoAdmin, demoTechnician], categories := [],
    repairRequests := [demoPendingRow, demoAssignedRow, demoCompletedRow] }

/-- The telegram service of the repair-request handler, as built at start-up. -/
def demoService : TelegramService :=
  NewTelegramServiceWithSettings demoSettingsService demoSettings demoEnv

/-- The network answering every call with 200. -/
def demoPostOk : Transport := fun _ => HttpResult.response 200

/-- The network answering every call with 500. -/
def demoPostDown : Transport := fun _ => HttpResult.response 500

/-- The context of a request by the admin, in the form `RequireRole` accepts. -/
def demoContext : Context := { user := some (CtxValue.userValue demoAdmin) }

/-- The body `{"status": "in_progress", "technicianId": 7}`. -/
def demoAssignBody : RepairRequest :=
  { RepairRequest.zero with
    Status := "in_progress", TechnicianID := some { alloc := Alloc.bind, val := 7 } }

/-- The body `{"technicianId": 7}`. -/
def demoSameTechnicianBody : RepairRequest :=
  { RepairRequest.zero with TechnicianID := some { alloc := Alloc.bind, val := 7 } }

/-- The body `{"status": "rejected", "rejectionReason": "no budget"}`. -/
def demoRejectBody : RepairRequest :=
  { RepairRequest.zero with Status := "rejected", RejectionReason := "no budget" }

/-- The body `{"title": "Printer jam, again"}`. -/
def demoTitleBody : RepairRequest :=
  { RepairRequest.zero with Title := "Printer jam, again" }

/-- The body `{"title": "Broken lamp", "description": "Flickers", "requesterId": 1}`. -/
def demoNewBody : RepairRequest :=
  { RepairRequest.zero with Title := "Broken lamp", Description := "Flickers", RequesterID := 1 }

/-- Ticket 1 as first loaded by `UpdateRepairRequest`. -/
def demoPending : RepairRequest :=
  preloadTechnician demoDB (scanRow true Alloc.load RepairRequest.zero demoPendingRow)

/-- Ticket 2 as first loaded by `UpdateRepairRequest`. -/
def demoAssigned : RepairRequest :=
  preloadTechnician demoDB (scanRow true Alloc.load RepairRequest.zero demoAssignedRow)

/-- Ticket 3 as first loaded by `UpdateRepairRequest`. -/
def demoCompleted : RepairRequest :=
  preloadTechnician demoDB (scanRow true Alloc.load RepairRequest.zero demoCompletedRow)

/-! ## services/settings.go: the whole store -/

def SettingSiteName : String := "site_name"
def SettingSiteDescription : String := "site_description"
def SettingAdminEmail : String := "admin_email"
def SettingAutoAssignTechnicians : String := "auto_assign_technicians"
def SettingRequireApproval : String := "require_approval"
def SettingDefaultPriority : String := "default_priority"
def SettingMaintenanceMode : String := "maintenance_mode"

/-- The invariant of the `settings` table that its unique index on `key`
keeps: at most one row per key. -/
def UniqueKeys (db : SettingsTable) : Prop := (db.map (fun row => row.Key)).Nodup

instance (db : SettingsTable) : Decidable (UniqueKeys db) := by
  unfold UniqueKeys
  infer_instance

/-- The value a row stands for: the decryption of a sensitive row, the stored
text of any other row.  This is what `GetSetting` and `GetAllSettings` do
with a row they have fetched. -/
def SettingsService.plainValue (s : SettingsService) (row : Setting) : Except Error String :=
  if s.isSensitiveKey row.Key then s.encryption.Decrypt row.Value else Except.ok row.Value

/-- A Go `map[string]string`, seen through its lookups. -/
abbrev StringMap := String → Option String

/-- `make(map[string]string)`. -/
def StringMap.empty : StringMap := fun _ => none

/-- The assignment `m[key] = value`. -/
def StringMap.set (m : StringMap) (key value : String) : StringMap :=
  fun k => if k == key then some value else m k

/-- The loop of `GetAllSettings` over the rows that `Find` returned. -/
def SettingsService.getAllLoop (s : SettingsService) :
    List Setting → StringMap → Except Error StringMap
  | [], result => Except.ok result
  | setting :: rest, result =>
    if s.isSensitiveKey setting.Key then
      match s.encryption.Decrypt setting.Value with
      | Except.error err => Except.error err
      | Except.ok decrypted => s.getAllLoop rest (result.set setting.Key decrypted)
    else s.getAllLoop rest (result.set setting.Key setting.Value)

/-- `GetAllSettings`: every row, decrypted where sensitive, or the first
decryption error and no map. -/
def SettingsService.GetAllSettings (s : SettingsService) (db : SettingsTable) :
    Except Error StringMap :=
  s.getAllLoop db StringMap.empty

/-- The default table of `InitializeDefaultSettings`. -/
def defaults : List (String × String) :=
  [(SettingTelegramEnabled, "false"),
   (SettingTelegramNotifyNewRequest, "true"),
   (SettingTelegramNotifyStatusChange, "true"),
   (SettingTelegramNotifyAssignment, "true"),
   (SettingTelegramNotifyCompletion, "true"),
   (SettingSiteName, "Repair System"),
   (SettingSiteDescription, "ระบบแจ้งซ่อมออนไลน์"),
   (SettingAdminEmail, "admin@example.com"),
   (SettingAutoAssignTechnicians, "false"),
   (SettingRequireApproval, "true"),
   (SettingDefaultPriority, "medium"),
   (SettingMaintenanceMode, "false")]

/-- `InitializeDefaultSettings`.  The default table is a Go map, and the
order in which `range` visits it is not fixed: `order` is the order of one
run, some arrangement of `defaults`.  A key is probed with
`Where("key = ?", key).First` and written with `SetSetting` only when the
probe finds no row; the first error of a write ends the run. -/
def SettingsService.InitializeDefaultSettings (s : SettingsService) (nonce : Nat) :
    List (String × String) → SettingsTable → Except Error SettingsTable
  | [], db => Except.ok db
  | (key, defaultValue) :: rest, db =>
    match firstByKey db key with
    | some _ => s.InitializeDefaultSettings nonce rest db
    | none =>
      match s.SetSetting nonce db key defaultValue with
      | Except.error err => Except.error err
      | Except.ok db' => s.InitializeDefaultSettings nonce rest db'

/-- A store whose bot-token row holds a text that `toyEncryption` cannot
decrypt, next to the site name. -/
def demoSettingsCorrupt : SettingsTable :=
  [{ Key := "telegram_bot_token", Value := "" },
   { Key := "site_name", Value := "Workshop" }]
/-! ## Go `time.Duration` and `float64` -/

/-- Go `time.Duration`: a count of nanoseconds (`int64`). -/
abbrev Duration := Int

def Minute : Duration := 60000000000
def Hour : Duration := 3600000000000

/-- `t.Sub(u)`: the difference of two times, kept within the range of `int64`. -/
def Time.Sub (t u : Time) : Duration :=
  let d : Int := (t : Int) - (u : Int)
  if d > 9223372036854775807 then 9223372036854775807
  else if d < -9223372036854775808 then -9223372036854775808
  else d

/-- A finite `float64`, as the rational number it stands for. -/
abbrev Float64 := Rat

/-- The nearest integer, a tie going to the even one. -/
def roundHalfEven (m : Rat) : Int :=
  if m - ⌊m⌋ < 1 / 2 then ⌊m⌋
  else if 1 / 2 < m - ⌊m⌋ then ⌊m⌋ + 1
  else if ⌊m⌋ % 2 = 0 then ⌊m⌋
  else ⌊m⌋ + 1

/-- The position of the leading bit of a natural number, found by halving at
most `fuel` times. -/
def leadingBit : Nat → Nat → Nat
  | 0, _ => 0
  | fuel + 1, n => if n < 2 then 0 else leadingBit fuel (n / 2) + 1

/-- The binary exponent of a rational number other than zero: the `e` with
`2 ^ e ≤ |x| < 2 ^ (e + 1)`, found from the leading bits of numerator and
denominator. -/
def binade (x : Rat) : Int :=
  if (2 : Rat) ^ ((leadingBit x.num.natAbs x.num.natAbs : Int) - (leadingBit x.den x.den : Int))
      ≤ |x| then
    (leadingBit x.num.natAbs x.num.natAbs : Int) - (leadingBit x.den x.den : Int)
  else (leadingBit x.num.natAbs x.num.natAbs : Int) - (leadingBit x.den x.den : Int) - 1

/-- The `float64` nearest to a rational number (IEEE 754 round to nearest,
ties to even): the nearest multiple of the spacing `2 ^ (e - 52)` of the
binade `2 ^ e ≤ |x| < 2 ^ (e + 1)` the number lies in.  Subnormal numbers and
overflow are not modelled; the renderer stays far from both. -/
def roundF64 (x : Rat) : Float64 :=
  if x = 0 then 0
  else (roundHalfEven (x / (2 : Rat) ^ (binade x - 52)) : Rat) * (2 : Rat) ^ (binade x - 52)

/-- The conversion `float64(n)` of an integer. -/
def f64OfInt (n : Int) : Float64 := roundF64 n

/-- `x + y` on `float64`. -/
def f64Add (x y : Float64) : Float64 := roundF64 (x + y)

/-- `x / y` on `float64`. -/
def f64Div (x y : Float64) : Float64 := roundF64 (x / y)

/-- The conversion `int(x)` of a `float64`: the fraction is dropped. -/
def f64ToInt (x : Float64) : Int := if 0 ≤ x then ⌊x⌋ else ⌈x⌉

/-- `d.Hours()` of the Go library:
`hour := d / Hour; nsec := d % Hour; return float64(hour) + float64(nsec)/(60*60*1e9)`. -/
def Duration.Hours (d : Duration) : Float64 :=
  f64Add (f64OfInt (d.tdiv Hour)) (f64Div (f64OfInt (d.tmod Hour)) (roundF64 3600000000000))

/-- `d.Minutes()` of the Go library:
`min := d / Minute; nsec := d % Minute; return float64(min) + float64(nsec)/(60*1e9)`. -/
def Duration.Minutes (d : Duration) : Float64 :=
  f64Add (f64OfInt (d.tdiv Minute)) (f64Div (f64OfInt (d.tmod Minute)) (roundF64 60000000000))

/-- `formatDuration`. -/
def formatDuration (d : Duration) : String :=
  let hours := f64ToInt (Duration.Hours d)
  if hours < 1 then toString (f64ToInt (Duration.Minutes d)) ++ " นาที"
  else if hours < 24 then toString hours ++ " ชั่วโมง"
  else toString (hours.tdiv 24) ++ " วัน"
/-! ## services/telegram.go: the renderer -/

/-- A Go `string`: the sequence of its bytes.  `len` counts them and a slice
expression cuts between them. -/
abbrev GoString := List Nat

/-- The UTF-8 encoding of one character. -/
def utf8EncodeChar (c : Char) : List Nat :=
  let n := c.toNat
  if n < 128 then [n]
  else if n < 2048 then [192 + n / 64, 128 + n % 64]
  else if n < 65536 then [224 + n / 4096, 128 + n / 64 % 64, 128 + n % 64]
  else [240 + n / 262144, 128 + n / 4096 % 64, 128 + n / 64 % 64, 128 + n % 64]

/-- The Go string of a text: its UTF-8 encoding. -/
def goString (text : String) : GoString := text.data.flatMap utf8EncodeChar

/-- The functions of the Go standard library that the renderer calls and the
model leaves open; all of them return a string for every argument.
`formatTime t` is `t.Format("02/01/2006 15:04")`, `toLower` is
`strings.ToLower`, `formatFloat2 x` is `fmt.Sprintf("%.2f", x)`. -/
structure Stdlib where
  formatTime : Time → String
  toLower : String → String
  formatFloat2 : Rat → String

/-- A run-time panic of the Go program. -/
inductive Panic where
  | nilDereference
deriving DecidableEq, Repr

/-- `getPriorityEmoji`. -/
def getPriorityEmoji (priority : String) : String :=
  match priority with
  | "urgent" => "🚨"
  | "high" => "🔴"
  | "medium" => "🟡"
  | "low" => "🟢"
  | _ => "⚪"

/-- `getStatusEmoji`. -/
def getStatusEmoji (status : String) : String :=
  match status with
  | "pending" => "⏳"
  | "in_progress" => "🔧"
  | "waiting_part" => "📦"
  | "completed" => "✅"
  | "rejected" => "❌"
  | _ => "❓"

/-- `getPriorityText`. -/
def getPriorityText (priority : String) : String :=
  match priority with
  | "urgent" => "เร่งด่วน"
  | "high" => "สูง"
  | "medium" => "ปานกลาง"
  | "low" => "ต่ำ"
  | _ => priority

/-- `getStatusText`. -/
def getStatusText (status : String) : String :=
  match status with
  | "pending" => "รอดำเนินการ"
  | "in_progress" => "กำลังดำเนินการ"
  | "waiting_part" => "รออะไหล่"
  | "completed" => "เสร็จสิ้น"
  | "rejected" => "ปฏิเสธ"
  | _ => status

/-- `getTechnicianName`: the argument is a `*models.User`, `none` is nil. -/
def getTechnicianName (technician : Option User) : String :=
  match technician with
  | some technician => technician.FullName
  | none => "ยังไม่ได้มอบหมาย"

/-- `getLocationText`: the argument is a `*string`, `none` is nil. -/
def getLocationText (location : Option String) : String :=
  match location with
  | some location => if location != "" then location else "ไม่ระบุ"
  | none => "ไม่ระบุ"

/-- `getCostText`: the argument is a `*float64`, `none` is nil. -/
def getCostText (lib : Stdlib) (cost : Option Rat) : String :=
  match cost with
  | some cost => if cost > 0 then lib.formatFloat2 cost ++ " บาท" else "ไม่มีค่าใช้จ่าย"
  | none => "ไม่มีค่าใช้จ่าย"

/-- `truncateText`: `len(text)` is the number of bytes of the text and
`text[:maxLength]` its first `maxLength` bytes. -/
def truncateText (text : GoString) (maxLength : Nat) : GoString :=
  if text.length ≤ maxLength then text
  else text.take maxLength ++ goString "..."

/-- The message of `NotifyNewRepairRequest`; `requester` is the struct the
`*models.User` argument points to. -/
def newRepairRequestMessage (lib : Stdlib) (request : RepairRequest) (requester : User) :
    GoString :=
  let priorityEmoji := getPriorityEmoji request.Priority
  let statusEmoji := getStatusEmoji request.Status
  goString ("🔧 <b>แจ้งซ่อมใหม่</b>\n\n" ++ priorityEmoji ++ " <b>" ++ request.Title ++ "</b> "
      ++ statusEmoji ++ "\n\n📋 <b>รายละเอียด:</b>\n• หัวข้อ: " ++ request.Title
      ++ "\n• รายละเอียด: ")
    ++ truncateText (goString request.Description) 100
    ++ goString ("\n• สถานที่: " ++ getLocationText (some request.Location) ++ "\n• ระดับความสำคัญ: "
        ++ getPriorityText request.Priority ++ " " ++ priorityEmoji ++ "\n• สถานะ: "
        ++ getStatusText request.Status ++ " " ++ statusEmoji ++ "\n\n👤 <b>ผู้แจ้ง:</b> "
        ++ requester.FullName ++ " (" ++ requester.Username ++ ")\n🕐 <b>เวลา:</b> "
        ++ lib.formatTime request.CreatedAt ++ "\n\n#แจ้งซ่อม #ใหม่ #"
        ++ lib.toLower request.Priority)

/-- The message of `NotifyStatusChange`; `now` is `time.Now()`. -/
def statusChangeMessage (lib : Stdlib) (now : Time) (request : RepairRequest)
    (oldStatus : String) (technician : Option User) : GoString :=
  let statusEmoji := getStatusEmoji request.Status
  let oldStatusEmoji := getStatusEmoji oldStatus
  goString ("🔄 <b>เปลี่ยนสถานะงานซ่อม</b>\n\n📋 <b>งาน:</b> " ++ request.Title
      ++ "\n\n🔄 <b>สถานะ:</b>\n" ++ oldStatusEmoji ++ " " ++ getStatusText oldStatus
      ++ " ➡️ " ++ statusEmoji ++ " " ++ getStatusText request.Status
      ++ "\n\n👤 <b>ช่าง:</b> " ++ getTechnicianName technician ++ "\n🕐 <b>เวลา:</b> "
      ++ lib.formatTime now ++ "\n\n#เปลี่ยนสถานะ #" ++ lib.toLower request.Status)

/-- The message of `NotifyAssignment`: the fields `technician.FullName` and
`technician.Username` are read through the pointer, which panics on nil. -/
def assignmentMessage (lib : Stdlib) (now : Time) (request : RepairRequest)
    (technician : Option User) : Except Panic GoString :=
  let priorityEmoji := getPriorityEmoji request.Priority
  match technician with
  | none => Except.error Panic.nilDereference
  | some technician => Except.ok (
    goString ("👷‍♂️ <b>มอบหมายงานซ่อม</b>\n\n📋 <b>งาน:</b> " ++ request.Title
        ++ "\n🔧 <b>ช่างที่รับผิดชอบ:</b> " ++ technician.FullName
        ++ "\n⚡ <b>ระดับความสำคัญ:</b> " ++ getPriorityText request.Priority ++ " "
        ++ priorityEmoji ++ "\n\n📍 <b>สถานที่:</b> " ++ getLocationText (some request.Location)
        ++ "\n📅 <b>เวลาที่มอบหมาย:</b> " ++ lib.formatTime now ++ "\n\n#มอบหมายงาน #"
        ++ technician.Username))

/-- The duration text of `NotifyCompletion`: empty unless the request has a
completion time and a creation time that is not the zero time. -/
def completionDuration (request : RepairRequest) : String :=
  match request.CompletedAt with
  | some completedAt =>
    if request.CreatedAt != 0 then formatDuration (Time.Sub completedAt request.CreatedAt) else ""
  | none => ""

/-- The message of `NotifyCompletion`: `technician.FullName` is read through
the pointer and `request.CompletedAt.Format` is called on the pointer, each
of which panics on nil. -/
def completionMessage (lib : Stdlib) (request : RepairRequest) (technician : Option User) :
    Except Panic GoString :=
  let duration := completionDuration request
  match technician with
  | none => Except.error Panic.nilDereference
  | some technician =>
    match request.CompletedAt with
    | none => Except.error Panic.nilDereference
    | some completedAt => Except.ok (
      goString ("✅ <b>งานซ่อมเสร็จสิ้น</b>\n\n📋 <b>งาน:</b> " ++ request.Title
          ++ "\n🔧 <b>ช่าง:</b> " ++ technician.FullName ++ "\n⏱️ <b>ระยะเวลา:</b> " ++ duration
          ++ "\n💰 <b>ค่าใช้จ่าย:</b> " ++ getCostText lib (some request.Cost)
          ++ "\n\n📅 <b>เสร็จสิ้นเมื่อ:</b> " ++ lib.formatTime completedAt
          ++ "\n\n#เสร็จสิ้น #สำเร็จ"))

/-- The message of `NotifyRejection`; `admin` is the struct the
`*models.User` argument points to. -/
def rejectionMessage (lib : Stdlib) (now : Time) (request : RepairRequest) (reason : String)
    (admin : User) : GoString :=
  goString ("❌ <b>ปฏิเสธงานซ่อม</b>\n\n📋 <b>งาน:</b> " ++ request.Title
      ++ "\n👤 <b>ผู้ปฏิเสธ:</b> " ++ admin.FullName ++ "\n\n📝 <b>เหตุผล:</b>\n" ++ reason
      ++ "\n\n📅 <b>เวลา:</b> " ++ lib.formatTime now ++ "\n\n#ปฏิเสธ #ยกเลิก")

/-- The message construction of a started notification: the text its
`Notify...` method hands to `SendMessage`, or the panic it ends in. -/
def Notification.message (lib : Stdlib) (now : Time) : Notification → Except Panic GoString
  | Notification.NewRepairRequest request requester =>
    Except.ok (newRepairRequestMessage lib request requester)
  | Notification.StatusChange request oldStatus technician =>
    Except.ok (statusChangeMessage lib now request oldStatus technician)
  | Notification.Assignment request technician => assignmentMessage lib now request technician
  | Notification.Completion request technician => completionMessage lib request technician
  | Notification.Rejection request reason admin =>
    Except.ok (rejectionMessage lib now request reason admin)

/-! ## More concrete data -/

/-- A store in which the site name was changed and a bot token is set, before
the defaults are seeded. -/
def demoChangedSettings : SettingsTable :=
  [{ Key := "site_name", Value := "Workshop" },
   { Key := "telegram_bot_token", Value := "acba:321" }]

/-- The store `demoChangedSettings` after a run of
`InitializeDefaultSettings` in the order of the table. -/
def demoSeeded : SettingsTable :=
  demoChangedSettings ++
  [{ Key := "telegram_enabled", Value := "false" },
   { Key := "telegram_notify_new_request", Value := "true" },
   { Key := "telegram_notify_status_change", Value := "true" },
   { Key := "telegram_notify_assignment", Value := "true" },
   { Key := "telegram_notify_completion", Value := "true" },
   { Key := "site_description", Value := "ระบบแจ้งซ่อมออนไลน์" },
   { Key := "admin_email", Value := "admin@example.com" },
   { Key := "auto_assign_technicians", Value := "false" },
   { Key := "require_approval", Value := "true" },
   { Key := "default_priority", Value := "medium" },
   { Key := "maintenance_mode", Value := "false" }]

/-- A description of 90 Thai characters. -/
def demoThaiDescription : String := String.mk (List.replicate 90 'ก')

/-- A description of 150 Thai characters. -/
def demoLongThaiDescription : String := String.mk (List.replicate 150 'ก')

/-- Stand-ins for the library functions the renderer calls. -/
def demoLib : Stdlib :=
  { formatTime := fun _ => "04/11/2026 12:00", toLower := fun text => text,
    formatFloat2 := fun _ => "0.00" }

/-- The body `{"status": "completed"}`. -/
def demoCompleteBody : RepairRequest :=
  { RepairRequest.zero with Status := "completed" }

/-! ## models/repair_request.go: the priorities -/

def PriorityLow : String := "low"
def PriorityMedium : String := "medium"
def PriorityHigh : String := "high"
def PriorityUrgent : String := "urgent"

/-! ## api/settings.go -/

structure TelegramSettings where
  Enabled : Bool
  BotToken : String
  ChatID : String
  NotifyOnNewRequest : Bool
  NotifyOnStatusChange : Bool
  NotifyOnAssignment : Bool
  NotifyOnCompletion : Bool
deriving DecidableEq, Repr

structure SystemSettings where
  SiteName : String
  SiteDescription : String
  AdminEmail : String
  AutoAssignTechnicians : Bool
  RequireApproval : Bool
  DefaultPriority : String
  MaintenanceMode : Bool
deriving DecidableEq, Repr

structure Settings where
  Telegram : TelegramSettings
  System : SystemSettings
deriving DecidableEq, Repr

/-- What a settings handler has done so far: the table, and the calls of
`SetSetting` it has made, each with its key and the value passed, in order. -/
structure WriteState where
  settings : SettingsTable
  calls : List (String × String)
deriving DecidableEq, Repr

/-- What `UpdateSettings` leaves behind: the HTTP status, the `error` text of
the response (empty on success), the table, and the calls of `SetSetting` it
made. -/
structure SettingsResponse where
  statusCode : Nat
  error : String
  settings : SettingsTable
  calls : List (String × String)
deriving DecidableEq, Repr

/-- One guarded write of `UpdateSettings`,
`if err := h.settingsService.SetSetting(key, value); err != nil` then answer
500 with `msg` and return, followed by the rest of the handler. -/
def setOrFail (s : SettingsService) (nonce : Nat) (key value msg : String) (st : WriteState)
    (next : WriteState → SettingsResponse) : SettingsResponse :=
  match s.SetSetting nonce st.settings key value with
  | Except.error _ =>
    { statusCode := 500, error := msg, settings := st.settings,
      calls := st.calls ++ [(key, value)] }
  | Except.ok settings => next { settings := settings, calls := st.calls ++ [(key, value)] }

/-- One guarded write of a flag,
`if err := h.settingsService.SetBoolSetting(key, value); err != nil` then
answer 500 with `msg` and return; `SetBoolSetting` calls `SetSetting` with the
formatted flag. -/
def setBoolOrFail (s : SettingsService) (nonce : Nat) (key : String) (value : Bool)
    (msg : String) (st : WriteState) (next : WriteState → SettingsResponse) :
    SettingsResponse :=
  match s.SetBoolSetting nonce st.settings key value with
  | Except.error _ =>
    { statusCode := 500, error := msg, settings := st.settings,
      calls := st.calls ++ [(key, FormatBool value)] }
  | Except.ok settings =>
    next { settings := settings, calls := st.calls ++ [(key, FormatBool value)] }

/-- `UpdateSettings` from the write of the chat id to the end. -/
def updateRest (s : SettingsService) (nonce : Nat) (settings : Settings) (st : WriteState) :
    SettingsResponse :=
  setOrFail s nonce SettingTelegramChatID settings.Telegram.ChatID
    "Failed to update telegram chat ID" st fun st =>
  setBoolOrFail s nonce SettingTelegramNotifyNewRequest settings.Telegram.NotifyOnNewRequest
    "Failed to update notification settings" st fun st =>
  setBoolOrFail s nonce SettingTelegramNotifyStatusChange settings.Telegram.NotifyOnStatusChange
    "Failed to update notification settings" st fun st =>
  setBoolOrFail s nonce SettingTelegramNotifyAssignment settings.Telegram.NotifyOnAssignment
    "Failed to update notification settings" st fun st =>
  setBoolOrFail s nonce SettingTelegramNotifyCompletion settings.Telegram.NotifyOnCompletion
    "Failed to update notification settings" st fun st =>
  setOrFail s nonce SettingSiteName settings.System.SiteName
    "Failed to update site name" st fun st =>
  setOrFail s nonce SettingSiteDescription settings.System.SiteDescription
    "Failed to update site description" st fun st =>
  setOrFail s nonce SettingAdminEmail settings.System.AdminEmail
    "Failed to update admin email" st fun st =>
  setBoolOrFail s nonce SettingAutoAssignTechnicians settings.System.AutoAssignTechnicians
    "Failed to update auto assign setting" st fun st =>
  setBoolOrFail s nonce SettingRequireApproval settings.System.RequireApproval
    "Failed to update require approval setting" st fun st =>
  setOrFail s nonce SettingDefaultPriority settings.System.DefaultPriority
    "Failed to update default priority" st fun st =>
  setBoolOrFail s nonce SettingMaintenanceMode settings.System.MaintenanceMode
    "Failed to update maintenance mode" st fun st =>
  { statusCode := 200, error := "", settings := st.settings, calls := st.calls }

/-- `UpdateSettings`, `PUT /api/settings`; `body` is the result of decoding
the request body (`none` when it fails), `nonce` the nonce an encryption
draws. -/
def UpdateSettings (s : SettingsService) (nonce : Nat) (db : SettingsTable)
    (body : Option Settings) : SettingsResponse :=
  match body with
  | none => { statusCode := 400, error := "invalid request body", settings := db, calls := [] }
  | some settings =>
    setBoolOrFail s nonce SettingTelegramEnabled settings.Telegram.Enabled
      "Failed to update telegram enabled setting" { settings := db, calls := [] } fun st =>
    if settings.Telegram.BotToken != "" && settings.Telegram.BotToken != "***hidden***" then
      setOrFail s nonce SettingTelegramBotToken settings.Telegram.BotToken
        "Failed to update telegram bot token" st (updateRest s nonce settings)
    else updateRest s nonce settings st

/-- The body of `POST /api/settings/test-telegram`; a field the body leaves
out is the empty string. -/
structure TestData where
  BotToken : String
  ChatID : String
deriving DecidableEq, Repr

/-- What `TestTelegram` leaves behind: the HTTP status, the `error` text of
the response (empty on success), the error of `SendMessage` whose text the
handler appends to it, and the outbound calls made. -/
structure TestResponse where
  statusCode : Nat
  error : String
  cause : Option Error
  calls : List OutboundCall
deriving DecidableEq, Repr

/-- The bot token `TestTelegram` uses: the one of the body, or the stored one
when the body has none or the mask. -/
def resolveBotToken (s : SettingsService) (db : SettingsTable) (testData : TestData) :
    Except String String :=
  let botToken := testData.BotToken
  if botToken == "" || botToken == "***hidden***" then
    match s.GetSetting db SettingTelegramBotToken with
    | Except.error _ => Except.error "Bot token not found in database. Please set it first."
    | Except.ok realToken =>
      if realToken == "" then Except.error "Bot token is empty. Please set it first."
      else Except.ok realToken
  else Except.ok botToken

/-- The chat id `TestTelegram` uses: the one of the body, or the stored one
when the body has none. -/
def resolveChatID (s : SettingsService) (db : SettingsTable) (testData : TestData) :
    Except String String :=
  let chatID := testData.ChatID
  if chatID == "" then
    let chatID := s.GetSettingWithDefault db SettingTelegramChatID ""
    if chatID == "" then Except.error "Chat ID is required" else Except.ok chatID
  else Except.ok chatID

/-- The diagnostic message of `TestTelegram`. -/
def testMessage (s : SettingsService) (db : SettingsTable) (lib : Stdlib) (now : Time) :
    String :=
  "🔧 <b>ระบบแจ้งซ่อม - ทดสอบการแจ้งเตือน</b>\n\n✅ การเชื่อมต่อ Telegram Bot สำเร็จ!\n📅 <b>เวลา:</b> "
    ++ lib.formatTime now ++ "\n🔗 <b>ระบบ:</b> "
    ++ s.GetSettingWithDefault db SettingSiteName "Repair System"

/-- The temporary service of `TestTelegram`,
`&services.TelegramService{BotToken: botToken, ChatID: chatID, Enabled: true}`:
no settings service is attached. -/
def testService (botToken chatID : String) : TelegramService :=
  { BotToken := botToken, ChatID := chatID, Enabled := true, settingsService := none }

/-- `TestTelegram`, `POST /api/settings/test-telegram`; `body` is the result
of decoding the request body (`none` when it fails). -/
def TestTelegram (s : SettingsService) (db : SettingsTable) (env : Env) (lib : Stdlib)
    (now : Time) (post : Transport) (body : Option TestData) : TestResponse :=
  match body with
  | none => { statusCode := 400, error := "invalid request body", cause := none, calls := [] }
  | some testData =>
    match resolveBotToken s db testData with
    | Except.error msg => { statusCode := 400, error := msg, cause := none, calls := [] }
    | Except.ok botToken =>
      match resolveChatID s db testData with
      | Except.error msg => { statusCode := 400, error := msg, cause := none, calls := [] }
      | Except.ok chatID =>
        let message := testMessage s db lib now
        let sent := (testService botToken chatID).SendMessage db env post message
        match sent.err with
        | some err =>
          { statusCode := 400, error := "Failed to send test message: ", cause := some err,
            calls := sent.calls }
        | none => { statusCode := 200, error := "", cause := none, calls := sent.calls }

/-! ## Concrete data for the settings handlers -/

/-- The body the settings page sends back unchanged: the mask in place of the
token. -/
def demoMaskedUpdate : Settings :=
  { Telegram :=
      { Enabled := true, BotToken := "***hidden***", ChatID := "42", NotifyOnNewRequest := true,
        NotifyOnStatusChange := true, NotifyOnAssignment := true, NotifyOnCompletion := true },
    System :=
      { SiteName := "Workshop", SiteDescription := "", AdminEmail := "admin@example.com",
        AutoAssignTechnicians := false, RequireApproval := true, DefaultPriority := "medium",
        MaintenanceMode := false } }

/-- The same body with a new bot token. -/
def demoTokenUpdate : Settings :=
  { demoMaskedUpdate with
    Telegram := { demoMaskedUpdate.Telegram with BotToken := "999:xyz" } }

/-- A test request that leaves out the token and sends the mask as chat id. -/
def demoMaskedChatTest : TestData := { BotToken := "", ChatID := "***hidden***" }

/-- A test request that sends the mask as token and leaves out the chat id. -/
def demoMaskedTokenTest : TestData := { BotToken := "***hidden***", ChatID := "" }

/-- A service like `demoService` whose three fields hold other values. -/
def demoStaleService : TelegramService :=
  { BotToken := "stale", ChatID := "", Enabled := false,
    settingsService := some demoSettingsService }

/-- The body `{"status": "completed", "completedAt": ...}` with the completion
time 5000. -/
def demoCompletedAtBody : RepairRequest :=
  { RepairRequest.zero with Status := "completed", CompletedAt := some 5000 }

/-! ## The settings store -/

/-- A created row is the row found for its key when there was none before. -/
theorem firstByKey_createSetting (db : SettingsTable) (key value : String)
    (h : firstByKey db key = none) :
    firstByKey (createSetting db key value) key = some { Key := key, Value := value } := by
  unfold firstByKey createSetting at *
  rw [List.find?_append, h]
  simp

/-- After a save the row found for the key holds the new value. -/
theorem firstByKey_saveByKey (db : SettingsTable) (key value : String) (row : Setting)
    (h : firstByKey db key = some row) :
    firstByKey (saveByKey db key value) key = some { row with Value := value } := by
  induction db with
  | nil => simp [firstByKey] at h
  | cons head rest ih =>
    unfold firstByKey at h ih ⊢
    by_cases hk : head.Key = key
    · simp [saveByKey, hk] at h ⊢
      rw [← h, hk]
    · simp [saveByKey, hk] at h ⊢
      exact ih h

/-- A created row does not change the row found for another key. -/
theorem firstByKey_createSetting_of_ne (db : SettingsTable) (key value other : String)
    (hne : key ≠ other) :
    firstByKey (createSetting db key value) other = firstByKey db other := by
  unfold firstByKey createSetting
  rw [List.find?_append]
  simp [hne]

/-- A save does not change the row found for another key. -/
theorem firstByKey_saveByKey_of_ne (db : SettingsTable) (key value other : String)
    (hne : key ≠ other) :
    firstByKey (saveByKey db key value) other = firstByKey db other := by
  induction db with
  | nil => rfl
  | cons head rest ih =>
    unfold firstByKey at ih ⊢
    by_cases hk : head.Key = key
    · simp [saveByKey, hk, hne]
    · by_cases ho : head.Key = other
      · have hok : ¬ other = key := fun h => hne h.symm
        simp [saveByKey, ← ho, hk]
      · simp [saveByKey, hk, ho]
        exact ih

/-- What a successful `SetSetting` did: it stored `c`, the value itself or its
encryption, in the row of the key, creating the row when there was none. -/
theorem SetSetting_ok (s : SettingsService) (nonce : Nat) (db db' : SettingsTable)
    (key value : String) (hset : s.SetSetting nonce db key value = Except.ok db') :
    ∃ c, (if s.isSensitiveKey key then s.encryption.Encrypt nonce value else Except.ok value)
          = Except.ok c ∧
      db' = (match firstByKey db key with
             | none => createSetting db key c
             | some _ => saveByKey db key c) := by
  unfold SettingsService.SetSetting at hset
  generalize (if s.isSensitiveKey key then s.encryption.Encrypt nonce value else Except.ok value)
    = stored at hset
  cases stored with
  | error err => simp at hset
  | ok c =>
    refine ⟨c, rfl, ?_⟩
    cases hf : firstByKey db key with
    | none => simp [hf] at hset; exact hset.symm
    | some row => simp [hf] at hset; exact hset.symm

/-- A write to one key leaves the row found for every other key as it was. -/
theorem firstByKey_SetSetting_of_ne (s : SettingsService) (nonce : Nat) (db db' : SettingsTable)
    (key value other : String) (hne : key ≠ other)
    (hset : s.SetSetting nonce db key value = Except.ok db') :
    firstByKey db' other = firstByKey db other := by
  obtain ⟨c, _, hdb⟩ := SetSetting_ok s nonce db db' key value hset
  rw [hdb]
  cases firstByKey db key with
  | none => exact firstByKey_createSetting_of_ne db key c other hne
  | some row => exact firstByKey_saveByKey_of_ne db key c other hne

/-- The result of `GetSetting` depends on the table only through the row found
for the key. -/
theorem GetSetting_congr (s : SettingsService) (db db' : SettingsTable) (key : String)
    (h : firstByKey db' key = firstByKey db key) :
    s.GetSetting db' key = s.GetSetting db key := by
  unfold SettingsService.GetSetting
  rw [h]

/-- The row found for the key after a successful `SetSetting`. -/
theorem firstByKey_SetSetting (s : SettingsService) (nonce : Nat) (db db' : SettingsTable)
    (key value : String) (hset : s.SetSetting nonce db key value = Except.ok db') :
    ∃ c, (if s.isSensitiveKey key then s.encryption.Encrypt nonce value else Except.ok value)
          = Except.ok c ∧
      firstByKey db' key = some { Key := key, Value := c } := by
  obtain ⟨c, hc, hdb⟩ := SetSetting_ok s nonce db db' key value hset
  refine ⟨c, hc, ?_⟩
  rw [hdb]
  cases hf : firstByKey db key with
  | none => exact firstByKey_createSetting db key c hf
  | some row =>
    have hkey : row.Key = key := by
      have := List.find?_some hf
      simpa using this
    simp only
    rw [firstByKey_saveByKey db key c row hf, hkey]

/-- C10. For every key, sensitive or not, and every value: once
`SetSetting(k, v)` has succeeded, `GetSetting(k)` succeeds and returns exactly
`v`.  For the sensitive key this rests on the round trip of the encryption
service, decrypt(encrypt(v)) = v; for every other key the row holds `v`
verbatim. -/
theorem GetSetting_after_SetSetting (s : SettingsService) (nonce : Nat) (db db' : SettingsTable)
    (k v : String) (hround : s.encryption.RoundTrip)
    (hset : s.SetSetting nonce db k v = Except.ok db') :
    s.GetSetting db' k = Except.ok v ∧
      (s.isSensitiveKey k = false → firstByKey db' k = some { Key := k, Value := v }) := by
  obtain ⟨c, hc, hrow⟩ := firstByKey_SetSetting s nonce db db' k v hset
  constructor
  · unfold SettingsService.GetSetting
    rw [hrow]
    by_cases hs : s.isSensitiveKey k = true
    · simp only [hs, if_true] at hc ⊢
      exact hround nonce v c hc
    · simp only [hs] at hc ⊢
      simp at hc
      simp [hc]
  · intro hs
    simp [hs] at hc
    rw [hrow, hc]

/-- The toy encryption satisfies the round-trip law. -/
theorem toyEncryption_roundTrip : toyEncryption.RoundTrip := by
  intro nonce v c h
  simp [toyEncryption] at h
  subst h
  simp [toyEncryption]

/-- The round trip at a concrete store: the token `123:abc` is written
encrypted and read back in plaintext. -/
theorem GetSetting_after_SetSetting_witness :
    (SettingsService.mk toyEncryption).SetSetting 5
        [{ Key := "telegram_chat_id", Value := "42" }] "telegram_bot_token" "123:abc"
      = Except.ok [{ Key := "telegram_chat_id", Value := "42" },
          { Key := "telegram_bot_token", Value := "fcba:321" }] ∧
    (SettingsService.mk toyEncryption).GetSetting
        [{ Key := "telegram_chat_id", Value := "42" },
          { Key := "telegram_bot_token", Value := "fcba:321" }]
        "telegram_bot_token" = Except.ok "123:abc" :=
  ⟨by decide,
   (GetSetting_after_SetSetting (SettingsService.mk toyEncryption) 5
      [{ Key := "telegram_chat_id", Value := "42" }]
      [{ Key := "telegram_chat_id", Value := "42" },
        { Key := "telegram_bot_token", Value := "fcba:321" }]
      "telegram_bot_token" "123:abc" toyEncryption_roundTrip (by decide)).1⟩

/-! ## The transport -/

/-- The refreshed fields of a service that is backed by a settings store. -/
theorem refreshSettings_of_store (s : TelegramService) (ss : SettingsService)
    (db : SettingsTable) (env : Env) (hss : s.settingsService = some ss) :
    s.refreshSettings db env =
      { BotToken := ss.GetSettingWithDefault db SettingTelegramBotToken (env "TELEGRAM_BOT_TOKEN"),
        ChatID := ss.GetSettingWithDefault db SettingTelegramChatID (env "TELEGRAM_CHAT_ID"),
        Enabled := ss.GetBoolSetting db SettingTelegramEnabled || env "TELEGRAM_ENABLED" == "true",
        settingsService := some ss } := by
  unfold TelegramService.refreshSettings
  rw [hss]
  cases h : ss.GetBoolSetting db SettingTelegramEnabled <;> simp [h]

/-- The two components of `IsEnabled`. -/
theorem IsEnabled_eq (s : TelegramService) (db : SettingsTable) (env : Env) :
    s.IsEnabled db env =
      ((s.refreshSettings db env).Enabled && (s.refreshSettings db env).BotToken != ""
        && (s.refreshSettings db env).ChatID != "", s.refreshSettings db env) := rfl

/-- When `IsEnabled` answers true. -/
theorem IsEnabled_true_iff (s : TelegramService) (db : SettingsTable) (env : Env) :
    (s.IsEnabled db env).1 = true ↔
      (s.refreshSettings db env).Enabled = true ∧ (s.refreshSettings db env).BotToken ≠ ""
        ∧ (s.refreshSettings db env).ChatID ≠ "" := by
  rw [IsEnabled_eq]
  simp [and_assoc]

/-- A service that is not enabled sends nothing and returns nil. -/
theorem SendMessage_disabled (s : TelegramService) (db : SettingsTable) (env : Env)
    (post : Transport) (message : String) (h : (s.IsEnabled db env).1 = false) :
    (s.SendMessage db env post message).err = none ∧
      (s.SendMessage db env post message).calls = [] := by
  unfold TelegramService.SendMessage
  simp [h]

/-- An enabled service makes one call; the error follows the result of that
call. -/
theorem SendMessage_enabled (s : TelegramService) (db : SettingsTable) (env : Env)
    (post : Transport) (message : String) (h : (s.IsEnabled db env).1 = true) :
    (s.SendMessage db env post message).calls = [sentCall (s.refreshSettings db env) message] ∧
      (s.SendMessage db env post message).err =
        (match post (sentCall (s.refreshSettings db env) message) with
         | HttpResult.failure msg => some (Error.transport msg)
         | HttpResult.response statusCode =>
           if statusCode = 200 then none else some (Error.badStatus statusCode)) := by
  unfold TelegramService.SendMessage
  have h2 : (s.IsEnabled db env).2 = s.refreshSettings db env := rfl
  simp only [h, h2]
  cases hp : post _ with
  | failure msg => simp [hp]
  | response statusCode =>
    by_cases hc : statusCode = 200 <;> simp [hp, hc]

/-- C9. For every message: when the resolved bot token or the resolved chat
id is empty, `SendMessage` returns nil and makes no outbound call, whatever
the enabled flag; when the service is enabled and both are set it makes
exactly one outbound call (to the bot endpoint of the resolved token, with
the resolved chat id, the message and parse mode HTML) and returns an error
exactly when that call fails or answers with a status other than 200. -/
theorem SendMessage_contract (s : TelegramService) (db : SettingsTable) (env : Env)
    (post : Transport) (message : String) :
    (((s.refreshSettings db env).BotToken = "" ∨ (s.refreshSettings db env).ChatID = "") →
        (s.SendMessage db env post message).err = none ∧
        (s.SendMessage db env post message).calls = []) ∧
    ((s.refreshSettings db env).Enabled = true → (s.refreshSettings db env).BotToken ≠ "" →
      (s.refreshSettings db env).ChatID ≠ "" →
        (s.SendMessage db env post message).calls
          = [sentCall (s.refreshSettings db env) message] ∧
        ((s.SendMessage db env post message).err ≠ none ↔
          ((∃ msg, post (sentCall (s.refreshSettings db env) message) = HttpResult.failure msg) ∨
           (∃ statusCode, post (sentCall (s.refreshSettings db env) message)
              = HttpResult.response statusCode ∧ statusCode ≠ 200)))) := by
  constructor
  · intro hempty
    apply SendMessage_disabled
    rw [IsEnabled_eq]
    rcases hempty with h | h <;> simp [h]
  · intro he ht hc
    have hen : (s.IsEnabled db env).1 = true := (IsEnabled_true_iff s db env).2 ⟨he, ht, hc⟩
    obtain ⟨hcalls, herr⟩ := SendMessage_enabled s db env post message hen
    refine ⟨hcalls, ?_⟩
    rw [herr]
    cases hp : post (sentCall (s.refreshSettings db env) message) with
    | failure msg => simp
    | response statusCode =>
      by_cases h200 : statusCode = 200 <;> simp [h200]

/-! ## The update handler -/

/-- The merge keeps the primary key. -/
theorem mergeUpdate_ID (request updateData : RepairRequest) :
    (mergeUpdate request updateData).ID = request.ID := by
  simp only [mergeUpdate, mergeTitle, mergeDescription, mergeLocation, mergeCategoryID,
    mergeTechnicianID, mergeStatus, mergePriority, mergeRejectionReason, mergeCost,
    mergeCompletedAt, apply_ite RepairRequest.ID, ite_self]

/-- The status after the merge. -/
theorem mergeUpdate_Status (request updateData : RepairRequest) :
    (mergeUpdate request updateData).Status =
      if updateData.Status != "" then updateData.Status else request.Status := by
  simp only [mergeUpdate, mergeTitle, mergeDescription, mergeLocation, mergeCategoryID,
    mergeTechnicianID, mergeStatus, mergePriority, mergeRejectionReason, mergeCost,
    mergeCompletedAt, apply_ite RepairRequest.Status, ite_self]

/-- The technician pointer after the merge. -/
theorem mergeUpdate_TechnicianID (request updateData : RepairRequest) :
    (mergeUpdate request updateData).TechnicianID =
      if updateData.TechnicianID.isSome then updateData.TechnicianID
      else request.TechnicianID := by
  simp only [mergeUpdate, mergeTitle, mergeDescription, mergeLocation, mergeCategoryID,
    mergeTechnicianID, mergeStatus, mergePriority, mergeRejectionReason, mergeCost,
    mergeCompletedAt, apply_ite RepairRequest.TechnicianID, ite_self]

/-- The rejection reason after the merge. -/
theorem mergeUpdate_RejectionReason (request updateData : RepairRequest) :
    (mergeUpdate request updateData).RejectionReason =
      if updateData.RejectionReason != "" then updateData.RejectionReason
      else request.RejectionReason := by
  simp only [mergeUpdate, mergeTitle, mergeDescription, mergeLocation, mergeCategoryID,
    mergeTechnicianID, mergeStatus, mergePriority, mergeRejectionReason, mergeCost,
    mergeCompletedAt, apply_ite RepairRequest.RejectionReason, ite_self]

/-- The merge keeps the technician the struct holds. -/
theorem mergeUpdate_Technician (request updateData : RepairRequest) :
    (mergeUpdate request updateData).Technician = request.Technician := by
  simp only [mergeUpdate, mergeTitle, mergeDescription, mergeLocation, mergeCategoryID,
    mergeTechnicianID, mergeStatus, mergePriority, mergeRejectionReason, mergeCost,
    mergeCompletedAt, apply_ite RepairRequest.Technician, ite_self]

/-- The write of the technician id keeps the primary key. -/
theorem syncTechnicianID_ID (r : RepairRequest) : (syncTechnicianID r).ID = r.ID := by
  unfold syncTechnicianID
  split <;> rfl

/-- The write of the technician id keeps the status. -/
theorem syncTechnicianID_Status (r : RepairRequest) :
    (syncTechnicianID r).Status = r.Status := by
  unfold syncTechnicianID
  split <;> rfl

/-- The write of the technician id keeps the rejection reason. -/
theorem syncTechnicianID_RejectionReason (r : RepairRequest) :
    (syncTechnicianID r).RejectionReason = r.RejectionReason := by
  unfold syncTechnicianID
  split <;> rfl

/-- The technician id after the write of the technician id: a field that was
not nil points to the cell it pointed to. -/
theorem syncTechnicianID_TechnicianID (r : RepairRequest) (p : UintPtr)
    (h : r.TechnicianID = some p) :
    (syncTechnicianID r).TechnicianID =
      some { alloc := p.alloc,
             val := match r.Technician with
                    | some technician => technician.ID
                    | none => p.val } := by
  unfold syncTechnicianID
  cases r.Technician with
  | none => simp only [h]
  | some technician => simp only [h]


/-- A row written over the row of its primary key is the row found for that
key. -/
theorem find_replaced (rows : List RepairRequestRow) (id : Int) (row new : RepairRequestRow)
    (h : rows.find? (fun x => (x.ID : Int) == id) = some row) (hid : new.ID = row.ID) :
    (rows.map (fun x => if x.ID == new.ID then new else x)).find?
        (fun x => (x.ID : Int) == (new.ID : Int)) = some new := by
  have hrow : (row.ID : Int) = id := by
    have := List.find?_some h
    simpa using this
  induction rows with
  | nil => simp at h
  | cons head rest ih =>
    by_cases hh : (head.ID : Int) = id
    · have hn : head.ID = new.ID := by
        rw [hid]
        exact_mod_cast hh.trans hrow.symm
      simp [hn]
    · have hn : ¬ head.ID = new.ID := by
        intro he
        apply hh
        rw [he, hid]
        exact hrow
      have hrest : rest.find? (fun x => (x.ID : Int) == id) = some row := by
        simpa [List.find?_cons, hh] using h
      have hn2 : ((head.ID : Int) == (new.ID : Int)) = false := by
        simp only [beq_eq_false_iff_ne, ne_eq]
        exact_mod_cast hn
      have hn3 : (head.ID == new.ID) = false := by simpa using hn
      rw [List.map_cons, hn3]
      simp only [Bool.false_eq_true, if_false, List.find?_cons, hn2]
      exact ih hrest

/-- A loaded request comes from the row with the id. -/
theorem loadRequest_some (scanAllocates : Bool) (db : DB) (id : Int) (old : RepairRequest)
    (hold : loadRequest scanAllocates db id = some old) :
    ∃ row, findRequest db id = some row ∧
      old = preloadTechnician db (scanRow scanAllocates Alloc.load RepairRequest.zero row) := by
  unfold loadRequest at hold
  cases hf : findRequest db id with
  | none => simp [hf] at hold
  | some row =>
    refine ⟨row, rfl, ?_⟩
    simp [hf] at hold
    exact hold.symm

/-- The reload of `UpdateRepairRequest` finds the row that was just written. -/
theorem findRequest_saveRequest (scanAllocates : Bool) (db : DB) (now : Time) (id : Int)
    (old r : RepairRequest) (hold : loadRequest scanAllocates db id = some old)
    (hid : r.ID = old.ID) :
    findRequest (saveRequest db now r).1 ((saveRequest db now r).2.ID : Int)
      = some (saveRequest db now r).2.toRow := by
  obtain ⟨row, hrow, hdef⟩ := loadRequest_some scanAllocates db id old hold
  have holdID : old.ID = row.ID := by rw [hdef]; rfl
  unfold findRequest at hrow ⊢
  exact find_replaced db.repairRequests id row (saveRequest db now r).2.toRow hrow
    (by show (syncTechnicianID r).ID = row.ID; rw [syncTechnicianID_ID, hid, holdID])

/-- The request after the update is the written row, scanned back with its
associations. -/
theorem updatedRequest_eq (scanAllocates : Bool) (db : DB) (now : Time) (id : Int)
    (old body : RepairRequest) (hold : loadRequest scanAllocates db id = some old) :
    updatedRequest scanAllocates db now old body =
      preloadTechnician (saveRequest db now (mergeUpdate old (bindJSON body))).1
        (preloadRequester (saveRequest db now (mergeUpdate old (bindJSON body))).1
          (preloadCategory (saveRequest db now (mergeUpdate old (bindJSON body))).1
            (scanRow scanAllocates Alloc.reload
              (saveRequest db now (mergeUpdate old (bindJSON body))).2
              (saveRequest db now (mergeUpdate old (bindJSON body))).2.toRow))) := by
  unfold updatedRequest reloadUpdated
  rw [findRequest_saveRequest scanAllocates db now id old _ hold (mergeUpdate_ID old _)]

/-- The status after the update: the status of the body when it is not empty,
the old status otherwise. -/
theorem updatedRequest_Status (scanAllocates : Bool) (db : DB) (now : Time) (id : Int)
    (old body : RepairRequest) (hold : loadRequest scanAllocates db id = some old) :
    (updatedRequest scanAllocates db now old body).Status =
      if body.Status != "" then body.Status else old.Status := by
  rw [updatedRequest_eq scanAllocates db now id old body hold]
  show (syncTechnicianID (mergeUpdate old (bindJSON body))).Status = _
  rw [syncTechnicianID_Status, mergeUpdate_Status]
  rfl

/-- The rejection reason after the update. -/
theorem updatedRequest_RejectionReason (scanAllocates : Bool) (db : DB) (now : Time) (id : Int)
    (old body : RepairRequest) (hold : loadRequest scanAllocates db id = some old) :
    (updatedRequest scanAllocates db now old body).RejectionReason =
      if body.RejectionReason != "" then body.RejectionReason else old.RejectionReason := by
  rw [updatedRequest_eq scanAllocates db now id old body hold]
  show (syncTechnicianID (mergeUpdate old (bindJSON body))).RejectionReason = _
  rw [syncTechnicianID_RejectionReason, mergeUpdate_RejectionReason]
  rfl

/-- The technician pointer after the update, as the write and the reload
leave it. -/
theorem updatedRequest_TechnicianID (scanAllocates : Bool) (db : DB) (now : Time) (id : Int)
    (old body : RepairRequest) (hold : loadRequest scanAllocates db id = some old) :
    (updatedRequest scanAllocates db now old body).TechnicianID =
      scanTechnicianID scanAllocates Alloc.reload
        (syncTechnicianID (mergeUpdate old (bindJSON body))).TechnicianID
        ((syncTechnicianID (mergeUpdate old (bindJSON body))).TechnicianID.map
          (fun p => p.val)) := by
  rw [updatedRequest_eq scanAllocates db now id old body hold]
  rfl

/-- What a run of `UpdateRepairRequest` on an existing ticket with a decodable
body does. -/
theorem UpdateRepairRequest_run (scanAllocates : Bool) (service : TelegramService) (db : DB)
    (env : Env) (now : Time) (c : Context) (id : Int) (old body : RepairRequest)
    (hold : loadRequest scanAllocates db id = some old) :
    (UpdateRepairRequest scanAllocates service db env now c (some id) (some body)).statusCode
        = 200 ∧
    (UpdateRepairRequest scanAllocates service db env now c (some id) (some body)).body
        = Body.request (updatedRequest scanAllocates db now old body) ∧
    (UpdateRepairRequest scanAllocates service db env now c (some id) (some body)).dispatched
        = if (service.IsEnabled db.settings env).1 then
            updateNotifications c (updatedRequest scanAllocates db now old body)
              old.Status old.TechnicianID
          else [] := by
  unfold UpdateRepairRequest
  simp only [hold]
  refine ⟨trivial, rfl, rfl⟩

/-- The notifications of an update, one by one. -/
theorem mem_updateNotifications (c : Context) (request : RepairRequest) (oldStatus : String)
    (oldTechnicianID : Option UintPtr) (n : Notification) :
    n ∈ updateNotifications c request oldStatus oldTechnicianID ↔
      (request.Status ≠ oldStatus ∧
        n = Notification.StatusChange request oldStatus request.Technician) ∨
      (ptrNe request.TechnicianID oldTechnicianID = true ∧ request.TechnicianID.isSome = true ∧
        n = Notification.Assignment request request.Technician) ∨
      (request.Status = StatusCompleted ∧
        n = Notification.Completion request request.Technician) ∨
      (request.Status = StatusRejected ∧ request.RejectionReason ≠ "" ∧
        ∃ admin, c.user = some (CtxValue.userPointer admin) ∧
          n = Notification.Rejection request request.RejectionReason admin) := by
  unfold updateNotifications
  simp only [List.mem_append]
  have h1 : n ∈ (if request.Status != oldStatus then
        [Notification.StatusChange request oldStatus request.Technician] else []) ↔
      (request.Status ≠ oldStatus ∧
        n = Notification.StatusChange request oldStatus request.Technician) := by
    by_cases h : request.Status = oldStatus
    · simp only [bne_iff_ne, ne_eq, h, not_true_eq_false, if_false, List.not_mem_nil, false_and]
    · simp only [bne_iff_ne, ne_eq, h, not_false_eq_true, if_true, List.mem_singleton, true_and]
  have h2 : n ∈ (if ptrNe request.TechnicianID oldTechnicianID && request.TechnicianID.isSome then
        [Notification.Assignment request request.Technician] else []) ↔
      (ptrNe request.TechnicianID oldTechnicianID = true ∧ request.TechnicianID.isSome = true ∧
        n = Notification.Assignment request request.Technician) := by
    cases ptrNe request.TechnicianID oldTechnicianID <;>
      cases request.TechnicianID.isSome <;>
      simp only [Bool.and_self, Bool.and_true, Bool.and_false, Bool.false_eq_true, if_false,
        if_true, List.not_mem_nil, List.mem_singleton, false_and, true_and, and_false]
  have h3 : n ∈ (if request.Status == StatusCompleted then
        [Notification.Completion request request.Technician] else []) ↔
      (request.Status = StatusCompleted ∧
        n = Notification.Completion request request.Technician) := by
    by_cases h : request.Status = StatusCompleted
    · simp only [h, beq_self_eq_true, if_true, List.mem_singleton, true_and]
    · simp only [beq_iff_eq, h, if_false, List.not_mem_nil, false_and]
  have h4 : n ∈ (if request.Status == StatusRejected && request.RejectionReason != "" then
        match c.user with
        | some (CtxValue.userPointer admin) =>
          [Notification.Rejection request request.RejectionReason admin]
        | _ => []
      else []) ↔
      (request.Status = StatusRejected ∧ request.RejectionReason ≠ "" ∧
        ∃ admin, c.user = some (CtxValue.userPointer admin) ∧
          n = Notification.Rejection request request.RejectionReason admin) := by
    by_cases hs : request.Status = StatusRejected
    · by_cases hr : request.RejectionReason = ""
      · simp only [hs, hr, bne_self_eq_false, Bool.and_false, Bool.false_eq_true, if_false,
          List.not_mem_nil, ne_eq, not_true_eq_false, false_and, and_false]
      · have hcond : (request.Status == StatusRejected && request.RejectionReason != "") = true := by
          simp only [hs, beq_self_eq_true, Bool.true_and, bne_iff_ne, ne_eq, hr,
            not_false_eq_true]
        rw [if_pos hcond]
        rcases hu : c.user with _ | v
        · simp only [List.not_mem_nil, false_iff, not_and, not_exists]
          intro _ _ admin h
          exact absurd h (by simp)
        · cases v with
          | userPointer admin =>
            simp only [List.mem_singleton, hs, ne_eq, hr, not_false_eq_true, true_and,
              Option.some.injEq, CtxValue.userPointer.injEq]
            constructor
            · intro h; exact ⟨admin, rfl, h⟩
            · rintro ⟨a, ha, h⟩; rw [ha]; exact h
          | userValue u =>
            simp only [List.not_mem_nil, false_iff, not_and, not_exists]
            intro _ _ admin h
            exact absurd h (by simp)
          | other t =>
            simp only [List.not_mem_nil, false_iff, not_and, not_exists]
            intro _ _ admin h
            exact absurd h (by simp)
    · have hcond : (request.Status == StatusRejected) = false := by
        simp only [beq_eq_false_iff_ne, ne_eq, hs, not_false_eq_true]
      simp only [hcond, Bool.false_and, Bool.false_eq_true, if_false, List.not_mem_nil, hs,
        false_and]
  rw [h1, h2, h3, h4]
  simp only [or_assoc]

/-- The kinds of the notifications of an update come in the order of the
four `go` statements, each at most once. -/
theorem updateNotifications_kinds (c : Context) (request : RepairRequest) (oldStatus : String)
    (oldTechnicianID : Option UintPtr) :
    ((updateNotifications c request oldStatus oldTechnicianID).map Notification.kind).Sublist
      [Kind.statusChanged, Kind.assigned, Kind.completed, Kind.rejected] := by
  unfold updateNotifications
  rcases hu : c.user with _ | v
  · split_ifs <;> simp [Notification.kind]
  · cases v <;> split_ifs <;> simp [Notification.kind]

/-- The notifications of an update on an existing ticket once `IsEnabled` has
answered true. -/
theorem UpdateRepairRequest_dispatched_enabled (scanAllocates : Bool) (service : TelegramService)
    (db : DB) (env : Env) (now : Time) (c : Context) (id : Int) (old body : RepairRequest)
    (hold : loadRequest scanAllocates db id = some old)
    (hen : (service.IsEnabled db.settings env).1 = true) :
    (UpdateRepairRequest scanAllocates service db env now c (some id) (some body)).dispatched
      = updateNotifications c (updatedRequest scanAllocates db now old body)
          old.Status old.TechnicianID := by
  rw [(UpdateRepairRequest_run scanAllocates service db env now c id old body hold).2.2, hen]
  rfl

/-- Every run of `UpdateRepairRequest` starts its notifications in the order
status change, assignment, completion, rejection, each at most once. -/
theorem UpdateRepairRequest_kinds (scanAllocates : Bool) (service : TelegramService)
    (db : DB) (env : Env) (now : Time) (c : Context) (id : Option Int)
    (body : Option RepairRequest) :
    ((UpdateRepairRequest scanAllocates service db env now c id body).dispatched.map
        Notification.kind).Sublist
      [Kind.statusChanged, Kind.assigned, Kind.completed, Kind.rejected] := by
  cases id with
  | none => simp [UpdateRepairRequest]
  | some id =>
    cases hold : loadRequest scanAllocates db id with
    | none => simp [UpdateRepairRequest, hold]
    | some old =>
      cases body with
      | none => simp [UpdateRepairRequest, hold]
      | some body =>
        rw [(UpdateRepairRequest_run scanAllocates service db env now c id old body hold).2.2]
        split
        · exact updateNotifications_kinds _ _ _ _
        · simp

/-- C2. The notifications of one update are started in the fixed order
StatusChanged, Assigned, Completed, Rejected (each at most once); and with
notifications enabled, a ticket that was pending with no technician and is
in progress with technician `T1` after the update gets exactly
StatusChanged(pending to in_progress) followed by Assigned(T1). -/
theorem update_dispatch_order (scanAllocates : Bool) (service : TelegramService)
    (db : DB) (env : Env) (now : Time) (c : Context) (id : Option Int)
    (body : Option RepairRequest) :
    ((UpdateRepairRequest scanAllocates service db env now c id body).dispatched.map
        Notification.kind).Sublist
      [Kind.statusChanged, Kind.assigned, Kind.completed, Kind.rejected] ∧
    ∀ (i : Int) (old b : RepairRequest) (T1 : Nat),
      id = some i → body = some b → loadRequest scanAllocates db i = some old →
      (service.IsEnabled db.settings env).1 = true →
      old.Status = StatusPending → old.TechnicianID = none →
      (updatedRequest scanAllocates db now old b).Status = StatusInProgress →
      (updatedRequest scanAllocates db now old b).TechnicianID.map (fun p => p.val) = some T1 →
      (UpdateRepairRequest scanAllocates service db env now c id body).body
          = Body.request (updatedRequest scanAllocates db now old b) ∧
      (UpdateRepairRequest scanAllocates service db env now c id body).dispatched
          = [Notification.StatusChange (updatedRequest scanAllocates db now old b) StatusPending
               (updatedRequest scanAllocates db now old b).Technician,
             Notification.Assignment (updatedRequest scanAllocates db now old b)
               (updatedRequest scanAllocates db now old b).Technician] := by
  refine ⟨UpdateRepairRequest_kinds scanAllocates service db env now c id body, ?_⟩
  intro i old b T1 hid hbody hold hen hstatus htech hnew hT1
  subst hid hbody
  refine ⟨(UpdateRepairRequest_run scanAllocates service db env now c i old b hold).2.1, ?_⟩
  rw [UpdateRepairRequest_dispatched_enabled scanAllocates service db env now c i old b hold hen]
  unfold updateNotifications
  rw [hstatus, htech, hnew]
  cases hp : (updatedRequest scanAllocates db now old b).TechnicianID with
  | none => rw [hp] at hT1; simp at hT1
  | some p =>
    simp [ptrNe, StatusInProgress, StatusPending, StatusCompleted, StatusRejected]

/-- C6. With notifications enabled, an update of an existing ticket starts a
StatusChanged notification exactly when the status after the update differs
from the status before it, and that notification carries the old status as
its "from" and the updated request, whose status is the "to". -/
theorem statusChanged_iff (scanAllocates : Bool) (service : TelegramService)
    (db : DB) (env : Env) (now : Time) (c : Context) (id : Int) (old body : RepairRequest)
    (hold : loadRequest scanAllocates db id = some old)
    (hen : (service.IsEnabled db.settings env).1 = true) :
    (UpdateRepairRequest scanAllocates service db env now c (some id) (some body)).body
        = Body.request (updatedRequest scanAllocates db now old body) ∧
    ((∃ n ∈ (UpdateRepairRequest scanAllocates service db env now c (some id)
          (some body)).dispatched, n.kind = Kind.statusChanged) ↔
      (updatedRequest scanAllocates db now old body).Status ≠ old.Status) ∧
    (∀ n ∈ (UpdateRepairRequest scanAllocates service db env now c (some id)
          (some body)).dispatched, n.kind = Kind.statusChanged →
      n = Notification.StatusChange (updatedRequest scanAllocates db now old body) old.Status
            (updatedRequest scanAllocates db now old body).Technician) := by
  refine ⟨(UpdateRepairRequest_run scanAllocates service db env now c id old body hold).2.1, ?_⟩
  rw [UpdateRepairRequest_dispatched_enabled scanAllocates service db env now c id old body hold
    hen]
  have key : ∀ n, n ∈ updateNotifications c (updatedRequest scanAllocates db now old body)
        old.Status old.TechnicianID → n.kind = Kind.statusChanged →
      (updatedRequest scanAllocates db now old body).Status ≠ old.Status ∧
      n = Notification.StatusChange (updatedRequest scanAllocates db now old body) old.Status
            (updatedRequest scanAllocates db now old body).Technician := by
    intro n hn hk
    rw [mem_updateNotifications] at hn
    rcases hn with ⟨h1, h2⟩ | ⟨_, _, h2⟩ | ⟨_, h2⟩ | ⟨_, _, admin, _, h2⟩
    · exact ⟨h1, h2⟩
    · rw [h2] at hk; simp [Notification.kind] at hk
    · rw [h2] at hk; simp [Notification.kind] at hk
    · rw [h2] at hk; simp [Notification.kind] at hk
  refine ⟨⟨?_, ?_⟩, fun n hn hk => (key n hn hk).2⟩
  · rintro ⟨n, hn, hk⟩
    exact (key n hn hk).1
  · intro hne
    refine ⟨_, (mem_updateNotifications _ _ _ _ _).2 (Or.inl ⟨hne, rfl⟩), rfl⟩

/-- C5. With notifications enabled, an update of an existing ticket starts a
Completed notification exactly when the status after the update is
`completed`; in particular a completed ticket that is saved again without a
status in the body starts it again. -/
theorem completed_iff (scanAllocates : Bool) (service : TelegramService)
    (db : DB) (env : Env) (now : Time) (c : Context) (id : Int) (old body : RepairRequest)
    (hold : loadRequest scanAllocates db id = some old)
    (hen : (service.IsEnabled db.settings env).1 = true) :
    ((∃ n ∈ (UpdateRepairRequest scanAllocates service db env now c (some id)
          (some body)).dispatched, n.kind = Kind.completed) ↔
      (updatedRequest scanAllocates db now old body).Status = StatusCompleted) ∧
    (∀ n ∈ (UpdateRepairRequest scanAllocates service db env now c (some id)
          (some body)).dispatched, n.kind = Kind.completed →
      n = Notification.Completion (updatedRequest scanAllocates db now old body)
            (updatedRequest scanAllocates db now old body).Technician) ∧
    (old.Status = StatusCompleted → body.Status = "" →
      Notification.Completion (updatedRequest scanAllocates db now old body)
          (updatedRequest scanAllocates db now old body).Technician
        ∈ (UpdateRepairRequest scanAllocates service db env now c (some id)
            (some body)).dispatched) := by
  rw [UpdateRepairRequest_dispatched_enabled scanAllocates service db env now c id old body hold
    hen]
  have key : ∀ n, n ∈ updateNotifications c (updatedRequest scanAllocates db now old body)
        old.Status old.TechnicianID → n.kind = Kind.completed →
      (updatedRequest scanAllocates db now old body).Status = StatusCompleted ∧
      n = Notification.Completion (updatedRequest scanAllocates db now old body)
            (updatedRequest scanAllocates db now old body).Technician := by
    intro n hn hk
    rw [mem_updateNotifications] at hn
    rcases hn with ⟨_, h2⟩ | ⟨_, _, h2⟩ | ⟨h1, h2⟩ | ⟨_, _, admin, _, h2⟩
    · rw [h2] at hk; simp [Notification.kind] at hk
    · rw [h2] at hk; simp [Notification.kind] at hk
    · exact ⟨h1, h2⟩
    · rw [h2] at hk; simp [Notification.kind] at hk
  refine ⟨⟨?_, ?_⟩, fun n hn hk => (key n hn hk).2, ?_⟩
  · rintro ⟨n, hn, hk⟩
    exact (key n hn hk).1
  · intro hc
    refine ⟨_, (mem_updateNotifications _ _ _ _ _).2 (Or.inr (Or.inr (Or.inl ⟨hc, rfl⟩))), rfl⟩
  · intro hs hb
    refine (mem_updateNotifications _ _ _ _ _).2 (Or.inr (Or.inr (Or.inl ⟨?_, rfl⟩)))
    rw [updatedRequest_Status scanAllocates db now id old body hold, hb, hs]
    rfl

/-- Whenever the body of an update carries a technician id, the technician
pointer after the update differs from the one before it, whatever the two
numbers are; the number after the update is the id of the technician the
ticket had, or the one of the body when it had none. -/
theorem ptrNe_of_body_technician (scanAllocates : Bool) (db : DB) (now : Time) (id : Int)
    (old body : RepairRequest) (p : UintPtr)
    (hold : loadRequest scanAllocates db id = some old) (hbody : body.TechnicianID = some p) :
    ptrNe (updatedRequest scanAllocates db now old body).TechnicianID old.TechnicianID = true ∧
      (updatedRequest scanAllocates db now old body).TechnicianID.map (fun q => q.val)
        = some (match old.Technician with
                | some technician => technician.ID
                | none => p.val) := by
  obtain ⟨row, _, hdef⟩ := loadRequest_some scanAllocates db id old hold
  have hot : old.TechnicianID.map (fun q => q.alloc) = row.TechnicianID.map (fun _ => Alloc.load) := by
    rw [hdef]
    show (scanTechnicianID scanAllocates Alloc.load none row.TechnicianID).map _ = _
    cases row.TechnicianID <;> rfl
  have hmerged : (mergeUpdate old (bindJSON body)).TechnicianID
      = some { alloc := Alloc.bind, val := p.val } := by
    rw [mergeUpdate_TechnicianID]
    simp only [bindJSON, hbody, Option.map_some', Option.isSome_some, if_true]
  rw [updatedRequest_TechnicianID scanAllocates db now id old body hold,
    syncTechnicianID_TechnicianID _ _ hmerged, mergeUpdate_Technician]
  unfold ptrNe
  rw [hot]
  cases scanAllocates <;> cases row.TechnicianID <;> simp [scanTechnicianID]

/-- With notifications enabled, every update whose body carries a technician
id starts an Assigned notification, also when the id is the one already
stored. -/
theorem assignment_of_body_technician (scanAllocates : Bool) (service : TelegramService)
    (db : DB) (env : Env) (now : Time) (c : Context) (id : Int) (old body : RepairRequest)
    (p : UintPtr) (hold : loadRequest scanAllocates db id = some old)
    (hen : (service.IsEnabled db.settings env).1 = true) (hbody : body.TechnicianID = some p) :
    Notification.Assignment (updatedRequest scanAllocates db now old body)
        (updatedRequest scanAllocates db now old body).Technician
      ∈ (UpdateRepairRequest scanAllocates service db env now c (some id) (some body)).dispatched := by
  rw [UpdateRepairRequest_dispatched_enabled scanAllocates service db env now c id old body hold
    hen]
  obtain ⟨hne, hval⟩ := ptrNe_of_body_technician scanAllocates db now id old body p hold hbody
  refine (mem_updateNotifications _ _ _ _ _).2 (Or.inr (Or.inl ⟨hne, ?_, rfl⟩))
  cases h : (updatedRequest scanAllocates db now old body).TechnicianID with
  | none => rw [h] at hval; simp at hval
  | some q => rfl

/-- A request that passed `RequireRole` never gets a Rejected notification
from `UpdateRepairRequest`: the guard accepts a `models.User` value under
"user", the handler looks for a `*models.User`. -/
theorem no_rejection_after_RequireRole (roles : List String) (scanAllocates : Bool)
    (service : TelegramService) (db : DB) (env : Env) (now : Time) (c : Context)
    (id : Option Int) (body : Option RepairRequest) (n : Notification)
    (hrole : RequireRole roles c = Verdict.next)
    (hn : n ∈ (UpdateRepairRequest scanAllocates service db env now c id body).dispatched) :
    n.kind ≠ Kind.rejected := by
  have hctx : ∀ admin, c.user ≠ some (CtxValue.userPointer admin) := by
    intro admin h
    unfold RequireRole at hrole
    rw [h] at hrole
    simp at hrole
  cases id with
  | none => simp [UpdateRepairRequest] at hn
  | some id =>
    cases hold : loadRequest scanAllocates db id with
    | none => simp [UpdateRepairRequest, hold] at hn
    | some old =>
      cases body with
      | none => simp [UpdateRepairRequest, hold] at hn
      | some body =>
        rw [(UpdateRepairRequest_run scanAllocates service db env now c id old body hold).2.2]
          at hn
        split at hn
        · rw [mem_updateNotifications] at hn
          rcases hn with ⟨_, h2⟩ | ⟨_, _, h2⟩ | ⟨_, h2⟩ | ⟨_, _, admin, hu, _⟩
          · rw [h2]; simp [Notification.kind]
          · rw [h2]; simp [Notification.kind]
          · rw [h2]; simp [Notification.kind]
          · exact absurd hu (hctx admin)
        · simp at hn

/-! ## The create handler -/

/-- The assignment of a primary key keeps the status. -/
theorem assignID_Status (db : DB) (r : RepairRequest) : (assignID db r).Status = r.Status := by
  unfold assignID
  split <;> rfl

/-- The timestamps keep the primary key. -/
theorem stampTimes_ID (now : Time) (r : RepairRequest) : (stampTimes now r).ID = r.ID := by
  unfold stampTimes
  split <;> rfl

/-- The timestamps keep the status. -/
theorem stampTimes_Status (now : Time) (r : RepairRequest) :
    (stampTimes now r).Status = r.Status := by
  unfold stampTimes
  split <;> rfl

/-- The column defaults keep the primary key. -/
theorem applyDefaults_ID (r : RepairRequest) : (applyDefaults r).ID = r.ID := by
  simp only [applyDefaults, apply_ite RepairRequest.ID, ite_self]

/-- The column defaults keep a status that is not empty. -/
theorem applyDefaults_Status (r : RepairRequest) (h : r.Status ≠ "") :
    (applyDefaults r).Status = r.Status := by
  have hs : (r.Status == "") = false := by simp [h]
  simp only [applyDefaults, hs, Bool.false_eq_true, if_false, apply_ite RepairRequest.Status,
    ite_self]

/-- What a successful `Create` did. -/
theorem createRequest_ok (db db' : DB) (now : Time) (r r' : RepairRequest)
    (h : createRequest db now r = Except.ok (db', r')) :
    db'.settings = db.settings ∧ db'.users = db.users ∧
      db'.repairRequests = db.repairRequests ++ [r'.toRow] ∧
      (∀ row ∈ db.repairRequests, row.ID ≠ r'.ID) ∧
      (r.Status ≠ "" → r'.Status = r.Status) := by
  unfold createRequest at h
  simp only [] at h
  split at h
  · exact absurd h (by simp)
  · rename_i hany
    injection h with h
    injection h with h1 h2
    subst h1 h2
    refine ⟨rfl, rfl, rfl, ?_, ?_⟩
    · intro row hrow heq
      apply hany
      rw [List.any_eq_true]
      refine ⟨row, hrow, ?_⟩
      rw [stampTimes_ID, applyDefaults_ID] at heq
      simp only [beq_iff_eq]
      exact heq
    · intro hne
      rw [stampTimes_Status, applyDefaults_Status _ (by rw [assignID_Status]; exact hne),
        assignID_Status]

/-- A row added under a free primary key is the row found for that key. -/
theorem find_appended (rows : List RepairRequestRow) (new : RepairRequestRow)
    (h : ∀ row ∈ rows, row.ID ≠ new.ID) :
    (rows ++ [new]).find? (fun x => (x.ID : Int) == (new.ID : Int)) = some new := by
  induction rows with
  | nil => simp
  | cons head rest ih =>
    have hn : ((head.ID : Int) == (new.ID : Int)) = false := by
      simp only [beq_eq_false_iff_ne, ne_eq]
      exact_mod_cast h head (List.mem_cons_self _ _)
    rw [List.cons_append, List.find?_cons, hn]
    exact ih (fun row hrow => h row (List.mem_cons_of_mem _ hrow))

/-- C7. With notifications enabled, every successful creation (response 201)
starts exactly one notification, the NewTicket one for the created request
and its requester, and so no StatusChanged; the request is stored and
announced with the status of the body, or with `pending` when the body has
none. -/
theorem create_dispatches_newTicket (scanAllocates : Bool) (service : TelegramService)
    (db : DB) (env : Env) (now : Time) (body : Option RepairRequest)
    (hok : (CreateRepairRequest scanAllocates service db env now body).statusCode = 201)
    (hen : (service.IsEnabled db.settings env).1 = true) :
    ∃ new row,
      (CreateRepairRequest scanAllocates service db env now body).body = Body.request new ∧
      (CreateRepairRequest scanAllocates service db env now body).dispatched
        = [Notification.NewRepairRequest new new.Requester] ∧
      findRequest (CreateRepairRequest scanAllocates service db env now body).db new.ID
        = some row ∧
      row.Status = new.Status ∧
      (∀ b, body = some b → new.Status = if b.Status = "" then StatusPending else b.Status) := by
  cases body with
  | none => simp [CreateRepairRequest] at hok
  | some b =>
    unfold CreateRepairRequest at hok ⊢
    simp only [] at hok ⊢
    cases hc : createRequest db now
        (if ((bindJSON b).Status == "") = true then
          { bindJSON b with Status := StatusPending } else bindJSON b) with
    | error err => rw [hc] at hok; simp at hok
    | ok res =>
      obtain ⟨db', r'⟩ := res
      obtain ⟨hset, _, hrows, hfresh, hstatus⟩ := createRequest_ok db db' now _ r' hc
      have hfind : findRequest db' (r'.ID : Int) = some r'.toRow := by
        unfold findRequest
        rw [hrows]
        exact find_appended db.repairRequests r'.toRow hfresh
      have hreload : reloadCreated scanAllocates db' r' =
          preloadRequester db' (preloadCategory db' (scanRow scanAllocates Alloc.reload r'
            r'.toRow)) := by
        unfold reloadCreated
        rw [hfind]
      have hid : (reloadCreated scanAllocates db' r').ID = r'.ID := by rw [hreload]; rfl
      have hst : (reloadCreated scanAllocates db' r').Status = r'.Status := by rw [hreload]; rfl
      simp only [hset, hen, if_true]
      refine ⟨reloadCreated scanAllocates db' r', r'.toRow, rfl, rfl, ?_, ?_, ?_⟩
      · rw [hid]; exact hfind
      · rw [hst]; rfl
      · intro b' hb'
        injection hb' with hb'
        subst hb'
        by_cases he : b.Status = ""
        · have hb : (bindJSON b).Status = "" := he
          have hne : (if ((bindJSON b).Status == "") = true then
              { bindJSON b with Status := StatusPending } else bindJSON b).Status ≠ "" := by
            simp [hb, StatusPending]
          rw [hst, hstatus hne]
          simp [hb, he]
        · have hb : ¬ (bindJSON b).Status = "" := he
          have hne : (if ((bindJSON b).Status == "") = true then
              { bindJSON b with Status := StatusPending } else bindJSON b).Status ≠ "" := by
            simp only [beq_iff_eq, hb, if_false]
            exact hb
          rw [hst, hstatus hne]
          simp only [beq_iff_eq, hb, if_false, he]
          rfl

/-! ## Gating -/

/-- `IsEnabled` reads the store only through the rows of the enabled flag, the
bot token and the chat id. -/
theorem IsEnabled_congr (service : TelegramService) (settings settings' : SettingsTable)
    (env : Env)
    (h : ∀ key ∈ [SettingTelegramEnabled, SettingTelegramBotToken, SettingTelegramChatID],
      firstByKey settings' key = firstByKey settings key) :
    service.IsEnabled settings' env = service.IsEnabled settings env := by
  have hg : ∀ (ss : SettingsService),
      ∀ key ∈ [SettingTelegramEnabled, SettingTelegramBotToken, SettingTelegramChatID],
      ss.GetSetting settings' key = ss.GetSetting settings key :=
    fun ss key hkey => GetSetting_congr ss settings settings' key (h key hkey)
  have hr : service.refreshSettings settings' env = service.refreshSettings settings env := by
    unfold TelegramService.refreshSettings
    cases service.settingsService with
    | none => rfl
    | some ss =>
      simp only [SettingsService.GetSettingWithDefault, SettingsService.GetBoolSetting]
      rw [hg ss SettingTelegramEnabled (by simp), hg ss SettingTelegramBotToken (by simp),
        hg ss SettingTelegramChatID (by simp)]
  rw [IsEnabled_eq, IsEnabled_eq, hr]

/-- A write to one of the four per-kind toggles does not change `IsEnabled`. -/
theorem IsEnabled_SetSetting_toggle (service : TelegramService) (ss : SettingsService)
    (nonce : Nat) (settings settings' : SettingsTable) (env : Env) (toggle value : String)
    (htoggle : toggle ∈ [SettingTelegramNotifyNewRequest, SettingTelegramNotifyStatusChange,
      SettingTelegramNotifyAssignment, SettingTelegramNotifyCompletion])
    (hset : ss.SetSetting nonce settings toggle value = Except.ok settings') :
    service.IsEnabled settings' env = service.IsEnabled settings env := by
  apply IsEnabled_congr
  intro key hkey
  apply firstByKey_SetSetting_of_ne ss nonce settings settings' toggle value key _ hset
  intro heq
  subst heq
  revert hkey
  simp only [List.mem_cons, List.mem_singleton, List.not_mem_nil, or_false] at htoggle ⊢
  rcases htoggle with h | h | h | h <;> rw [h] <;> decide

/-- An update starts a notification only when `IsEnabled` answered true. -/
theorem UpdateRepairRequest_dispatched_gated (scanAllocates : Bool) (service : TelegramService)
    (db : DB) (env : Env) (now : Time) (c : Context) (id : Option Int)
    (body : Option RepairRequest) (n : Notification)
    (hn : n ∈ (UpdateRepairRequest scanAllocates service db env now c id body).dispatched) :
    (service.IsEnabled db.settings env).1 = true := by
  cases id with
  | none => simp [UpdateRepairRequest] at hn
  | some id =>
    cases hold : loadRequest scanAllocates db id with
    | none => simp [UpdateRepairRequest, hold] at hn
    | some old =>
      cases body with
      | none => simp [UpdateRepairRequest, hold] at hn
      | some body =>
        rw [(UpdateRepairRequest_run scanAllocates service db env now c id old body hold).2.2]
          at hn
        cases he : (service.IsEnabled db.settings env).1 with
        | true => rfl
        | false => rw [he] at hn; simp at hn

/-- What `CreateRepairRequest` starts: nothing unless the row was created, and
then the result of the `IsEnabled` check decides. -/
theorem CreateRepairRequest_dispatched (scanAllocates : Bool) (service : TelegramService)
    (db : DB) (env : Env) (now : Time) (body : Option RepairRequest) :
    (CreateRepairRequest scanAllocates service db env now body).dispatched =
      match body with
      | none => []
      | some b =>
        match createRequest db now
            (if (bindJSON b).Status == "" then { bindJSON b with Status := StatusPending }
             else bindJSON b) with
        | Except.error _ => []
        | Except.ok (db', r') =>
          if (service.IsEnabled db.settings env).1 then
            [Notification.NewRepairRequest (reloadCreated scanAllocates db' r')
              (reloadCreated scanAllocates db' r').Requester]
          else [] := by
  cases body with
  | none => rfl
  | some b =>
    unfold CreateRepairRequest
    simp only []
    cases hc : createRequest db now
        (if ((bindJSON b).Status == "") = true then
          { bindJSON b with Status := StatusPending } else bindJSON b) with
    | error err => rfl
    | ok res =>
      obtain ⟨db', r'⟩ := res
      have hset := (createRequest_ok db db' now _ r' hc).1
      simp only [hset]

/-- A creation starts a notification only when `IsEnabled` answered true. -/
theorem CreateRepairRequest_dispatched_gated (scanAllocates : Bool) (service : TelegramService)
    (db : DB) (env : Env) (now : Time) (body : Option RepairRequest) (n : Notification)
    (hn : n ∈ (CreateRepairRequest scanAllocates service db env now body).dispatched) :
    (service.IsEnabled db.settings env).1 = true := by
  rw [CreateRepairRequest_dispatched] at hn
  cases body with
  | none => simp at hn
  | some b =>
    simp only [] at hn
    split at hn
    · simp at hn
    · cases he : (service.IsEnabled db.settings env).1 with
      | true => rfl
      | false => rw [he] at hn; simp at hn

/-- What `UpdateRepairRequest` starts: nothing unless the ticket exists and
the body decodes, and then the result of the `IsEnabled` check decides. -/
theorem UpdateRepairRequest_dispatched (scanAllocates : Bool) (service : TelegramService)
    (db : DB) (env : Env) (now : Time) (c : Context) (id : Option Int)
    (body : Option RepairRequest) :
    (UpdateRepairRequest scanAllocates service db env now c id body).dispatched =
      match id, body with
      | some i, some b =>
        match loadRequest scanAllocates db i with
        | none => []
        | some old =>
          if (service.IsEnabled db.settings env).1 then
            updateNotifications c (updatedRequest scanAllocates db now old b)
              old.Status old.TechnicianID
          else []
      | _, _ => [] := by
  cases id with
  | none => rfl
  | some i =>
    cases hold : loadRequest scanAllocates db i with
    | none =>
      cases body <;> simp [UpdateRepairRequest, hold]
    | some old =>
      cases body with
      | none => simp [UpdateRepairRequest, hold]
      | some b =>
        simp only [hold]
        exact (UpdateRepairRequest_run scanAllocates service db env now c i old b hold).2.2

/-- `Create` on the requests table does not look at the settings table. -/
theorem createRequest_settings (db : DB) (settings' : SettingsTable) (now : Time)
    (r : RepairRequest) :
    createRequest { db with settings := settings' } now r =
      match createRequest db now r with
      | Except.error err => Except.error err
      | Except.ok (db', r') => Except.ok ({ db' with settings := settings' }, r') := by
  unfold createRequest
  simp only []
  have ha : assignID { db with settings := settings' } r = assignID db r := rfl
  rw [ha]
  split <;> rfl

/-- The per-kind toggles are not read on the way to a dispatch: a write to any
of the four leaves what both handlers start unchanged. -/
theorem dispatched_SetSetting_toggle (scanAllocates : Bool) (service : TelegramService)
    (ss : SettingsService) (db : DB) (env : Env) (now : Time) (c : Context) (id : Option Int)
    (body : Option RepairRequest) (nonce : Nat) (toggle value : String)
    (settings' : SettingsTable)
    (htoggle : toggle ∈ [SettingTelegramNotifyNewRequest, SettingTelegramNotifyStatusChange,
      SettingTelegramNotifyAssignment, SettingTelegramNotifyCompletion])
    (hset : ss.SetSetting nonce db.settings toggle value = Except.ok settings') :
    (UpdateRepairRequest scanAllocates service { db with settings := settings' } env now c id
        body).dispatched
      = (UpdateRepairRequest scanAllocates service db env now c id body).dispatched ∧
    (CreateRepairRequest scanAllocates service { db with settings := settings' } env now
        body).dispatched
      = (CreateRepairRequest scanAllocates service db env now body).dispatched := by
  have hen : service.IsEnabled settings' env = service.IsEnabled db.settings env :=
    IsEnabled_SetSetting_toggle service ss nonce db.settings settings' env toggle value htoggle
      hset
  constructor
  · rw [UpdateRepairRequest_dispatched, UpdateRepairRequest_dispatched]
    simp only [hen]
    rfl
  · rw [CreateRepairRequest_dispatched, CreateRepairRequest_dispatched]
    cases body with
    | none => rfl
    | some b =>
      simp only [hen, createRequest_settings]
      cases createRequest db now
          (if ((bindJSON b).Status == "") = true then
            { bindJSON b with Status := StatusPending } else bindJSON b) with
      | error err => rfl
      | ok res => rfl

/-- The five `Notify...` methods, too, read the store only through
`IsEnabled`. -/
theorem notify_congr (service : TelegramService) (settings settings' : SettingsTable)
    (env : Env) (post : Transport) (message : String)
    (h : ∀ s : TelegramService, s.IsEnabled settings' env = s.IsEnabled settings env) :
    (service.notify settings' env post message).calls
        = (service.notify settings env post message).calls ∧
      (service.notify settings' env post message).err
        = (service.notify settings env post message).err := by
  unfold TelegramService.notify TelegramService.SendMessage
  simp only [h, and_self]

/-- C1 (as amended). A notification of any kind, from an update or from a
creation, is started only if the resolved bot token and chat id are not
empty; when the environment does not set `TELEGRAM_ENABLED=true`, only if
the enabled flag is true in the store; and when the store has no row for the
enabled flag, only if the environment sets `TELEGRAM_ENABLED=true`.  (A store
that holds a flag that is not true together with `TELEGRAM_ENABLED=true` in
the environment is not covered by this statement.)  The per-kind toggles are
not consulted: after a write of any value to any of the four toggles both
handlers start the same notifications, and a started notification makes the
same outbound calls with the same result. -/
theorem dispatch_gate (scanAllocates : Bool) (service : TelegramService) (ss : SettingsService)
    (db : DB) (env : Env) (now : Time) (c : Context) (id : Option Int)
    (body newBody : Option RepairRequest) (hss : service.settingsService = some ss) :
    (∀ n, (n ∈ (UpdateRepairRequest scanAllocates service db env now c id body).dispatched ∨
          n ∈ (CreateRepairRequest scanAllocates service db env now newBody).dispatched) →
      ss.GetSettingWithDefault db.settings SettingTelegramBotToken (env "TELEGRAM_BOT_TOKEN")
          ≠ "" ∧
        ss.GetSettingWithDefault db.settings SettingTelegramChatID (env "TELEGRAM_CHAT_ID")
          ≠ "" ∧
        (env "TELEGRAM_ENABLED" ≠ "true" →
          ss.GetBoolSetting db.settings SettingTelegramEnabled = true) ∧
        (firstByKey db.settings SettingTelegramEnabled = none →
          env "TELEGRAM_ENABLED" = "true")) ∧
    (∀ (nonce : Nat) (toggle value : String) (settings' : SettingsTable),
      toggle ∈ [SettingTelegramNotifyNewRequest, SettingTelegramNotifyStatusChange,
        SettingTelegramNotifyAssignment, SettingTelegramNotifyCompletion] →
      ss.SetSetting nonce db.settings toggle value = Except.ok settings' →
      (UpdateRepairRequest scanAllocates service { db with settings := settings' } env now c id
          body).dispatched
        = (UpdateRepairRequest scanAllocates service db env now c id body).dispatched ∧
      (CreateRepairRequest scanAllocates service { db with settings := settings' } env now
          newBody).dispatched
        = (CreateRepairRequest scanAllocates service db env now newBody).dispatched ∧
      (∀ (post : Transport) (message : String),
        (service.notify settings' env post message).calls
          = (service.notify db.settings env post message).calls ∧
        (service.notify settings' env post message).err
          = (service.notify db.settings env post message).err)) := by
  constructor
  · intro n hn
    have hen : (service.IsEnabled db.settings env).1 = true := by
      rcases hn with hn | hn
      · exact UpdateRepairRequest_dispatched_gated scanAllocates service db env now c id body n hn
      · exact CreateRepairRequest_dispatched_gated scanAllocates service db env now newBody n hn
    rw [IsEnabled_true_iff, refreshSettings_of_store service ss db.settings env hss] at hen
    obtain ⟨h1, h2, h3⟩ := hen
    simp only [Bool.or_eq_true, beq_iff_eq] at h1
    refine ⟨h2, h3, ?_, ?_⟩
    · intro henv
      rcases h1 with h | h
      · exact h
      · exact absurd h henv
    · intro hnone
      rcases h1 with h | h
      · unfold SettingsService.GetBoolSetting SettingsService.GetSetting at h
        rw [hnone] at h
        simp at h
      · exact h
  · intro nonce toggle value settings' htoggle hset
    refine ⟨(dispatched_SetSetting_toggle scanAllocates service ss db env now c id body nonce
        toggle value settings' htoggle hset).1,
      (dispatched_SetSetting_toggle scanAllocates service ss db env now c id newBody nonce
        toggle value settings' htoggle hset).2, ?_⟩
    intro post message
    exact notify_congr service db.settings settings' env post message
      (fun s => IsEnabled_SetSetting_toggle s ss nonce db.settings settings' env toggle value
        htoggle hset)

/-- For every message and every state of the store, so for every value of
the per-kind toggles: when the enabled flag of the store is false and the
environment does not set `TELEGRAM_ENABLED=true`, `SendMessage` on a service
backed by the store returns nil and makes no outbound call. -/
theorem SendMessage_noop_when_disabled (s : TelegramService) (ss : SettingsService)
    (db : SettingsTable) (env : Env) (post : Transport) (message : String)
    (hss : s.settingsService = some ss)
    (hflag : ss.GetBoolSetting db SettingTelegramEnabled = false)
    (henv : env "TELEGRAM_ENABLED" ≠ "true") :
    (s.SendMessage db env post message).err = none ∧
      (s.SendMessage db env post message).calls = [] := by
  apply SendMessage_disabled
  rw [IsEnabled_eq, refreshSettings_of_store s ss db env hss]
  simp [hflag, henv]

/-! ## Evaluations on concrete stores -/

/-- C1 (counterexample). With the enabled flag true and the toggles of new
requests, status changes and assignments all false in the store, a creation
still starts the NewTicket notification, an update still starts
StatusChanged and Assigned, and a started notification makes its outbound
call. -/
theorem toggles_off_still_dispatched :
    demoSettingsService.GetBoolSetting demoDB.settings SettingTelegramEnabled = true ∧
    demoSettingsService.GetBoolSetting demoDB.settings SettingTelegramNotifyNewRequest = false ∧
    demoSettingsService.GetBoolSetting demoDB.settings SettingTelegramNotifyStatusChange = false ∧
    demoSettingsService.GetBoolSetting demoDB.settings SettingTelegramNotifyAssignment = false ∧
    (CreateRepairRequest true demoService demoDB demoEnv 2000 (some demoNewBody)).dispatched.map
        Notification.kind = [Kind.newTicket] ∧
    (UpdateRepairRequest true demoService demoDB demoEnv 2000 demoContext (some 1)
        (some demoAssignBody)).dispatched.map Notification.kind
      = [Kind.statusChanged, Kind.assigned] ∧
    (demoService.notify demoDB.settings demoEnv demoPostOk "new request").calls
      = [{ url := "https://api.telegram.org/bot123:abc/sendMessage",
           contentType := "application/json",
           body := { ChatID := "42", Text := "new request", ParseMode := "HTML" } }] := by
  decide

/-- The gate at a concrete store: the Assigned notification of an update is
started with telegram enabled in the store and configured, and switching the
assignment toggle on changes nothing. -/
theorem dispatch_gate_witness :
    demoSettingsService.GetSettingWithDefault demoDB.settings SettingTelegramBotToken
        (demoEnv "TELEGRAM_BOT_TOKEN") ≠ "" ∧
    demoSettingsService.GetSettingWithDefault demoDB.settings SettingTelegramChatID
        (demoEnv "TELEGRAM_CHAT_ID") ≠ "" ∧
    demoSettingsService.GetBoolSetting demoDB.settings SettingTelegramEnabled = true ∧
    (UpdateRepairRequest true demoService
        { demoDB with settings := saveByKey demoSettings SettingTelegramNotifyAssignment "true" }
        demoEnv 2000 demoContext (some 1) (some demoAssignBody)).dispatched
      = (UpdateRepairRequest true demoService demoDB demoEnv 2000 demoContext (some 1)
          (some demoAssignBody)).dispatched :=
  ⟨((dispatch_gate true demoService demoSettingsService demoDB demoEnv 2000 demoContext (some 1)
      (some demoAssignBody) (some demoNewBody) rfl).1
      (Notification.Assignment (updatedRequest true demoDB 2000 demoPending demoAssignBody)
        (some demoTechnician))
      (Or.inl (by decide))).1,
   ((dispatch_gate true demoService demoSettingsService demoDB demoEnv 2000 demoContext (some 1)
      (some demoAssignBody) (some demoNewBody) rfl).1
      (Notification.Assignment (updatedRequest true demoDB 2000 demoPending demoAssignBody)
        (some demoTechnician))
      (Or.inl (by decide))).2.1,
   ((dispatch_gate true demoService demoSettingsService demoDB demoEnv 2000 demoContext (some 1)
      (some demoAssignBody) (some demoNewBody) rfl).1
      (Notification.Assignment (updatedRequest true demoDB 2000 demoPending demoAssignBody)
        (some demoTechnician))
      (Or.inl (by decide))).2.2.1 (by decide),
   ((dispatch_gate true demoService demoSettingsService demoDB demoEnv 2000 demoContext (some 1)
      (some demoAssignBody) (some demoNewBody) rfl).2 0 SettingTelegramNotifyAssignment "true"
      (saveByKey demoSettings SettingTelegramNotifyAssignment "true") (by decide) (by decide)).1⟩

/-- The pending ticket 1, set to in progress with technician 7: StatusChanged,
then Assigned. -/
theorem update_dispatch_order_witness :
    (UpdateRepairRequest true demoService demoDB demoEnv 2000 demoContext (some 1)
        (some demoAssignBody)).dispatched
      = [Notification.StatusChange (updatedRequest true demoDB 2000 demoPending demoAssignBody)
           StatusPending (updatedRequest true demoDB 2000 demoPending demoAssignBody).Technician,
         Notification.Assignment (updatedRequest true demoDB 2000 demoPending demoAssignBody)
           (updatedRequest true demoDB 2000 demoPending demoAssignBody).Technician] :=
  ((update_dispatch_order true demoService demoDB demoEnv 2000 demoContext (some 1)
      (some demoAssignBody)).2 1 demoPending demoAssignBody 7 rfl rfl (by decide) (by decide)
      (by decide) (by decide) (by decide) (by decide)).2

/-- C3 (the code at the failing input). Ticket 2 is assigned to technician 7;
an update whose body carries `technicianId` 7 again leaves the id at 7 and
still starts an Assigned notification, whether or not the reload puts the
column into a fresh cell. -/
theorem resubmitted_technician_dispatches_assignment :
    demoAssigned.TechnicianID.map (fun p => p.val) = some 7 ∧
    (updatedRequest true demoDB 2000 demoAssigned demoSameTechnicianBody).TechnicianID.map
        (fun p => p.val) = some 7 ∧
    (demoService.IsEnabled demoDB.settings demoEnv).1 = true ∧
    (UpdateRepairRequest true demoService demoDB demoEnv 2000 demoContext (some 2)
        (some demoSameTechnicianBody)).dispatched.map Notification.kind = [Kind.assigned] ∧
    (UpdateRepairRequest false demoService demoDB demoEnv 2000 demoContext (some 2)
        (some demoSameTechnicianBody)).dispatched.map Notification.kind = [Kind.assigned] := by
  decide

/-- C4 (the code at the failing input). The admin passes the role guard of the
route; the update sets ticket 1 to `rejected` with the reason "no budget";
notifications are enabled; the only notification started is the status
change, and no Rejected notification. -/
theorem rejection_by_admin_not_dispatched :
    RequireAdminOrTechnician demoContext = Verdict.next ∧
    (demoService.IsEnabled demoDB.settings demoEnv).1 = true ∧
    (updatedRequest true demoDB 2000 demoPending demoRejectBody).Status = StatusRejected ∧
    (updatedRequest true demoDB 2000 demoPending demoRejectBody).RejectionReason = "no budget" ∧
    (UpdateRepairRequest true demoService demoDB demoEnv 2000 demoContext (some 1)
        (some demoRejectBody)).statusCode = 200 ∧
    (UpdateRepairRequest true demoService demoDB demoEnv 2000 demoContext (some 1)
        (some demoRejectBody)).dispatched.map Notification.kind = [Kind.statusChanged] := by
  decide

/-- The completed ticket 3, saved again with a new title only: Completed is
started again. -/
theorem completed_iff_witness :
    Notification.Completion (updatedRequest true demoDB 2000 demoCompleted demoTitleBody)
        (updatedRequest true demoDB 2000 demoCompleted demoTitleBody).Technician
      ∈ (UpdateRepairRequest true demoService demoDB demoEnv 2000 demoContext (some 3)
          (some demoTitleBody)).dispatched :=
  (completed_iff true demoService demoDB demoEnv 2000 demoContext 3 demoCompleted demoTitleBody
    (by decide) (by decide)).2.2 (by decide) (by decide)

/-- The pending ticket 1, set to in progress: the status differs and
StatusChanged is started. -/
theorem statusChanged_iff_witness :
    (∃ n ∈ (UpdateRepairRequest true demoService demoDB demoEnv 2000 demoContext (some 1)
          (some demoAssignBody)).dispatched, n.kind = Kind.statusChanged) ↔
      (updatedRequest true demoDB 2000 demoPending demoAssignBody).Status ≠ demoPending.Status :=
  (statusChanged_iff true demoService demoDB demoEnv 2000 demoContext 1 demoPending
    demoAssignBody (by decide) (by decide)).2.1

/-- A creation without a status in the body: one NewTicket notification, status
pending. -/
theorem create_dispatches_newTicket_witness :
    ∃ new row,
      (CreateRepairRequest true demoService demoDB demoEnv 2000 (some demoNewBody)).body
        = Body.request new ∧
      (CreateRepairRequest true demoService demoDB demoEnv 2000 (some demoNewBody)).dispatched
        = [Notification.NewRepairRequest new new.Requester] ∧
      findRequest (CreateRepairRequest true demoService demoDB demoEnv 2000
        (some demoNewBody)).db new.ID = some row ∧
      row.Status = new.Status ∧
      (∀ b, some demoNewBody = some b →
        new.Status = if b.Status = "" then StatusPending else b.Status) :=
  create_dispatches_newTicket true demoService demoDB demoEnv 2000 (some demoNewBody)
    (by decide) (by decide)

/-- C8 (the code at the failing input). The store holds the enabled flag
`false`, a token and a chat id, and the environment sets
`TELEGRAM_ENABLED=true`: `SendMessage` on a service backed by the store makes
an outbound call, where the comment in the code takes the environment only
"if database setting is not set".  The sibling fallback of the chat id does
what that comment says: an empty chat id that is set in the store is not
replaced by the one of the environment, only a missing one is. -/
theorem SendMessage_sends_with_env_flag :
    demoSettingsService.GetSetting demoSettingsOff SettingTelegramEnabled = Except.ok "false" ∧
    demoSettingsService.GetBoolSetting demoSettingsOff SettingTelegramEnabled = false ∧
    ((NewTelegramServiceWithSettings demoSettingsService demoSettingsOff demoEnvEnabled).SendMessage
        demoSettingsOff demoEnvEnabled demoPostOk "hello").calls
      = [{ url := "https://api.telegram.org/bot123:abc/sendMessage",
           contentType := "application/json",
           body := { ChatID := "42", Text := "hello", ParseMode := "HTML" } }] ∧
    demoSettingsService.GetSettingWithDefault [{ Key := "telegram_chat_id", Value := "" }]
        SettingTelegramChatID "99" = "" ∧
    demoSettingsService.GetSettingWithDefault [] SettingTelegramChatID "99" = "99" := by
  decide

/-- With the flag false in the store and nothing in the environment no call is
made. -/
theorem SendMessage_noop_at_demo :
    ((NewTelegramServiceWithSettings demoSettingsService demoSettingsOff demoEnv).SendMessage
        demoSettingsOff demoEnv demoPostOk "hello").err = none ∧
    ((NewTelegramServiceWithSettings demoSettingsService demoSettingsOff demoEnv).SendMessage
        demoSettingsOff demoEnv demoPostOk "hello").calls = [] :=
  SendMessage_noop_when_disabled
    (NewTelegramServiceWithSettings demoSettingsService demoSettingsOff demoEnv)
    demoSettingsService demoSettingsOff demoEnv demoPostOk "hello" rfl (by decide) (by decide)

/-- Two effects of the database library.  Ticket 2 is assigned to technician
7 and the struct holds that technician: an update whose body carries
`technicianId` 1 writes 7 again, and the ticket keeps its technician.  A
creation whose body has no priority stores and announces the priority
`medium`. -/
theorem library_write_effects :
    (updatedRequest true demoDB 2000 demoAssigned
        { RepairRequest.zero with TechnicianID := some { alloc := Alloc.bind, val := 1 } }
      ).TechnicianID.map (fun p => p.val) = some 7 ∧
    (updatedRequest true demoDB 2000 demoAssigned
        { RepairRequest.zero with TechnicianID := some { alloc := Alloc.bind, val := 1 } }
      ).Technician = some demoTechnician ∧
    (CreateRepairRequest true demoService demoDB demoEnv 2000 (some demoNewBody)).dispatched.map
        (fun n => match n with
          | Notification.NewRepairRequest request _ => request.Priority
          | _ => "")
      = ["medium"] := by
  decide

/-- With the network answering 500 one call is made and an error returned; with
no token in the store and none in the environment no call is made. -/
theorem SendMessage_contract_witness :
    (demoService.SendMessage demoSettings demoEnv demoPostDown "hello").calls
        = [sentCall (demoService.refreshSettings demoSettings demoEnv) "hello"] ∧
    (demoService.SendMessage demoSettings demoEnv demoPostDown "hello").err ≠ none ∧
    (demoService.SendMessage [{ Key := "telegram_enabled", Value := "true" }] demoEnv
        demoPostOk "hello").calls = [] :=
  ⟨((SendMessage_contract demoService demoSettings demoEnv demoPostDown "hello").2
      (by decide) (by decide) (by decide)).1,
   ((SendMessage_contract demoService demoSettings demoEnv demoPostDown "hello").2
      (by decide) (by decide) (by decide)).2.2 (Or.inr ⟨500, rfl, by decide⟩),
   ((SendMessage_contract demoService [{ Key := "telegram_enabled", Value := "true" }] demoEnv
      demoPostOk "hello").1 (Or.inl (by decide))).2⟩

/-! ## The settings store: upsert, classification, reads -/

/-- A save keeps the keys of all rows, in order. -/
theorem saveByKey_keys (db : SettingsTable) (key value : String) :
    (saveByKey db key value).map (fun row => row.Key) = db.map (fun row => row.Key) := by
  induction db with
  | nil => rfl
  | cons head rest ih =>
    by_cases hk : head.Key = key
    · simp [saveByKey, hk]
    · simp [saveByKey, hk, ih]

/-- A save leaves the rows of all other keys as they are. -/
theorem saveByKey_filter (db : SettingsTable) (key value : String) :
    (saveByKey db key value).filter (fun row => row.Key != key)
      = db.filter (fun row => row.Key != key) := by
  induction db with
  | nil => rfl
  | cons head rest ih =>
    by_cases hk : head.Key = key
    · simp [saveByKey, hk]
    · simp [saveByKey, hk, ih]

/-- A save by a key that no row has changes nothing. -/
theorem saveByKey_of_absent (db : SettingsTable) (key value : String)
    (h : ∀ row ∈ db, row.Key ≠ key) : saveByKey db key value = db := by
  induction db with
  | nil => rfl
  | cons head rest ih =>
    have hk : ¬ head.Key = key := h head (List.mem_cons_self _ _)
    simp only [saveByKey, beq_iff_eq, hk, if_false]
    rw [ih (fun row hrow => h row (List.mem_cons_of_mem _ hrow))]

/-- With at most one row per key a save rewrites every row of the key, that
is, the one row there is. -/
theorem saveByKey_eq_map (db : SettingsTable) (key value : String) (huniq : UniqueKeys db) :
    saveByKey db key value
      = db.map (fun row => if row.Key == key then { row with Value := value } else row) := by
  induction db with
  | nil => rfl
  | cons head rest ih =>
    have hrest : UniqueKeys rest := (List.nodup_cons.1 huniq).2
    by_cases hk : head.Key = key
    · have habs : ∀ row ∈ rest, row.Key ≠ key := by
        intro row hrow heq
        apply (List.nodup_cons.1 huniq).1
        show head.Key ∈ List.map (fun row => row.Key) rest
        rw [hk, ← heq]
        exact List.mem_map_of_mem (fun row => row.Key) hrow
      have hmap : rest.map
          (fun row => if row.Key == key then { row with Value := value } else row) = rest := by
        conv_rhs => rw [← List.map_id rest]
        apply List.map_congr_left
        intro row hrow
        simp [habs row hrow]
      simp only [saveByKey, List.map_cons, hk, beq_self_eq_true, if_true, hmap]
    · simp only [saveByKey, List.map_cons, beq_iff_eq, hk, if_false]
      rw [ih hrest]
      simp only [beq_iff_eq]

/-- A key is absent exactly when no row carries it. -/
theorem firstByKey_eq_none (db : SettingsTable) (key : String) :
    firstByKey db key = none ↔ ∀ row ∈ db, row.Key ≠ key := by
  unfold firstByKey
  simp [List.find?_eq_none]

/-- A row found for a key carries that key and is a row of the table. -/
theorem firstByKey_some (db : SettingsTable) (key : String) (row : Setting)
    (h : firstByKey db key = some row) : row ∈ db ∧ row.Key = key := by
  unfold firstByKey at h
  refine ⟨List.mem_of_find?_eq_some h, ?_⟩
  have := List.find?_some h
  simpa using this

/-- C11. On a store with at most one row per key a successful
`SetSetting(k, v)` is an upsert: when a row for `k` existed, the table keeps
its rows in place (same length, same keys) and only the value of that row is
replaced by the stored text `c` (`v`, or its encryption for a sensitive key);
when none existed, exactly one row for `k` is added after the others.  The
result has again at most one row per key, and the rows of every other key
are unchanged. -/
theorem SetSetting_upsert (s : SettingsService) (nonce : Nat) (db db' : SettingsTable)
    (k v : String) (huniq : UniqueKeys db)
    (hset : s.SetSetting nonce db k v = Except.ok db') :
    ∃ c, (if s.isSensitiveKey k then s.encryption.Encrypt nonce v else Except.ok v)
          = Except.ok c ∧
      (∀ row, firstByKey db k = some row →
        db' = db.map (fun r => if r.Key == k then { r with Value := c } else r) ∧
        db'.length = db.length ∧
        db'.map (fun r => r.Key) = db.map (fun r => r.Key)) ∧
      (firstByKey db k = none → db' = db ++ [{ Key := k, Value := c }]) ∧
      UniqueKeys db' ∧
      db'.filter (fun r => r.Key != k) = db.filter (fun r => r.Key != k) := by
  obtain ⟨c, hc, hdb⟩ := SetSetting_ok s nonce db db' k v hset
  refine ⟨c, hc, ?_, ?_, ?_, ?_⟩
  · intro row hrow
    rw [hrow] at hdb
    simp only at hdb
    subst hdb
    refine ⟨saveByKey_eq_map db k c huniq, ?_, saveByKey_keys db k c⟩
    have := congrArg List.length (saveByKey_keys db k c)
    simpa using this
  · intro hnone
    rw [hnone] at hdb
    exact hdb
  · cases hf : firstByKey db k with
    | none =>
      rw [hf] at hdb
      simp only at hdb
      subst hdb
      unfold UniqueKeys createSetting
      rw [List.map_append, List.nodup_append]
      refine ⟨huniq, List.nodup_singleton _, ?_⟩
      intro key hkey hkey'
      simp only [List.map_cons, List.map_nil, List.mem_singleton] at hkey'
      obtain ⟨row, hrow, hrk⟩ := List.mem_map.1 hkey
      exact (firstByKey_eq_none db k).1 hf row hrow (hrk.trans hkey')
    | some row =>
      rw [hf] at hdb
      simp only at hdb
      subst hdb
      unfold UniqueKeys
      rw [saveByKey_keys]
      exact huniq
  · cases hf : firstByKey db k with
    | none =>
      rw [hf] at hdb
      simp only at hdb
      subst hdb
      unfold createSetting
      simp
    | some row =>
      rw [hf] at hdb
      simp only at hdb
      subst hdb
      exact saveByKey_filter db k c

/-- The classification: only the bot-token key is sensitive. -/
theorem isSensitiveKey_iff (s : SettingsService) (key : String) :
    s.isSensitiveKey key = true ↔ key = SettingTelegramBotToken := by
  unfold SettingsService.isSensitiveKey
  simp

/-- `GetSetting` is the plain value of the row found for the key. -/
theorem GetSetting_eq_plainValue (s : SettingsService) (db : SettingsTable) (key : String) :
    s.GetSetting db key =
      match firstByKey db key with
      | none => Except.error Error.recordNotFound
      | some row => s.plainValue row := by
  unfold SettingsService.GetSetting
  cases hf : firstByKey db key with
  | none => rfl
  | some row =>
    have hk : row.Key = key := (firstByKey_some db key row hf).2
    simp only [SettingsService.plainValue, hk]

/-- What the loop of `GetAllSettings` gives when it succeeds: the entries of
the map it started from stay unless overwritten, every entry is one of those
or the plain value of a row, and every row has an entry. -/
theorem getAllLoop_ok (s : SettingsService) (rows : List Setting) (result m : StringMap)
    (h : s.getAllLoop rows result = Except.ok m) :
    (∀ key p, m key = some p →
        result key = some p ∨ ∃ row ∈ rows, row.Key = key ∧ s.plainValue row = Except.ok p) ∧
    (∀ key, (result key).isSome = true → (m key).isSome = true) ∧
    (∀ row ∈ rows, (m row.Key).isSome = true) ∧
    (∀ row ∈ rows, ∃ p, s.plainValue row = Except.ok p) := by
  induction rows generalizing result with
  | nil =>
    simp only [SettingsService.getAllLoop, Except.ok.injEq] at h
    subst h
    refine ⟨fun key p hp => Or.inl hp, fun key hk => hk, ?_, ?_⟩ <;> intro row hrow <;>
      exact absurd hrow (List.not_mem_nil _)
  | cons head rest ih =>
    have step : ∃ p, s.plainValue head = Except.ok p ∧
        s.getAllLoop rest (result.set head.Key p) = Except.ok m := by
      unfold SettingsService.getAllLoop at h
      unfold SettingsService.plainValue
      by_cases hs : s.isSensitiveKey head.Key = true
      · simp only [hs, if_true] at h ⊢
        cases hd : s.encryption.Decrypt head.Value with
        | error err => rw [hd] at h; simp at h
        | ok decrypted => rw [hd] at h; exact ⟨decrypted, rfl, h⟩
      · simp only [hs, if_false] at h ⊢
        exact ⟨head.Value, rfl, h⟩
    obtain ⟨p0, hp0, hrest⟩ := step
    obtain ⟨h1, h2, h3, h4⟩ := ih (result.set head.Key p0) hrest
    have hset : ((result.set head.Key p0) head.Key).isSome = true := by
      simp [StringMap.set]
    refine ⟨?_, ?_, ?_, ?_⟩
    · intro key p hp
      rcases h1 key p hp with hr | ⟨row, hrow, hk, hv⟩
      · unfold StringMap.set at hr
        by_cases hkey : key = head.Key
        · simp only [hkey, beq_self_eq_true, if_true, Option.some.injEq] at hr
          subst hr
          exact Or.inr ⟨head, List.mem_cons_self _ _, hkey.symm, hp0⟩
        · simp only [beq_iff_eq, hkey, if_false] at hr
          exact Or.inl hr
      · exact Or.inr ⟨row, List.mem_cons_of_mem _ hrow, hk, hv⟩
    · intro key hk
      apply h2
      unfold StringMap.set
      by_cases hkey : key = head.Key
      · simp [hkey]
      · simp only [beq_iff_eq, hkey, if_false]
        exact hk
    · intro row hrow
      rcases List.mem_cons.1 hrow with heq | hmem
      · rw [heq]
        exact h2 head.Key hset
      · exact h3 row hmem
    · intro row hrow
      rcases List.mem_cons.1 hrow with heq | hmem
      · rw [heq]
        exact ⟨p0, hp0⟩
      · exact h4 row hmem

/-- The loop of `GetAllSettings` succeeds exactly when every row has a plain
value, that is, when every sensitive row decrypts. -/
theorem getAllLoop_isOk (s : SettingsService) (rows : List Setting) (result : StringMap) :
    (∃ m, s.getAllLoop rows result = Except.ok m) ↔
      ∀ row ∈ rows, ∃ p, s.plainValue row = Except.ok p := by
  constructor
  · rintro ⟨m, hm⟩
    exact (getAllLoop_ok s rows result m hm).2.2.2
  · intro hall
    induction rows generalizing result with
    | nil => exact ⟨result, rfl⟩
    | cons head rest ih =>
      obtain ⟨p, hp⟩ := hall head (List.mem_cons_self _ _)
      have hrest := fun result' =>
        ih result' (fun row hrow => hall row (List.mem_cons_of_mem _ hrow))
      unfold SettingsService.getAllLoop
      unfold SettingsService.plainValue at hp
      by_cases hs : s.isSensitiveKey head.Key = true
      · simp only [hs, if_true] at hp ⊢
        rw [hp]
        exact hrest _
      · simp only [hs, if_false] at hp ⊢
        exact hrest _

/-- Every entry of the map of `GetAllSettings` is the plain value of a stored
row of that key. -/
theorem GetAllSettings_entries (s : SettingsService) (db : SettingsTable) (m : StringMap)
    (hm : s.GetAllSettings db = Except.ok m) (key p : String) (hp : m key = some p) :
    ∃ row ∈ db, row.Key = key ∧ s.plainValue row = Except.ok p := by
  rcases (getAllLoop_ok s db StringMap.empty m hm).1 key p hp with hr | hrow
  · simp [StringMap.empty] at hr
  · exact hrow

/-- C15. `GetAllSettings` returns either a map or an error, never both and
never a partly filled map.  A returned map has an entry for every stored key
and for no other key, and every entry is the plain value of a stored row of
that key (decrypted when the row is sensitive, verbatim otherwise); with at
most one row per key it maps each row's key to that row's plain value.  It
returns an error whenever some sensitive row cannot be decrypted, and a map
whenever all of them can. -/
theorem GetAllSettings_all_or_error (s : SettingsService) (db : SettingsTable) :
    (∀ m, s.GetAllSettings db = Except.ok m →
      (∀ key p, m key = some p → ∃ row ∈ db, row.Key = key ∧ s.plainValue row = Except.ok p) ∧
      (∀ row ∈ db, (m row.Key).isSome = true) ∧
      (UniqueKeys db → ∀ row ∈ db, ∃ p, s.plainValue row = Except.ok p ∧ m row.Key = some p)) ∧
    ((∃ row ∈ db, s.isSensitiveKey row.Key = true ∧
        ∃ err, s.encryption.Decrypt row.Value = Except.error err) →
      ∃ err, s.GetAllSettings db = Except.error err) ∧
    ((∀ row ∈ db, s.isSensitiveKey row.Key = true →
        ∃ p, s.encryption.Decrypt row.Value = Except.ok p) →
      ∃ m, s.GetAllSettings db = Except.ok m) := by
  refine ⟨?_, ?_, ?_⟩
  · intro m hm
    obtain ⟨_, _, h3, _⟩ := getAllLoop_ok s db StringMap.empty m hm
    have hentries := GetAllSettings_entries s db m hm
    refine ⟨hentries, h3, ?_⟩
    intro huniq row hrow
    cases hmk : m row.Key with
    | none =>
      have := h3 row hrow
      rw [hmk] at this
      simp at this
    | some p =>
      obtain ⟨row', hrow', hk, hv⟩ := hentries row.Key p hmk
      have heq : row' = row :=
        List.inj_on_of_nodup_map huniq hrow' hrow hk
      rw [heq] at hv
      exact ⟨p, hv, rfl⟩
  · rintro ⟨row, hrow, hs, err, herr⟩
    cases hres : s.GetAllSettings db with
    | error e => exact ⟨e, rfl⟩
    | ok m =>
      obtain ⟨p, hp⟩ := (getAllLoop_ok s db StringMap.empty m hres).2.2.2 row hrow
      unfold SettingsService.plainValue at hp
      simp only [hs, if_true] at hp
      rw [herr] at hp
      simp at hp
  · intro hall
    apply (getAllLoop_isOk s db StringMap.empty).2
    intro row hrow
    unfold SettingsService.plainValue
    by_cases hs : s.isSensitiveKey row.Key = true
    · simp only [hs, if_true]
      exact hall row hrow hs
    · simp only [hs, if_false]
      exact ⟨row.Value, rfl⟩

/-- C12. `SetSetting(k, v)` stores the encryption of `v` when `k` is the
bot-token key and `v` itself for every other key, and stores nothing when the
encryption fails; `isSensitiveKey(k)` holds exactly for
`telegram_bot_token`; `GetSetting` decrypts the row it found exactly for that
key, and every entry of the map of `GetAllSettings` is the decryption of a
row for that key and the stored text of a row for every other key. -/
theorem encryption_exactly_for_token (s : SettingsService) (nonce : Nat) (db : SettingsTable)
    (k v : String) :
    (s.isSensitiveKey k = true ↔ k = "telegram_bot_token") ∧
    (∀ db', s.SetSetting nonce db k v = Except.ok db' →
      ∃ c, firstByKey db' k = some { Key := k, Value := c } ∧
        (k = "telegram_bot_token" → s.encryption.Encrypt nonce v = Except.ok c) ∧
        (k ≠ "telegram_bot_token" → c = v)) ∧
    (k = "telegram_bot_token" → ∀ err, s.encryption.Encrypt nonce v = Except.error err →
      s.SetSetting nonce db k v = Except.error err) ∧
    (∀ row, firstByKey db k = some row →
      (k = "telegram_bot_token" → s.GetSetting db k = s.encryption.Decrypt row.Value) ∧
      (k ≠ "telegram_bot_token" → s.GetSetting db k = Except.ok row.Value)) ∧
    (∀ m, s.GetAllSettings db = Except.ok m → ∀ key p, m key = some p →
      ∃ row ∈ db, row.Key = key ∧
        (key = "telegram_bot_token" → s.encryption.Decrypt row.Value = Except.ok p) ∧
        (key ≠ "telegram_bot_token" → row.Value = p)) := by
  have hiff : ∀ key, s.isSensitiveKey key = true ↔ key = "telegram_bot_token" :=
    fun key => isSensitiveKey_iff s key
  refine ⟨hiff k, ?_, ?_, ?_, ?_⟩
  · intro db' hset
    obtain ⟨c, hc, hrow⟩ := firstByKey_SetSetting s nonce db db' k v hset
    refine ⟨c, hrow, ?_, ?_⟩
    · intro hk
      rw [if_pos ((hiff k).2 hk)] at hc
      exact hc
    · intro hk
      have hns : ¬ s.isSensitiveKey k = true := fun h => hk ((hiff k).1 h)
      rw [if_neg hns] at hc
      injection hc with hc
      exact hc.symm
  · intro hk err herr
    unfold SettingsService.SetSetting
    simp only [(hiff k).2 hk, if_true, herr]
  · intro row hrow
    unfold SettingsService.GetSetting
    rw [hrow]
    constructor
    · intro hk
      simp only [(hiff k).2 hk, if_true]
    · intro hk
      have hns : s.isSensitiveKey k = false := by
        cases h : s.isSensitiveKey k with
        | false => rfl
        | true => exact absurd ((hiff k).1 h) hk
      simp only [hns, Bool.false_eq_true, if_false]
  · intro m hm key p hp
    obtain ⟨row, hrow, hk, hv⟩ := GetAllSettings_entries s db m hm key p hp
    refine ⟨row, hrow, hk, ?_, ?_⟩
    · intro hkey
      unfold SettingsService.plainValue at hv
      rw [hk, if_pos ((hiff key).2 hkey)] at hv
      exact hv
    · intro hkey
      have hns : ¬ s.isSensitiveKey key = true := fun h => hkey ((hiff key).1 h)
      unfold SettingsService.plainValue at hv
      rw [hk, if_neg hns] at hv
      injection hv

/-- C13 (as amended). `GetSettingWithDefault(k, d)` always returns a value: it
returns `d` when `k` is unset and also when `k` is set but its plain value
cannot be retrieved (the sensitive row does not decrypt); when `k` is set
and its plain value can be retrieved it returns that plain value, which may
itself be equal to `d`. -/
theorem GetSettingWithDefault_cases (s : SettingsService) (db : SettingsTable) (k d : String) :
    (firstByKey db k = none → s.GetSettingWithDefault db k d = d) ∧
    (∀ row err, firstByKey db k = some row → s.plainValue row = Except.error err →
      s.GetSettingWithDefault db k d = d) ∧
    (∀ row p, firstByKey db k = some row → s.plainValue row = Except.ok p →
      s.GetSettingWithDefault db k d = p) ∧
    (s.GetSettingWithDefault db k d ≠ d →
      ∃ row p, firstByKey db k = some row ∧ s.plainValue row = Except.ok p ∧
        s.GetSettingWithDefault db k d = p) := by
  unfold SettingsService.GetSettingWithDefault
  rw [GetSetting_eq_plainValue]
  refine ⟨?_, ?_, ?_, ?_⟩
  · intro hnone
    rw [hnone]
  · intro row err hrow herr
    rw [hrow]
    simp only [herr]
  · intro row p hrow hp
    rw [hrow]
    simp only [hp]
  · intro hne
    cases hf : firstByKey db k with
    | none => rw [hf] at hne; exact absurd rfl hne
    | some row =>
      rw [hf] at hne
      dsimp only at hne ⊢
      cases hp : s.plainValue row with
      | error err => rw [hp] at hne; exact absurd rfl hne
      | ok p => exact ⟨row, p, rfl, hp, rfl⟩

/-- When `GetBoolSetting` answers true. -/
theorem GetBoolSetting_true_iff (s : SettingsService) (db : SettingsTable) (k : String) :
    s.GetBoolSetting db k = true ↔
      ∃ row p, firstByKey db k = some row ∧ s.plainValue row = Except.ok p ∧
        p ∈ ["1", "t", "T", "TRUE", "true", "True"] := by
  unfold SettingsService.GetBoolSetting
  rw [GetSetting_eq_plainValue]
  cases hf : firstByKey db k with
  | none => simp
  | some row =>
    cases hp : s.plainValue row with
    | error err => simp [hp]
    | ok p =>
      simp only [hp, Option.some.injEq, Except.ok.injEq, exists_and_left, exists_eq_left']
      unfold ParseBool
      by_cases h1 : p ∈ ["1", "t", "T", "TRUE", "true", "True"]
      · simp only [h1, if_true, true_iff]
      · by_cases h0 : p ∈ ["0", "f", "F", "FALSE", "false", "False"]
        · simp only [h1, h0, if_false, if_true, Bool.false_eq_true]
        · simp only [h1, h0, if_false, Bool.false_eq_true]

/-- C14. `GetBoolSetting(k)` returns true exactly when `k` has a row, the
plain value of that row can be retrieved, and it is one of the literals 1, t,
T, TRUE, true, True; in every other case it returns false, and it never
returns an error.  After a successful `SetBoolSetting(k, b)` a
`GetBoolSetting(k)` returns `b`; for the sensitive key this uses the round
trip of the encryption service. -/
theorem GetBoolSetting_contract (s : SettingsService) (db : SettingsTable) (k : String) :
    (s.GetBoolSetting db k = true ↔
      ∃ row p, firstByKey db k = some row ∧ s.plainValue row = Except.ok p ∧
        p ∈ ["1", "t", "T", "TRUE", "true", "True"]) ∧
    (∀ (nonce : Nat) (b : Bool) (db' : SettingsTable),
      (s.isSensitiveKey k = true → s.encryption.RoundTrip) →
      s.SetBoolSetting nonce db k b = Except.ok db' →
      s.GetBoolSetting db' k = b) := by
  refine ⟨GetBoolSetting_true_iff s db k, ?_⟩
  intro nonce b db' hround hset
  unfold SettingsService.SetBoolSetting at hset
  obtain ⟨c, hc, hrow⟩ := firstByKey_SetSetting s nonce db db' k (FormatBool b) hset
  have hget : s.GetSetting db' k = Except.ok (FormatBool b) := by
    unfold SettingsService.GetSetting
    rw [hrow]
    by_cases hs : s.isSensitiveKey k = true
    · simp only [hs, if_true] at hc ⊢
      exact hround hs nonce (FormatBool b) c hc
    · simp only [hs, if_false] at hc ⊢
      injection hc with hc
      rw [hc]
      simp
  unfold SettingsService.GetBoolSetting
  rw [hget]
  cases b <;> decide

/-! ## The settings store: default seeding -/

/-- Rows are only ever added at the end or rewritten in place by `SetSetting`:
a key that has a row keeps having one. -/
theorem firstByKey_isSome_SetSetting (s : SettingsService) (nonce : Nat)
    (db db' : SettingsTable) (key value other : String)
    (hset : s.SetSetting nonce db key value = Except.ok db')
    (h : (firstByKey db other).isSome = true) : (firstByKey db' other).isSome = true := by
  by_cases hk : key = other
  · subst hk
    obtain ⟨c, _, hrow⟩ := firstByKey_SetSetting s nonce db db' key value hset
    rw [hrow]
    rfl
  · rw [firstByKey_SetSetting_of_ne s nonce db db' key value other hk hset]
    exact h

/-- What a run of `InitializeDefaultSettings` over keys that are not sensitive
does: it succeeds; it only adds rows, after the rows that were there, each
for a key of the table that had no row and with the default of the table;
and afterwards every key of the table has a row. -/
theorem InitializeDefaultSettings_run (s : SettingsService) (nonce : Nat)
    (order : List (String × String)) (db : SettingsTable)
    (hplain : ∀ kv ∈ order, s.isSensitiveKey kv.1 = false) :
    ∃ added, s.InitializeDefaultSettings nonce order db = Except.ok (db ++ added) ∧
      (∀ row ∈ added, (row.Key, row.Value) ∈ order ∧ firstByKey db row.Key = none) ∧
      (∀ kv ∈ order, (firstByKey (db ++ added) kv.1).isSome = true) := by
  induction order generalizing db with
  | nil =>
    refine ⟨[], ?_, ?_, ?_⟩
    · simp [SettingsService.InitializeDefaultSettings]
    · intro row hrow
      exact absurd hrow (List.not_mem_nil _)
    · intro kv hkv
      exact absurd hkv (List.not_mem_nil _)
  | cons head rest ih =>
    obtain ⟨key, defaultValue⟩ := head
    have hrestPlain : ∀ kv ∈ rest, s.isSensitiveKey kv.1 = false :=
      fun kv hkv => hplain kv (List.mem_cons_of_mem _ hkv)
    cases hf : firstByKey db key with
    | some row =>
      obtain ⟨added, hrun, hadded, hpresent⟩ := ih db hrestPlain
      refine ⟨added, ?_, ?_, ?_⟩
      · simp only [SettingsService.InitializeDefaultSettings, hf]
        exact hrun
      · intro r hr
        exact ⟨List.mem_cons_of_mem _ (hadded r hr).1, (hadded r hr).2⟩
      · intro kv hkv
        rcases List.mem_cons.1 hkv with heq | hmem
        · subst heq
          unfold firstByKey at hf ⊢
          rw [List.find?_append, hf]
          rfl
        · exact hpresent kv hmem
    | none =>
      have hns : s.isSensitiveKey key = false := hplain (key, defaultValue) (List.mem_cons_self _ _)
      have hset : s.SetSetting nonce db key defaultValue
          = Except.ok (db ++ [{ Key := key, Value := defaultValue }]) := by
        unfold SettingsService.SetSetting
        simp only [hns, Bool.false_eq_true, if_false, hf]
        rfl
      obtain ⟨added, hrun, hadded, hpresent⟩ :=
        ih (db ++ [{ Key := key, Value := defaultValue }]) hrestPlain
      refine ⟨{ Key := key, Value := defaultValue } :: added, ?_, ?_, ?_⟩
      · simp only [SettingsService.InitializeDefaultSettings, hf, hset]
        rw [hrun]
        simp
      · intro r hr
        rcases List.mem_cons.1 hr with heq | hmem
        · subst heq
          exact ⟨List.mem_cons_self _ _, hf⟩
        · refine ⟨List.mem_cons_of_mem _ (hadded r hmem).1, ?_⟩
          have hnone := (hadded r hmem).2
          rw [firstByKey_eq_none] at hnone ⊢
          intro row hrow
          exact hnone row (List.mem_append_left _ hrow)
      · intro kv hkv
        have happ : db ++ { Key := key, Value := defaultValue } :: added
            = (db ++ [{ Key := key, Value := defaultValue }]) ++ added := by simp
        rw [happ]
        rcases List.mem_cons.1 hkv with heq | hmem
        · subst heq
          have h1 : firstByKey (db ++ [{ Key := key, Value := defaultValue }]) key
              = some { Key := key, Value := defaultValue } :=
            firstByKey_createSetting db key defaultValue hf
          unfold firstByKey at h1 ⊢
          rw [List.find?_append, h1]
          rfl
        · exact hpresent kv hmem

/-- A run of `InitializeDefaultSettings` over keys that all have a row writes
nothing. -/
theorem InitializeDefaultSettings_of_present (s : SettingsService) (nonce : Nat)
    (order : List (String × String)) (db : SettingsTable)
    (h : ∀ kv ∈ order, (firstByKey db kv.1).isSome = true) :
    s.InitializeDefaultSettings nonce order db = Except.ok db := by
  induction order with
  | nil => rfl
  | cons head rest ih =>
    obtain ⟨key, defaultValue⟩ := head
    have hhead := h (key, defaultValue) (List.mem_cons_self _ _)
    cases hf : firstByKey db key with
    | none => rw [hf] at hhead; simp at hhead
    | some row =>
      simp only [SettingsService.InitializeDefaultSettings, hf]
      exact ih (fun kv hkv => h kv (List.mem_cons_of_mem _ hkv))

/-- No key of the default table is sensitive. -/
theorem defaults_plain (s : SettingsService) :
    ∀ kv ∈ defaults, s.isSensitiveKey kv.1 = false := by
  intro kv hkv
  have hne : kv.1 ≠ SettingTelegramBotToken := by
    intro heq
    have : ∀ kv' ∈ defaults, kv'.1 ≠ SettingTelegramBotToken := by decide
    exact this kv hkv heq
  cases h : s.isSensitiveKey kv.1 with
  | false => rfl
  | true => exact absurd ((isSensitiveKey_iff s kv.1).1 h) hne

/-- C16. `InitializeDefaultSettings` is idempotent, in whatever order a run
visits the default table: a run on any store succeeds, after it every one of
the twelve keys of the default table has a row, and a second run on the
resulting store succeeds and leaves that store as it is. -/
theorem InitializeDefaultSettings_idempotent (s : SettingsService) (nonce nonce' : Nat)
    (order order' : List (String × String)) (db : SettingsTable)
    (horder : order.Perm defaults) (horder' : order'.Perm defaults) :
    defaults.length = 12 ∧
    ∃ db1, s.InitializeDefaultSettings nonce order db = Except.ok db1 ∧
      (∀ kv ∈ defaults, (firstByKey db1 kv.1).isSome = true) ∧
      s.InitializeDefaultSettings nonce' order' db1 = Except.ok db1 := by
  refine ⟨by decide, ?_⟩
  have hplain : ∀ kv ∈ order, s.isSensitiveKey kv.1 = false :=
    fun kv hkv => defaults_plain s kv (horder.mem_iff.1 hkv)
  obtain ⟨added, hrun, _, hpresent⟩ := InitializeDefaultSettings_run s nonce order db hplain
  have hall : ∀ kv ∈ defaults, (firstByKey (db ++ added) kv.1).isSome = true :=
    fun kv hkv => hpresent kv (horder.mem_iff.2 hkv)
  refine ⟨db ++ added, hrun, hall, ?_⟩
  exact InitializeDefaultSettings_of_present s nonce' order' (db ++ added)
    (fun kv hkv => hall kv (horder'.mem_iff.1 hkv))

/-- C17. In whatever order a run visits the default table,
`InitializeDefaultSettings` only adds rows, after the rows that were there:
each added row is for a key of the default table that had no row, with the
default of the table.  So every key that had a row keeps the row it had (a
default key that was changed to another value is not reset), and a key
outside the default table, such as `telegram_bot_token` and
`telegram_chat_id`, gets no row and keeps the row it has. -/
theorem InitializeDefaultSettings_frame (s : SettingsService) (nonce : Nat)
    (order : List (String × String)) (db db1 : SettingsTable)
    (horder : order.Perm defaults)
    (hrun : s.InitializeDefaultSettings nonce order db = Except.ok db1) :
    (∃ added, db1 = db ++ added ∧
      ∀ row ∈ added, (row.Key, row.Value) ∈ defaults ∧ firstByKey db row.Key = none) ∧
    (∀ key row, firstByKey db key = some row → firstByKey db1 key = some row) ∧
    (∀ key, (∀ kv ∈ defaults, kv.1 ≠ key) → firstByKey db1 key = firstByKey db key) ∧
    firstByKey db1 SettingTelegramBotToken = firstByKey db SettingTelegramBotToken ∧
    firstByKey db1 SettingTelegramChatID = firstByKey db SettingTelegramChatID := by
  have hplain : ∀ kv ∈ order, s.isSensitiveKey kv.1 = false :=
    fun kv hkv => defaults_plain s kv (horder.mem_iff.1 hkv)
  obtain ⟨added, hrun', hadded, _⟩ := InitializeDefaultSettings_run s nonce order db hplain
  rw [hrun] at hrun'
  injection hrun' with hdb1
  subst hdb1
  have hkeep : ∀ key row, firstByKey db key = some row →
      firstByKey (db ++ added) key = some row := by
    intro key row hrow
    unfold firstByKey at hrow ⊢
    rw [List.find?_append, hrow]
    rfl
  have houtside : ∀ key, (∀ kv ∈ defaults, kv.1 ≠ key) →
      firstByKey (db ++ added) key = firstByKey db key := by
    intro key hkey
    have hnone : firstByKey added key = none := by
      rw [firstByKey_eq_none]
      intro row hrow heq
      exact hkey (row.Key, row.Value) (horder.mem_iff.1 (hadded row hrow).1) heq
    unfold firstByKey at hnone ⊢
    rw [List.find?_append, hnone]
    simp
  refine ⟨⟨added, rfl, fun row hrow => ⟨horder.mem_iff.1 (hadded row hrow).1,
    (hadded row hrow).2⟩⟩, hkeep, houtside, ?_, ?_⟩
  · exact houtside SettingTelegramBotToken (by decide)
  · exact houtside SettingTelegramChatID (by decide)

/-! ## `float64` arithmetic and `formatDuration` -/

/-- The leading bit: `2 ^ k ≤ n < 2 ^ (k + 1)`. -/
theorem leadingBit_spec : ∀ (fuel n : Nat), n ≤ fuel → 1 ≤ n →
    2 ^ leadingBit fuel n ≤ n ∧ n < 2 ^ (leadingBit fuel n + 1)
  | 0, n, h1, h2 => by omega
  | fuel + 1, n, h1, h2 => by
    unfold leadingBit
    by_cases hn : n < 2
    · simp only [hn, if_true]
      constructor <;> simp <;> omega
    · simp only [hn, if_false]
      obtain ⟨ih1, ih2⟩ := leadingBit_spec fuel (n / 2) (by omega) (by omega)
      constructor
      · rw [Nat.pow_succ]
        omega
      · rw [Nat.pow_succ]
        omega

/-- The binade of a number other than zero: `2 ^ e ≤ |x| < 2 ^ (e + 1)`. -/
theorem binade_spec (x : Rat) (hx : x ≠ 0) :
    (2 : Rat) ^ binade x ≤ |x| ∧ |x| < (2 : Rat) ^ (binade x + 1) := by
  have hnum : x.num ≠ 0 := Rat.num_ne_zero.2 hx
  have ha1 : 1 ≤ x.num.natAbs := Int.natAbs_pos.2 hnum
  have hb1 : 1 ≤ x.den := x.den_pos
  obtain ⟨ha, ha'⟩ := leadingBit_spec x.num.natAbs x.num.natAbs le_rfl ha1
  obtain ⟨hb, hb'⟩ := leadingBit_spec x.den x.den le_rfl hb1
  have habs : |x| = (x.num.natAbs : Rat) / (x.den : Rat) := by
    conv_lhs => rw [← Rat.num_div_den x]
    rw [abs_div, Nat.abs_cast, Nat.cast_natAbs, Int.cast_abs]
  have hbpos : (0 : Rat) < (x.den : Rat) := by exact_mod_cast hb1
  have h2pos : ∀ k : Nat, (0 : Rat) < (2 : Rat) ^ k := fun k => by positivity
  have haR : (2 : Rat) ^ leadingBit x.num.natAbs x.num.natAbs ≤ (x.num.natAbs : Rat) := by
    exact_mod_cast ha
  have haR' : (x.num.natAbs : Rat) < (2 : Rat) ^ (leadingBit x.num.natAbs x.num.natAbs + 1) := by
    exact_mod_cast ha'
  have hbR : (2 : Rat) ^ leadingBit x.den x.den ≤ (x.den : Rat) := by exact_mod_cast hb
  have hbR' : (x.den : Rat) < (2 : Rat) ^ (leadingBit x.den x.den + 1) := by exact_mod_cast hb'
  have hz : ∀ (i j : Nat), (2 : Rat) ^ ((i : Int) - (j : Int)) = (2 : Rat) ^ i / (2 : Rat) ^ j := by
    intro i j
    rw [zpow_sub₀ (by norm_num : (2 : Rat) ≠ 0), zpow_natCast, zpow_natCast]
  unfold binade
  split
  · rename_i hle
    refine ⟨hle, ?_⟩
    have : ((leadingBit x.num.natAbs x.num.natAbs : Int) - (leadingBit x.den x.den : Int) + 1)
        = (((leadingBit x.num.natAbs x.num.natAbs + 1 : Nat) : Int) - (leadingBit x.den x.den : Int)) := by
      push_cast
      ring
    rw [this, hz, habs, div_lt_div_iff₀ hbpos (h2pos _)]
    calc (x.num.natAbs : Rat) * (2 : Rat) ^ leadingBit x.den x.den
        ≤ (x.num.natAbs : Rat) * (x.den : Rat) :=
          mul_le_mul_of_nonneg_left hbR (by positivity)
      _ < (2 : Rat) ^ (leadingBit x.num.natAbs x.num.natAbs + 1) * (x.den : Rat) :=
          mul_lt_mul_of_pos_right haR' hbpos
  · rename_i hnle
    refine ⟨?_, ?_⟩
    · have : ((leadingBit x.num.natAbs x.num.natAbs : Int) - (leadingBit x.den x.den : Int) - 1)
          = ((leadingBit x.num.natAbs x.num.natAbs : Int)
              - ((leadingBit x.den x.den + 1 : Nat) : Int)) := by
        push_cast
        ring
      rw [this, hz, habs, div_le_div_iff₀ (h2pos _) hbpos]
      calc (2 : Rat) ^ leadingBit x.num.natAbs x.num.natAbs * (x.den : Rat)
          ≤ (x.num.natAbs : Rat) * (x.den : Rat) :=
            mul_le_mul_of_nonneg_right haR (le_of_lt hbpos)
        _ ≤ (x.num.natAbs : Rat) * (2 : Rat) ^ (leadingBit x.den x.den + 1) :=
            mul_le_mul_of_nonneg_left (le_of_lt hbR') (by positivity)
    · have := lt_of_not_le hnle
      simpa using this

/-- Rounding an integer gives the integer. -/
theorem roundHalfEven_intCast (k : Int) : roundHalfEven (k : Rat) = k := by
  unfold roundHalfEven
  simp

/-- Rounding stays at or above the floor. -/
theorem floor_le_roundHalfEven (m : Rat) : ⌊m⌋ ≤ roundHalfEven m := by
  unfold roundHalfEven
  split_ifs <;> omega

/-- Rounding stays at or below the floor plus one. -/
theorem roundHalfEven_le_floor_succ (m : Rat) : roundHalfEven m ≤ ⌊m⌋ + 1 := by
  unfold roundHalfEven
  split_ifs <;> omega

/-- Rounding does not go below an integer that the number has reached. -/
theorem le_roundHalfEven (k : Int) (m : Rat) (h : (k : Rat) ≤ m) : k ≤ roundHalfEven m :=
  le_trans (Int.le_floor.2 h) (floor_le_roundHalfEven m)

/-- Rounding does not reach an integer that the number stays more than one
half below. -/
theorem roundHalfEven_le_pred (k : Int) (m : Rat) (h : m < (k : Rat) - 1 / 2) :
    roundHalfEven m ≤ k - 1 := by
  have hfloor : ⌊m⌋ ≤ k - 1 := by
    have : ⌊m⌋ < k := by
      rw [Int.floor_lt]
      linarith
    omega
  rcases lt_or_eq_of_le hfloor with hlt | heq
  · have := roundHalfEven_le_floor_succ m
    omega
  · have hfrac : m - ⌊m⌋ < 1 / 2 := by
      rw [heq]
      push_cast
      linarith
    unfold roundHalfEven
    rw [if_pos hfrac]
    exact hfloor

/-- Rounding moves a number by at most one half. -/
theorem roundHalfEven_error (m : Rat) : |(roundHalfEven m : Rat) - m| ≤ 1 / 2 := by
  have h1 : (⌊m⌋ : Rat) ≤ m := Int.floor_le m
  have h2 : m < ⌊m⌋ + 1 := Int.lt_floor_add_one m
  unfold roundHalfEven
  rw [abs_le]
  split_ifs with ha hb hc
  · constructor <;> linarith
  · push_cast
    constructor <;> linarith
  · have : m - ⌊m⌋ = 1 / 2 := le_antisymm (not_lt.1 hb) (not_lt.1 ha)
    constructor <;> linarith
  · have : m - ⌊m⌋ = 1 / 2 := le_antisymm (not_lt.1 hb) (not_lt.1 ha)
    push_cast
    constructor <;> linarith

/-- The spacing of a binade with exponent at most 52 is one over a power of
two, so every integer is a multiple of it. -/
theorem spacing_eq (e : Int) (he : e ≤ 52) :
    ∃ p : Nat, (p : Int) = 52 - e ∧ (2 : Rat) ^ (e - 52) = ((2 : Rat) ^ p)⁻¹ := by
  refine ⟨(52 - e).toNat, Int.toNat_of_nonneg (by omega), ?_⟩
  have : e - 52 = -(((52 - e).toNat : Nat) : Int) := by
    rw [Int.toNat_of_nonneg (by omega)]
    ring
  rw [this, zpow_neg, zpow_natCast]

/-- A number in the range of the integers of `float64` lies in a binade with
exponent at most 52. -/
theorem binade_le_of_lt (x : Rat) (hx : x ≠ 0) (k : Nat) (h : |x| < (2 : Rat) ^ k) :
    binade x < k := by
  have h1 := (binade_spec x hx).1
  have h2 : (2 : Rat) ^ binade x < (2 : Rat) ^ (k : Int) := by
    rw [zpow_natCast]
    exact lt_of_le_of_lt h1 h
  exact (zpow_lt_zpow_iff_right₀ (by norm_num : (1 : Rat) < 2)).1 h2

/-- The result of rounding a number other than zero to `float64`. -/
theorem roundF64_of_ne (x : Rat) (hx : x ≠ 0) :
    roundF64 x = (roundHalfEven (x / (2 : Rat) ^ (binade x - 52)) : Rat)
      * (2 : Rat) ^ (binade x - 52) := by
  unfold roundF64
  rw [if_neg hx]

/-- Rounding to `float64` moves a number by at most half the spacing of its
binade. -/
theorem roundF64_error (x : Rat) (hx : x ≠ 0) :
    |roundF64 x - x| ≤ (2 : Rat) ^ (binade x - 52) / 2 := by
  have hu : (0 : Rat) < (2 : Rat) ^ (binade x - 52) := by positivity
  rw [roundF64_of_ne x hx]
  have hm := roundHalfEven_error (x / (2 : Rat) ^ (binade x - 52))
  have hx' : x = x / (2 : Rat) ^ (binade x - 52) * (2 : Rat) ^ (binade x - 52) := by
    field_simp
  have : (roundHalfEven (x / (2 : Rat) ^ (binade x - 52)) : Rat) * (2 : Rat) ^ (binade x - 52) - x
      = ((roundHalfEven (x / (2 : Rat) ^ (binade x - 52)) : Rat)
          - x / (2 : Rat) ^ (binade x - 52)) * (2 : Rat) ^ (binade x - 52) := by
    field_simp
  rw [this, abs_mul, abs_of_pos hu]
  calc |(roundHalfEven (x / (2 : Rat) ^ (binade x - 52)) : Rat)
          - x / (2 : Rat) ^ (binade x - 52)| * (2 : Rat) ^ (binade x - 52)
      ≤ 1 / 2 * (2 : Rat) ^ (binade x - 52) := mul_le_mul_of_nonneg_right hm (le_of_lt hu)
    _ = (2 : Rat) ^ (binade x - 52) / 2 := by ring

/-- An integer below `2 ^ 53` in absolute value is a `float64`: the
conversion `float64(n)` is exact. -/
theorem f64OfInt_exact (n : Int) (h : |(n : Rat)| < (2 : Rat) ^ 53) : f64OfInt n = (n : Rat) := by
  unfold f64OfInt
  by_cases hn : (n : Rat) = 0
  · rw [hn]
    simp [roundF64]
  · have he : binade (n : Rat) ≤ 52 := by
      have := binade_le_of_lt (n : Rat) hn 53 h
      omega
    obtain ⟨p, _, hp⟩ := spacing_eq (binade (n : Rat)) he
    rw [roundF64_of_ne _ hn, hp, div_inv_eq_mul]
    have hcast : (n : Rat) * (2 : Rat) ^ p = ((n * 2 ^ p : Int) : Rat) := by push_cast; ring
    rw [hcast, roundHalfEven_intCast]
    push_cast
    field_simp

/-- Rounding to `float64` does not go below an integer that the number has
reached, as long as integers are multiples of the spacing. -/
theorem le_roundF64 (h : Int) (x : Rat) (hx : x ≠ 0) (he : binade x ≤ 52)
    (hle : (h : Rat) ≤ x) : (h : Rat) ≤ roundF64 x := by
  obtain ⟨p, _, hp⟩ := spacing_eq (binade x) he
  rw [roundF64_of_ne x hx, hp, div_inv_eq_mul]
  have hpos : (0 : Rat) < (2 : Rat) ^ p := by positivity
  have hk : ((h * 2 ^ p : Int) : Rat) ≤ x * (2 : Rat) ^ p := by
    push_cast
    exact mul_le_mul_of_nonneg_right hle (le_of_lt hpos)
  have hr := le_roundHalfEven (h * 2 ^ p) (x * (2 : Rat) ^ p) hk
  have hr' : ((h * 2 ^ p : Int) : Rat) ≤ (roundHalfEven (x * (2 : Rat) ^ p) : Rat) := by
    exact_mod_cast hr
  rw [le_mul_inv_iff₀ hpos]
  push_cast at hr'
  exact hr'

/-- Rounding to `float64` does not reach an integer that the number stays
more than half a spacing below. -/
theorem roundF64_lt (H : Int) (x : Rat) (hx : x ≠ 0) (he : binade x ≤ 52)
    (hlt : x < (H : Rat) - (2 : Rat) ^ (binade x - 52) / 2) : roundF64 x < (H : Rat) := by
  obtain ⟨p, _, hp⟩ := spacing_eq (binade x) he
  rw [hp] at hlt
  rw [roundF64_of_ne x hx, hp, div_inv_eq_mul]
  have hpos : (0 : Rat) < (2 : Rat) ^ p := by positivity
  have hk : x * (2 : Rat) ^ p < ((H * 2 ^ p : Int) : Rat) - 1 / 2 := by
    push_cast
    have := mul_lt_mul_of_pos_right hlt hpos
    have e : ((H : Rat) - ((2 : Rat) ^ p)⁻¹ / 2) * (2 : Rat) ^ p
        = (H : Rat) * (2 : Rat) ^ p - 1 / 2 := by
      field_simp
      ring
    rw [e] at this
    exact this
  have hr := roundHalfEven_le_pred (H * 2 ^ p) (x * (2 : Rat) ^ p) hk
  have hr' : (roundHalfEven (x * (2 : Rat) ^ p) : Rat) ≤ ((H * 2 ^ p - 1 : Int) : Rat) := by
    exact_mod_cast hr
  rw [mul_inv_lt_iff₀ hpos]
  push_cast at hr'
  linarith

/-- The hour and minute counts of the Go library are exact below 4096 units:
for a whole part `h` with `0 ≤ h < 4096` and a rest `n` of a unit `U` of at
most an hour, `float64(h) + float64(n) / float64(U)` converts back to `h`. -/
theorem float_quotient (h n U : Int) (hh0 : 0 ≤ h) (hh : h < 4096) (hn0 : 0 ≤ n) (hn : n < U)
    (hU : U ≤ 3600000000000) :
    f64ToInt (f64Add (f64OfInt h) (f64Div (f64OfInt n) (roundF64 (U : Rat)))) = h := by
  have hUpos : (0 : Rat) < (U : Rat) := by exact_mod_cast lt_of_le_of_lt hn0 hn
  have hUle : (U : Rat) ≤ 3600000000000 := by exact_mod_cast hU
  have hhR0 : (0 : Rat) ≤ (h : Rat) := by exact_mod_cast hh0
  have hhR : (h : Rat) ≤ 4095 := by
    have : h ≤ 4095 := by omega
    exact_mod_cast this
  have hnR0 : (0 : Rat) ≤ (n : Rat) := by exact_mod_cast hn0
  have hnR : (n : Rat) ≤ (U : Rat) - 1 := by
    have : n ≤ U - 1 := by omega
    exact_mod_cast this
  have e1 : f64OfInt h = (h : Rat) := by
    apply f64OfInt_exact
    rw [abs_of_nonneg hhR0]
    norm_num
    linarith
  have e2 : f64OfInt n = (n : Rat) := by
    apply f64OfInt_exact
    rw [abs_of_nonneg hnR0]
    norm_num
    linarith
  have e3 : roundF64 (U : Rat) = (U : Rat) := by
    apply f64OfInt_exact
    rw [abs_of_pos hUpos]
    norm_num
    linarith
  rw [e1, e2, e3]
  unfold f64Add f64Div
  -- the rounded fraction
  have hy0 : (0 : Rat) ≤ (n : Rat) / (U : Rat) := div_nonneg hnR0 (le_of_lt hUpos)
  have hy1 : (n : Rat) / (U : Rat) ≤ 1 - 1 / 3600000000000 := by
    rw [div_le_iff₀ hUpos]
    have : (U : Rat) * (1 / 3600000000000) ≤ 1 := by
      rw [mul_one_div, div_le_one (by norm_num)]
      exact hUle
    nlinarith
  have hr : 0 ≤ roundF64 ((n : Rat) / (U : Rat)) ∧
      roundF64 ((n : Rat) / (U : Rat)) ≤ 1 - 1 / 3600000000000 + (2 : Rat) ^ (-54 : Int) := by
    by_cases hy : (n : Rat) / (U : Rat) = 0
    · rw [hy]
      have : roundF64 0 = 0 := by simp [roundF64]
      rw [this]
      constructor
      · exact le_refl _
      · norm_num
    · have hlt : |(n : Rat) / (U : Rat)| < (2 : Rat) ^ (0 : Nat) := by
        rw [abs_of_nonneg hy0]
        norm_num
        linarith
      have he := binade_le_of_lt _ hy 0 hlt
      have he' : binade ((n : Rat) / (U : Rat)) ≤ 52 := by omega
      have herr := roundF64_error _ hy
      have hsp : (2 : Rat) ^ (binade ((n : Rat) / (U : Rat)) - 52) ≤ (2 : Rat) ^ (-53 : Int) :=
        zpow_le_zpow_right₀ (by norm_num) (by omega)
      have h0 : ((0 : Int) : Rat) ≤ roundF64 ((n : Rat) / (U : Rat)) :=
        le_roundF64 0 _ hy he' (by simpa using hy0)
      constructor
      · simpa using h0
      · have := (abs_le.1 herr).2
        have h54 : (2 : Rat) ^ (-53 : Int) / 2 = (2 : Rat) ^ (-54 : Int) := by norm_num
        linarith
  obtain ⟨hr0, hr1⟩ := hr
  generalize roundF64 ((n : Rat) / (U : Rat)) = r at hr0 hr1
  -- the rounded sum
  have hbound : h ≤ roundF64 ((h : Rat) + r) ∧ roundF64 ((h : Rat) + r) < (h : Rat) + 1 := by
    by_cases hx : (h : Rat) + r = 0
    · rw [hx]
      have : roundF64 0 = 0 := by simp [roundF64]
      rw [this]
      have hh' : (h : Rat) = 0 := by linarith
      rw [hh']
      norm_num
    · have h54 : (2 : Rat) ^ (-54 : Int) = 1 / 18014398509481984 := by norm_num
      have hlt : |(h : Rat) + r| < (2 : Rat) ^ (12 : Nat) := by
        rw [abs_of_nonneg (by linarith)]
        rw [h54] at hr1
        norm_num
        linarith
      have he := binade_le_of_lt _ hx 12 hlt
      have he' : binade ((h : Rat) + r) ≤ 52 := by omega
      have hsp : (2 : Rat) ^ (binade ((h : Rat) + r) - 52) ≤ (2 : Rat) ^ (-41 : Int) :=
        zpow_le_zpow_right₀ (by norm_num) (by omega)
      have h41 : (2 : Rat) ^ (-41 : Int) = 1 / 2199023255552 := by norm_num
      constructor
      · exact le_roundF64 h _ hx he' (by linarith)
      · have := roundF64_lt (h + 1) ((h : Rat) + r) hx he' (by
          push_cast
          rw [h41] at hsp
          rw [h54] at hr1
          linarith)
        push_cast at this
        exact this
  obtain ⟨hb1, hb2⟩ := hbound
  unfold f64ToInt
  rw [if_pos (le_trans hhR0 hb1), Int.floor_eq_iff]
  exact ⟨hb1, hb2⟩

/-- Fewer than 4096 hours are fewer than 4096 whole hours. -/
theorem hours_lt (d : Int) (hd : d < 4096 * 3600000000000) : d / 3600000000000 < 4096 := by
  omega

/-- Less than an hour is fewer than 4096 whole minutes. -/
theorem minutes_lt (d : Int) (hd : d < 3600000000000) : d / 60000000000 < 4096 := by
  omega

/-- The whole days are the whole days of the whole hours. -/
theorem days_eq (d : Int) : d / 3600000000000 / 24 = d / (24 * 3600000000000) := by
  omega

/-- Below 4096 hours `int(d.Hours())` is the whole number of hours. -/
theorem Hours_exact (d : Duration) (hd0 : 0 ≤ d) (hd : d < 4096 * Hour) :
    f64ToInt (Duration.Hours d) = d / Hour := by
  unfold Duration.Hours
  rw [Int.tdiv_eq_ediv hd0 (by decide), Int.tmod_eq_emod hd0 (by decide)]
  have hU : ((3600000000000 : Rat)) = ((Hour : Int) : Rat) := by
    unfold Hour
    norm_num
  rw [hU]
  apply float_quotient
  · exact Int.ediv_nonneg hd0 (by decide)
  · exact hours_lt d hd
  · exact Int.emod_nonneg d (by decide)
  · exact Int.emod_lt_of_pos d (by decide)
  · unfold Hour
    decide

/-- Below one hour `int(d.Minutes())` is the whole number of minutes. -/
theorem Minutes_exact (d : Duration) (hd0 : 0 ≤ d) (hd : d < Hour) :
    f64ToInt (Duration.Minutes d) = d / Minute := by
  unfold Duration.Minutes
  rw [Int.tdiv_eq_ediv hd0 (by decide), Int.tmod_eq_emod hd0 (by decide)]
  have hU : ((60000000000 : Rat)) = ((Minute : Int) : Rat) := by
    unfold Minute
    norm_num
  rw [hU]
  apply float_quotient
  · exact Int.ediv_nonneg hd0 (by decide)
  · exact minutes_lt d hd
  · exact Int.emod_nonneg d (by decide)
  · exact Int.emod_lt_of_pos d (by decide)
  · unfold Minute
    decide

/-- Whatever the duration, `formatDuration` gives one number followed by one
of the three units. -/
theorem formatDuration_form (d : Duration) :
    ∃ n : Int, formatDuration d = toString n ++ " นาที" ∨
      formatDuration d = toString n ++ " ชั่วโมง" ∨
      formatDuration d = toString n ++ " วัน" := by
  unfold formatDuration
  simp only []
  split_ifs
  · exact ⟨_, Or.inl rfl⟩
  · exact ⟨_, Or.inr (Or.inl rfl)⟩
  · exact ⟨_, Or.inr (Or.inr rfl)⟩

/-- Below 4096 hours `formatDuration` gives the whole minutes, hours or days. -/
theorem formatDuration_below (d : Duration) (hd0 : 0 ≤ d) (hd : d < 4096 * Hour) :
    formatDuration d =
      if d < Hour then toString (d / Minute) ++ " นาที"
      else if d < 24 * Hour then toString (d / Hour) ++ " ชั่วโมง"
      else toString (d / (24 * Hour)) ++ " วัน" := by
  unfold formatDuration
  simp only []
  rw [Hours_exact d hd0 hd]
  have hH : (0 : Int) < Hour := by decide
  have h1 : d / Hour < 1 ↔ d < Hour := by
    rw [Int.ediv_lt_iff_lt_mul hH]
    simp
  have h24 : d / Hour < 24 ↔ d < 24 * Hour := Int.ediv_lt_iff_lt_mul hH
  by_cases c1 : d < Hour
  · rw [if_pos (h1.2 c1), if_pos c1, Minutes_exact d hd0 c1]
  · rw [if_neg (fun h => c1 (h1.1 h)), if_neg c1]
    by_cases c2 : d < 24 * Hour
    · rw [if_pos (h24.2 c2), if_pos c2]
    · rw [if_neg (fun h => c2 (h24.1 h)), if_neg c2]
      have hq0 : 0 ≤ d / Hour := Int.ediv_nonneg hd0 (le_of_lt hH)
      rw [Int.tdiv_eq_ediv hq0 (by decide)]
      have hdiv : d / Hour / 24 = d / (24 * Hour) := days_eq d
      rw [hdiv]

/-- The quotient of a rest by its unit, rounded to `float64`, stays within
`2 ^ (-54)` above the quotient and does not go below zero. -/
theorem roundF64_fraction (y : Rat) (hy0 : 0 ≤ y) (hy1 : y < 1) :
    0 ≤ roundF64 y ∧ roundF64 y ≤ y + (2 : Rat) ^ (-54 : Int) := by
  by_cases hy : y = 0
  · rw [hy]
    have : roundF64 0 = 0 := by simp [roundF64]
    rw [this]
    constructor
    · exact le_refl _
    · norm_num
  · have hlt : |y| < (2 : Rat) ^ (0 : Nat) := by
      rw [abs_of_nonneg hy0]
      norm_num
      exact hy1
    have he := binade_le_of_lt y hy 0 hlt
    have he' : binade y ≤ 52 := by omega
    have herr := roundF64_error y hy
    have hsp : (2 : Rat) ^ (binade y - 52) ≤ (2 : Rat) ^ (-53 : Int) :=
      zpow_le_zpow_right₀ (by norm_num) (by omega)
    have h0 : ((0 : Int) : Rat) ≤ roundF64 y := le_roundF64 0 y hy he' (by simpa using hy0)
    constructor
    · simpa using h0
    · have := (abs_le.1 herr).2
      have h53 : (2 : Rat) ^ (-53 : Int) = 1 / 9007199254740992 := by norm_num
      have h54 : (2 : Rat) ^ (-54 : Int) = 1 / 18014398509481984 := by norm_num
      rw [h53] at hsp
      rw [h54]
      linarith

/-- The sum of a whole part `h` and a rest `r`, rounded to `float64`, stays
at or above `h` and below `h + k` when the sum stays under 8192 and `r` stays
more than `2 ^ (-41)`, half the spacing of the numbers under 8192, below `k`. -/
theorem roundF64_sum (h k : Int) (r : Rat) (hh0 : 0 ≤ h) (hhk : h + k ≤ 8192) (hr0 : 0 ≤ r)
    (hr1 : r < (k : Rat) - (2 : Rat) ^ (-41 : Int)) :
    (h : Rat) ≤ roundF64 ((h : Rat) + r) ∧ roundF64 ((h : Rat) + r) < (h : Rat) + (k : Rat) := by
  have hhR0 : (0 : Rat) ≤ (h : Rat) := by exact_mod_cast hh0
  have hhkR : (h : Rat) + (k : Rat) ≤ 8192 := by exact_mod_cast hhk
  have h41 : (2 : Rat) ^ (-41 : Int) = 1 / 2199023255552 := by norm_num
  rw [h41] at hr1
  by_cases hx : (h : Rat) + r = 0
  · rw [hx]
    have : roundF64 0 = 0 := by simp [roundF64]
    rw [this]
    have hh' : (h : Rat) = 0 := by linarith
    rw [hh']
    constructor
    · exact le_refl _
    · linarith
  · have hlt : |(h : Rat) + r| < (2 : Rat) ^ (13 : Nat) := by
      rw [abs_of_nonneg (by linarith)]
      norm_num
      linarith
    have he := binade_le_of_lt _ hx 13 hlt
    have he' : binade ((h : Rat) + r) ≤ 52 := by omega
    have hsp : (2 : Rat) ^ (binade ((h : Rat) + r) - 52) ≤ (2 : Rat) ^ (-40 : Int) :=
      zpow_le_zpow_right₀ (by norm_num) (by omega)
    have h40 : (2 : Rat) ^ (-40 : Int) = 1 / 1099511627776 := by norm_num
    rw [h40] at hsp
    constructor
    · exact le_roundF64 h _ hx he' (by linarith)
    · have := roundF64_lt (h + k) ((h : Rat) + r) hx he' (by
        push_cast
        linarith)
      push_cast at this
      exact this

/-- The hour count of the Go library under 8190 units: for a whole part `h`
and a rest `n` of a unit `U` of at most an hour,
`float64(h) + float64(n) / float64(U)` converts back to `h` or to `h + 1`,
and to `h` when the rest is at least two nanoseconds short of the unit. -/
theorem float_quotient_near (h n U : Int) (hh0 : 0 ≤ h) (hh : h < 8190) (hn0 : 0 ≤ n)
    (hn : n < U) (hU : U ≤ 3600000000000) :
    h ≤ f64ToInt (f64Add (f64OfInt h) (f64Div (f64OfInt n) (roundF64 (U : Rat)))) ∧
    f64ToInt (f64Add (f64OfInt h) (f64Div (f64OfInt n) (roundF64 (U : Rat)))) ≤ h + 1 ∧
    (n + 2 ≤ U →
      f64ToInt (f64Add (f64OfInt h) (f64Div (f64OfInt n) (roundF64 (U : Rat)))) = h) := by
  have hUpos : (0 : Rat) < (U : Rat) := by exact_mod_cast lt_of_le_of_lt hn0 hn
  have hUle : (U : Rat) ≤ 3600000000000 := by exact_mod_cast hU
  have hhR0 : (0 : Rat) ≤ (h : Rat) := by exact_mod_cast hh0
  have hhR : (h : Rat) ≤ 8189 := by
    have : h ≤ 8189 := by omega
    exact_mod_cast this
  have hnR0 : (0 : Rat) ≤ (n : Rat) := by exact_mod_cast hn0
  have hnR : (n : Rat) ≤ (U : Rat) - 1 := by
    have : n ≤ U - 1 := by omega
    exact_mod_cast this
  have e1 : f64OfInt h = (h : Rat) := by
    apply f64OfInt_exact
    rw [abs_of_nonneg hhR0]
    norm_num
    linarith
  have e2 : f64OfInt n = (n : Rat) := by
    apply f64OfInt_exact
    rw [abs_of_nonneg hnR0]
    norm_num
    linarith
  have e3 : roundF64 (U : Rat) = (U : Rat) := by
    apply f64OfInt_exact
    rw [abs_of_pos hUpos]
    norm_num
    linarith
  rw [e1, e2, e3]
  unfold f64Add f64Div
  have hy0 : (0 : Rat) ≤ (n : Rat) / (U : Rat) := div_nonneg hnR0 (le_of_lt hUpos)
  have hy1 : (n : Rat) / (U : Rat) < 1 := by
    rw [div_lt_one hUpos]
    linarith
  obtain ⟨hr0, hr1⟩ := roundF64_fraction _ hy0 hy1
  have h54 : (2 : Rat) ^ (-54 : Int) = 1 / 18014398509481984 := by norm_num
  have h41 : (2 : Rat) ^ (-41 : Int) = 1 / 2199023255552 := by norm_num
  rw [h54] at hr1
  have hy2 : (n + 2 ≤ U) → (n : Rat) / (U : Rat) ≤ 1 - 2 / 3600000000000 := by
    intro hn2
    have hn2R : (n : Rat) + 2 ≤ (U : Rat) := by exact_mod_cast hn2
    rw [div_le_iff₀ hUpos]
    have : (U : Rat) * (2 / 3600000000000) ≤ 2 := by
      rw [mul_div_assoc', div_le_iff₀ (by norm_num)]
      linarith
    nlinarith
  generalize roundF64 ((n : Rat) / (U : Rat)) = r at hr0 hr1
  have hwide := roundF64_sum h 2 r hh0 (by omega) hr0 (by
    rw [h41]
    push_cast
    linarith)
  have hpos : (0 : Rat) ≤ roundF64 ((h : Rat) + r) := le_trans hhR0 hwide.1
  have hfloor : h ≤ f64ToInt (roundF64 ((h : Rat) + r)) := by
    unfold f64ToInt
    rw [if_pos hpos]
    exact Int.le_floor.2 hwide.1
  refine ⟨hfloor, ?_, ?_⟩
  · unfold f64ToInt
    rw [if_pos hpos]
    have : ⌊roundF64 ((h : Rat) + r)⌋ < h + 2 := by
      rw [Int.floor_lt]
      push_cast
      exact hwide.2
    omega
  · intro hn2
    have hy := hy2 hn2
    have htight := roundF64_sum h 1 r hh0 (by omega) hr0 (by
      rw [h41]
      push_cast
      linarith)
    unfold f64ToInt
    rw [if_pos hpos, Int.floor_eq_iff]
    push_cast at htight
    exact ⟨htight.1, htight.2⟩

/-- Under 8190 hours `int(d.Hours())` is the whole number of hours or one
more, and the whole number of hours unless `d` is the last nanosecond of an
hour. -/
theorem Hours_near (d : Duration) (hd0 : 0 ≤ d) (hd : d < 8190 * Hour) :
    d / Hour ≤ f64ToInt (Duration.Hours d) ∧
    f64ToInt (Duration.Hours d) ≤ d / Hour + 1 ∧
    (d % Hour + 2 ≤ Hour → f64ToInt (Duration.Hours d) = d / Hour) := by
  unfold Duration.Hours
  rw [Int.tdiv_eq_ediv hd0 (by decide), Int.tmod_eq_emod hd0 (by decide)]
  have hU : ((3600000000000 : Rat)) = ((Hour : Int) : Rat) := by
    unfold Hour
    norm_num
  rw [hU]
  apply float_quotient_near
  · exact Int.ediv_nonneg hd0 (by decide)
  · have hH : (0 : Int) < Hour := by decide
    exact (Int.ediv_lt_iff_lt_mul hH).2 hd
  · exact Int.emod_nonneg d (by decide)
  · exact Int.emod_lt_of_pos d (by decide)
  · unfold Hour
    decide

/-- Rounding to the nearest integer reaches an even integer exactly from one
half below it on: a tie below an even integer goes up to it. -/
theorem le_roundHalfEven_iff (G : Int) (hG : G % 2 = 0) (w : Rat) :
    G ≤ roundHalfEven w ↔ (G : Rat) - 1 / 2 ≤ w := by
  have h1 : (⌊w⌋ : Rat) ≤ w := Int.floor_le w
  have h2 : w < ⌊w⌋ + 1 := Int.lt_floor_add_one w
  unfold roundHalfEven
  split_ifs with ha hb hc
  · constructor
    · intro h
      have : (G : Rat) ≤ (⌊w⌋ : Rat) := by exact_mod_cast h
      linarith
    · intro h
      have h3 : (G : Rat) < ((⌊w⌋ + 1 : Int) : Rat) := by
        push_cast
        linarith
      have : G < ⌊w⌋ + 1 := by exact_mod_cast h3
      omega
  · constructor
    · intro h
      have : (G : Rat) ≤ ((⌊w⌋ + 1 : Int) : Rat) := by exact_mod_cast h
      push_cast at this
      linarith
    · intro h
      have h3 : (G : Rat) < ((⌊w⌋ + 2 : Int) : Rat) := by
        push_cast
        linarith
      have : G < ⌊w⌋ + 2 := by exact_mod_cast h3
      omega
  · have hfrac : w - ⌊w⌋ = 1 / 2 := le_antisymm (not_lt.1 hb) (not_lt.1 ha)
    constructor
    · intro h
      have : (G : Rat) ≤ (⌊w⌋ : Rat) := by exact_mod_cast h
      linarith
    · intro h
      have h3 : (G : Rat) ≤ ((⌊w⌋ + 1 : Int) : Rat) := by
        push_cast
        linarith
      have : G ≤ ⌊w⌋ + 1 := by exact_mod_cast h3
      omega
  · have hfrac : w - ⌊w⌋ = 1 / 2 := le_antisymm (not_lt.1 hb) (not_lt.1 ha)
    constructor
    · intro h
      have : (G : Rat) ≤ ((⌊w⌋ + 1 : Int) : Rat) := by exact_mod_cast h
      push_cast at this
      linarith
    · intro h
      have h3 : (G : Rat) ≤ ((⌊w⌋ + 1 : Int) : Rat) := by
        push_cast
        linarith
      exact_mod_cast h3

/-- The binade of a positive number is the exponent of the power of two at or
below it. -/
theorem binade_eq (x : Rat) (e : Int) (h1 : (2 : Rat) ^ e ≤ x) (h2 : x < (2 : Rat) ^ (e + 1)) :
    binade x = e := by
  have hpos : (0 : Rat) < x := lt_of_lt_of_le (by positivity) h1
  have hx : x ≠ 0 := ne_of_gt hpos
  obtain ⟨hb1, hb2⟩ := binade_spec x hx
  rw [abs_of_pos hpos] at hb1 hb2
  have ha : binade x < e + 1 :=
    (zpow_lt_zpow_iff_right₀ (by norm_num : (1 : Rat) < 2)).1 (lt_of_le_of_lt hb1 h2)
  have hb : e < binade x + 1 :=
    (zpow_lt_zpow_iff_right₀ (by norm_num : (1 : Rat) < 2)).1 (lt_of_le_of_lt h1 hb2)
  omega

/-- Rounding to `float64` inside a binade: the nearest multiple of the spacing
`1 / 2 ^ p` of that binade. -/
theorem roundF64_of_binade (x : Rat) (e : Int) (p : Nat) (hp : (p : Int) = 52 - e)
    (h1 : (2 : Rat) ^ e ≤ x) (h2 : x < (2 : Rat) ^ (e + 1)) :
    roundF64 x = (roundHalfEven (x * (2 : Rat) ^ p) : Rat) / (2 : Rat) ^ p := by
  have hpos : (0 : Rat) < x := lt_of_lt_of_le (by positivity) h1
  have hb := binade_eq x e h1 h2
  have hs : (2 : Rat) ^ (e - 52) = ((2 : Rat) ^ p)⁻¹ := by
    have : e - 52 = -((p : Nat) : Int) := by omega
    rw [this, zpow_neg, zpow_natCast]
  rw [roundF64_of_ne x (ne_of_gt hpos), hb, hs, div_inv_eq_mul, div_eq_mul_inv]

/-- Rounding to `float64` reaches a number of the grid of the binade with an
even numerator exactly from half a spacing below it on. -/
theorem le_roundF64_grid (x : Rat) (e : Int) (p : Nat) (G : Int) (hp : (p : Int) = 52 - e)
    (h1 : (2 : Rat) ^ e ≤ x) (h2 : x < (2 : Rat) ^ (e + 1)) (hG : G % 2 = 0) :
    (G : Rat) / (2 : Rat) ^ p ≤ roundF64 x ↔ ((G : Rat) - 1 / 2) / (2 : Rat) ^ p ≤ x := by
  have hpos : (0 : Rat) < (2 : Rat) ^ p := by positivity
  rw [roundF64_of_binade x e p hp h1 h2, div_le_div_iff_of_pos_right hpos, Int.cast_le,
    le_roundHalfEven_iff G hG, div_le_iff₀ hpos]

/-- Rounding to `float64` does not pass the next power of two. -/
theorem roundF64_le_pow (x : Rat) (e : Int) (h0 : 0 ≤ x) (h : x < (2 : Rat) ^ e) :
    roundF64 x ≤ (2 : Rat) ^ e := by
  by_cases hx : x = 0
  · rw [hx]
    have : roundF64 0 = 0 := by simp [roundF64]
    rw [this]
    positivity
  · have hpos : (0 : Rat) < x := lt_of_le_of_ne h0 (Ne.symm hx)
    obtain ⟨hb1, hb2⟩ := binade_spec x hx
    rw [abs_of_pos hpos] at hb1 hb2
    have hbe : binade x + 1 ≤ e := by
      have : binade x < e :=
        (zpow_lt_zpow_iff_right₀ (by norm_num : (1 : Rat) < 2)).1 (lt_of_le_of_lt hb1 h)
      omega
    have hs : (0 : Rat) < (2 : Rat) ^ (binade x - 52) := by positivity
    rw [roundF64_of_ne x hx]
    have hq : x / (2 : Rat) ^ (binade x - 52) < (2 : Rat) ^ (53 : Nat) := by
      rw [div_lt_iff₀ hs]
      have : (2 : Rat) ^ (53 : Nat) * (2 : Rat) ^ (binade x - 52) = (2 : Rat) ^ (binade x + 1) := by
        rw [← zpow_natCast, ← zpow_add₀ (by norm_num : (2 : Rat) ≠ 0)]
        congr 1
        push_cast
        ring
      rw [this]
      exact hb2
    have hfl : ⌊x / (2 : Rat) ^ (binade x - 52)⌋ < (2 : Int) ^ (53 : Nat) := by
      rw [Int.floor_lt]
      push_cast
      exact hq
    have hr : roundHalfEven (x / (2 : Rat) ^ (binade x - 52)) ≤ (2 : Int) ^ (53 : Nat) := by
      have := roundHalfEven_le_floor_succ (x / (2 : Rat) ^ (binade x - 52))
      omega
    have hrR : (roundHalfEven (x / (2 : Rat) ^ (binade x - 52)) : Rat) ≤ (2 : Rat) ^ (53 : Nat) := by
      exact_mod_cast hr
    calc (roundHalfEven (x / (2 : Rat) ^ (binade x - 52)) : Rat) * (2 : Rat) ^ (binade x - 52)
        ≤ (2 : Rat) ^ (53 : Nat) * (2 : Rat) ^ (binade x - 52) :=
          mul_le_mul_of_nonneg_right hrR (le_of_lt hs)
      _ = (2 : Rat) ^ (binade x + 1) := by
          rw [← zpow_natCast, ← zpow_add₀ (by norm_num : (2 : Rat) ≠ 0)]
          congr 1
          push_cast
          ring
      _ ≤ (2 : Rat) ^ e := zpow_le_zpow_right₀ (by norm_num) hbe

/-- The sum of a whole part `h` of the binade `2 ^ K` and a rest `y` below
one, rounded to `float64` and converted back: `h + 1` when the rest is within
half a spacing of one, `h` otherwise. -/
theorem f64ToInt_sum (h : Int) (K p : Nat) (y : Rat) (hKp : K + p = 52) (hp : 1 ≤ p)
    (hlo : (2 : Int) ^ K ≤ h) (hhi : h < (2 : Int) ^ (K + 1)) (hy0 : 0 ≤ y) (hy1 : y < 1) :
    f64ToInt (roundF64 ((h : Rat) + y))
      = if 1 - 1 / (2 * (2 : Rat) ^ p) ≤ y then h + 1 else h := by
  have hloR : (2 : Rat) ^ K ≤ (h : Rat) := by exact_mod_cast hlo
  have hhiR : (h : Rat) + 1 ≤ (2 : Rat) ^ (K + 1) := by
    have : h + 1 ≤ (2 : Int) ^ (K + 1) := by omega
    exact_mod_cast this
  have hKpos : (0 : Rat) < (2 : Rat) ^ K := by positivity
  have h1 : (2 : Rat) ^ ((K : Nat) : Int) ≤ (h : Rat) + y := by
    rw [zpow_natCast]
    linarith
  have h2 : (h : Rat) + y < (2 : Rat) ^ (((K : Nat) : Int) + 1) := by
    have : ((K : Nat) : Int) + 1 = ((K + 1 : Nat) : Int) := by push_cast; ring
    rw [this, zpow_natCast]
    linarith
  have hpInt : (p : Int) = 52 - ((K : Nat) : Int) := by omega
  have hxpos : (0 : Rat) < (h : Rat) + y := by linarith
  have hx : (h : Rat) + y ≠ 0 := ne_of_gt hxpos
  have hb : binade ((h : Rat) + y) = ((K : Nat) : Int) := binade_eq _ _ h1 h2
  have he : binade ((h : Rat) + y) ≤ 52 := by rw [hb]; omega
  have hPpos : (0 : Rat) < (2 : Rat) ^ p := by positivity
  have hG : ((h + 1) * (2 : Int) ^ p) % 2 = 0 := by
    obtain ⟨p', rfl⟩ : ∃ p', p = p' + 1 := ⟨p - 1, by omega⟩
    rw [pow_succ, ← mul_assoc]
    exact Int.mul_emod_left _ _
  have hgrid := le_roundF64_grid ((h : Rat) + y) ((K : Nat) : Int) p ((h + 1) * (2 : Int) ^ p)
    hpInt h1 h2 hG
  have hGc : (((h + 1) * (2 : Int) ^ p : Int) : Rat) / (2 : Rat) ^ p = (h : Rat) + 1 := by
    push_cast
    field_simp
  have hthr : ((((h + 1) * (2 : Int) ^ p : Int) : Rat) - 1 / 2) / (2 : Rat) ^ p ≤ (h : Rat) + y ↔
      1 - 1 / (2 * (2 : Rat) ^ p) ≤ y := by
    have : ((((h + 1) * (2 : Int) ^ p : Int) : Rat) - 1 / 2) / (2 : Rat) ^ p
        = (h : Rat) + 1 - 1 / (2 * (2 : Rat) ^ p) := by
      push_cast
      field_simp
      ring
    rw [this]
    constructor <;> intro hh <;> linarith
  rw [hGc, hthr] at hgrid
  have hlow : (h : Rat) ≤ roundF64 ((h : Rat) + y) := le_roundF64 h _ hx he (by linarith)
  have hsp : (2 : Rat) ^ (binade ((h : Rat) + y) - 52) ≤ 1 := by
    have : (2 : Rat) ^ (binade ((h : Rat) + y) - 52) ≤ (2 : Rat) ^ (0 : Int) :=
      zpow_le_zpow_right₀ (by norm_num) (by omega)
    simpa using this
  have hupper : roundF64 ((h : Rat) + y) < (h : Rat) + 2 := by
    have := roundF64_lt (h + 2) ((h : Rat) + y) hx he (by
      push_cast
      linarith)
    push_cast at this
    exact this
  have hnonneg : (0 : Rat) ≤ roundF64 ((h : Rat) + y) := by linarith
  unfold f64ToInt
  rw [if_pos hnonneg]
  by_cases hc : 1 - 1 / (2 * (2 : Rat) ^ p) ≤ y
  · rw [if_pos hc, Int.floor_eq_iff]
    push_cast
    exact ⟨hgrid.2 hc, by linarith⟩
  · rw [if_neg hc, Int.floor_eq_iff]
    refine ⟨hlow, ?_⟩
    by_contra hge
    exact hc (hgrid.1 (not_lt.1 hge))

/-- The rounded quotient of a rest by its unit reaches the number half a
spacing of the binade `2 ^ K` below one exactly when the quotient itself is
at most `1 / 2 ^ 54` below that number. -/
theorem le_roundF64_fraction (q : Rat) (K p : Nat) (hKp : K + p = 52) (hK : 1 ≤ K)
    (hp : 1 ≤ p) (hq0 : 0 ≤ q) (hq1 : q < 1) :
    1 - 1 / (2 * (2 : Rat) ^ p) ≤ roundF64 q ↔
      1 - 1 / (2 * (2 : Rat) ^ p) - 1 / (2 : Rat) ^ (54 : Nat) ≤ q := by
  have hPpos : (0 : Rat) < (2 : Rat) ^ p := by positivity
  have hP2 : (2 : Rat) ≤ (2 : Rat) ^ p := by
    calc (2 : Rat) = (2 : Rat) ^ (1 : Nat) := by norm_num
      _ ≤ (2 : Rat) ^ p := pow_le_pow_right₀ (by norm_num) hp
  have hg : (3 : Rat) / 4 ≤ 1 - 1 / (2 * (2 : Rat) ^ p) := by
    have : 1 / (2 * (2 : Rat) ^ p) ≤ 1 / 4 := by
      rw [div_le_div_iff₀ (by positivity) (by norm_num)]
      linarith
    linarith
  have hprod : (2 : Rat) ^ K * (2 : Rat) ^ p = (2 : Rat) ^ (52 : Nat) := by
    rw [← pow_add, hKp]
  by_cases hhalf : (1 : Rat) / 2 ≤ q
  · have h1 : (2 : Rat) ^ (-1 : Int) ≤ q := by
      have : (2 : Rat) ^ (-1 : Int) = 1 / 2 := by norm_num
      rw [this]
      exact hhalf
    have h2 : q < (2 : Rat) ^ ((-1 : Int) + 1) := by
      have : (2 : Rat) ^ ((-1 : Int) + 1) = 1 := by norm_num
      rw [this]
      exact hq1
    have hG : ((2 : Int) ^ (53 : Nat) - (2 : Int) ^ K) % 2 = 0 := by
      obtain ⟨K', rfl⟩ : ∃ K', K = K' + 1 := ⟨K - 1, by omega⟩
      rw [pow_succ]
      generalize (2 : Int) ^ K' = t
      norm_num
      omega
    have hgrid := le_roundF64_grid q (-1) 53 ((2 : Int) ^ (53 : Nat) - (2 : Int) ^ K)
      (by norm_num) h1 h2 hG
    have e1 : ((((2 : Int) ^ (53 : Nat) - (2 : Int) ^ K : Int)) : Rat) / (2 : Rat) ^ (53 : Nat)
        = 1 - 1 / (2 * (2 : Rat) ^ p) := by
      have hT : 1 / (2 * (2 : Rat) ^ p) = (2 : Rat) ^ K / (2 : Rat) ^ (53 : Nat) := by
        rw [div_eq_div_iff (by positivity) (by positivity)]
        linear_combination (-2 : Rat) * hprod
      rw [hT]
      simp only [Int.cast_sub, Int.cast_pow, Int.cast_ofNat]
      rw [sub_div, div_self (by positivity)]
    have e2 : (((((2 : Int) ^ (53 : Nat) - (2 : Int) ^ K : Int)) : Rat) - 1 / 2)
          / (2 : Rat) ^ (53 : Nat)
        = 1 - 1 / (2 * (2 : Rat) ^ p) - 1 / (2 : Rat) ^ (54 : Nat) := by
      rw [sub_div, e1]
      congr 1
      norm_num
    rw [e1, e2] at hgrid
    exact hgrid
  · have hlt : q < (2 : Rat) ^ (-1 : Int) := by
      have : (2 : Rat) ^ (-1 : Int) = 1 / 2 := by norm_num
      rw [this]
      exact not_le.1 hhalf
    have hle := roundF64_le_pow q (-1) hq0 hlt
    have h12 : (2 : Rat) ^ (-1 : Int) = 1 / 2 := by norm_num
    rw [h12] at hle
    have h54 : (1 : Rat) / (2 : Rat) ^ (54 : Nat) ≤ 1 / 4 := by norm_num
    constructor
    · intro h
      linarith
    · intro h
      have := not_le.1 hhalf
      linarith

/-- The threshold of the quotient in whole nanoseconds: the quotient of a rest
`n` by its unit `U` is within `1 / 2 ^ 54` of half a spacing below one exactly
when `n` is within `U * (2 ^ (K + 1) + 1) / 2 ^ 54` of the unit. -/
theorem fraction_threshold (n U : Int) (K p : Nat) (hKp : K + p = 52) (hU : 0 < U) :
    1 - 1 / (2 * (2 : Rat) ^ p) - 1 / (2 : Rat) ^ (54 : Nat) ≤ (n : Rat) / (U : Rat) ↔
      U ≤ n + U * ((2 : Int) ^ (K + 1) + 1) / (2 : Int) ^ (54 : Nat) := by
  have hUR : (0 : Rat) < (U : Rat) := by exact_mod_cast hU
  have hPpos : (0 : Rat) < (2 : Rat) ^ p := by positivity
  have hprod : (2 : Rat) ^ K * (2 : Rat) ^ p = (2 : Rat) ^ (52 : Nat) := by
    rw [← pow_add, hKp]
  have hT : 1 / (2 * (2 : Rat) ^ p) = (2 : Rat) ^ (K + 1) / (2 : Rat) ^ (54 : Nat) := by
    rw [div_eq_div_iff (by positivity) (by positivity), pow_succ]
    linear_combination (-4 : Rat) * hprod
  have hdiv : U ≤ n + U * ((2 : Int) ^ (K + 1) + 1) / (2 : Int) ^ (54 : Nat) ↔
      (U - n) * (2 : Int) ^ (54 : Nat) ≤ U * ((2 : Int) ^ (K + 1) + 1) := by
    rw [← Int.le_ediv_iff_mul_le (by positivity)]
    constructor <;> intro h <;> omega
  rw [hdiv, hT, le_div_iff₀ hUR]
  have hcast : ((U - n) * (2 : Int) ^ (54 : Nat) ≤ U * ((2 : Int) ^ (K + 1) + 1)) ↔
      ((U : Rat) - (n : Rat)) * (2 : Rat) ^ (54 : Nat)
        ≤ (U : Rat) * ((2 : Rat) ^ (K + 1) + 1) := by
    constructor
    · intro h
      exact_mod_cast h
    · intro h
      exact_mod_cast h
  rw [hcast]
  have h54 : (0 : Rat) < (2 : Rat) ^ (54 : Nat) := by positivity
  have key : (1 - (2 : Rat) ^ (K + 1) / (2 : Rat) ^ (54 : Nat) - 1 / (2 : Rat) ^ (54 : Nat))
        * (U : Rat) - (n : Rat)
      = (((U : Rat) - (n : Rat)) * (2 : Rat) ^ (54 : Nat)
          - (U : Rat) * ((2 : Rat) ^ (K + 1) + 1)) / (2 : Rat) ^ (54 : Nat) := by
    field_simp
    ring
  constructor
  · intro h
    have h0 : (((U : Rat) - (n : Rat)) * (2 : Rat) ^ (54 : Nat)
          - (U : Rat) * ((2 : Rat) ^ (K + 1) + 1)) / (2 : Rat) ^ (54 : Nat) ≤ 0 := by
      rw [← key]
      linarith
    have := (div_le_iff₀ h54).1 h0
    linarith
  · intro h
    have h0 : (((U : Rat) - (n : Rat)) * (2 : Rat) ^ (54 : Nat)
          - (U : Rat) * ((2 : Rat) ^ (K + 1) + 1)) / (2 : Rat) ^ (54 : Nat) ≤ 0 := by
      rw [div_le_iff₀ h54]
      linarith
    rw [← key] at h0
    linarith

/-- The window before a whole unit inside which the quotient rounds up: it is
shorter than the unit. -/
theorem window_bounds (U : Int) (K : Nat) (hU : 0 < U) (hK : K ≤ 51) :
    0 ≤ U * ((2 : Int) ^ (K + 1) + 1) / (2 : Int) ^ (54 : Nat) ∧
      U * ((2 : Int) ^ (K + 1) + 1) / (2 : Int) ^ (54 : Nat) < U := by
  have hpow : (2 : Int) ^ (K + 1) ≤ (2 : Int) ^ (52 : Nat) :=
    pow_le_pow_right₀ (by norm_num) (by omega)
  have hpos : (0 : Int) < (2 : Int) ^ (K + 1) := by positivity
  constructor
  · apply Int.ediv_nonneg
    · apply mul_nonneg (le_of_lt hU)
      omega
    · positivity
  · apply Int.ediv_lt_of_lt_mul (by positivity)
    apply mul_lt_mul_of_pos_left _ hU
    have : (2 : Int) ^ (52 : Nat) + 1 < (2 : Int) ^ (54 : Nat) := by norm_num
    omega

/-- The hour and minute counts of the Go library in the binade `2 ^ K` of the
whole part: for a whole part `h` with `2 ^ K ≤ h < 2 ^ (K + 1)` and a rest `n`
of a unit `U` of at most an hour, `float64(h) + float64(n) / float64(U)`
converts back to `h + 1` when `n` is within `U * (2 ^ (K + 1) + 1) / 2 ^ 54`
of the unit, and to `h` otherwise. -/
theorem float_quotient_round (h n U : Int) (K : Nat) (hK1 : 1 ≤ K) (hK : K ≤ 51)
    (hlo : (2 : Int) ^ K ≤ h) (hhi : h < (2 : Int) ^ (K + 1)) (hn0 : 0 ≤ n) (hn : n < U)
    (hU : U ≤ 3600000000000) :
    f64ToInt (f64Add (f64OfInt h) (f64Div (f64OfInt n) (roundF64 (U : Rat))))
      = if U ≤ n + U * ((2 : Int) ^ (K + 1) + 1) / (2 : Int) ^ (54 : Nat) then h + 1 else h := by
  have hU0 : 0 < U := lt_of_le_of_lt hn0 hn
  have hUpos : (0 : Rat) < (U : Rat) := by exact_mod_cast hU0
  have hUle : (U : Rat) ≤ 3600000000000 := by exact_mod_cast hU
  have hh0 : (0 : Int) ≤ h := le_trans (by positivity) hlo
  have hhR0 : (0 : Rat) ≤ (h : Rat) := by exact_mod_cast hh0
  have hpow : (2 : Int) ^ (K + 1) ≤ (2 : Int) ^ (52 : Nat) :=
    pow_le_pow_right₀ (by norm_num) (by omega)
  have hhR : (h : Rat) < 4503599627370496 := by
    have : h < 4503599627370496 := by
      have : (2 : Int) ^ (52 : Nat) = 4503599627370496 := by norm_num
      omega
    exact_mod_cast this
  have hnR0 : (0 : Rat) ≤ (n : Rat) := by exact_mod_cast hn0
  have hnR : (n : Rat) ≤ (U : Rat) - 1 := by
    have : n ≤ U - 1 := by omega
    exact_mod_cast this
  have e1 : f64OfInt h = (h : Rat) := by
    apply f64OfInt_exact
    rw [abs_of_nonneg hhR0]
    norm_num
    linarith
  have e2 : f64OfInt n = (n : Rat) := by
    apply f64OfInt_exact
    rw [abs_of_nonneg hnR0]
    norm_num
    linarith
  have e3 : roundF64 (U : Rat) = (U : Rat) := by
    apply f64OfInt_exact
    rw [abs_of_pos hUpos]
    norm_num
    linarith
  rw [e1, e2, e3]
  unfold f64Add f64Div
  have hy0 : (0 : Rat) ≤ (n : Rat) / (U : Rat) := div_nonneg hnR0 (le_of_lt hUpos)
  have hy1 : (n : Rat) / (U : Rat) < 1 := by
    rw [div_lt_one hUpos]
    linarith
  have hy2 : (n : Rat) / (U : Rat) ≤ 1 - 1 / 3600000000000 := by
    rw [div_le_iff₀ hUpos]
    have : (U : Rat) * (1 / 3600000000000) ≤ 1 := by
      rw [mul_one_div, div_le_one (by norm_num)]
      exact hUle
    nlinarith
  obtain ⟨hr0, hr1⟩ := roundF64_fraction _ hy0 hy1
  have h54 : (2 : Rat) ^ (-54 : Int) = 1 / 18014398509481984 := by norm_num
  rw [h54] at hr1
  have hr2 : roundF64 ((n : Rat) / (U : Rat)) < 1 := by linarith
  obtain ⟨p, hKp⟩ : ∃ p, K + p = 52 := ⟨52 - K, by omega⟩
  have hp : 1 ≤ p := by omega
  rw [f64ToInt_sum h K p _ hKp hp hlo hhi hr0 hr2]
  have hiff := (le_roundF64_fraction _ K p hKp hK1 hp hy0 hy1).trans
    (fraction_threshold n U K p hKp hU0)
  by_cases hc : U ≤ n + U * ((2 : Int) ^ (K + 1) + 1) / (2 : Int) ^ (54 : Nat)
  · rw [if_pos hc, if_pos (hiff.2 hc)]
  · rw [if_neg hc, if_neg (fun h' => hc (hiff.1 h'))]

/-- A whole part that goes up by one inside a window before the whole hour is
the whole part of the duration moved on by the window. -/
theorem ediv_hour_window (d w : Int) (hw0 : 0 ≤ w) (hw : w < 3600000000000) :
    (if 3600000000000 ≤ d % 3600000000000 + w then d / 3600000000000 + 1
      else d / 3600000000000) = (d + w) / 3600000000000 := by
  split <;> omega

/-- The same for the whole minute. -/
theorem ediv_minute_window (d w : Int) (hw0 : 0 ≤ w) (hw : w < 60000000000) :
    (if 60000000000 ≤ d % 60000000000 + w then d / 60000000000 + 1
      else d / 60000000000) = (d + w) / 60000000000 := by
  split <;> omega

/-- `int(d.Hours())` for a duration of at least two hours, with `2 ^ K`
to `2 ^ (K + 1)` whole hours: the whole hours of the duration moved on by the
window `Hour * (2 ^ (K + 1) + 1) / 2 ^ 54`. -/
theorem Hours_round (d : Duration) (K : Nat) (hK1 : 1 ≤ K) (hK : K ≤ 51)
    (hlo : (2 : Int) ^ K * Hour ≤ d) (hhi : d < (2 : Int) ^ (K + 1) * Hour) :
    f64ToInt (Duration.Hours d)
      = (d + Hour * ((2 : Int) ^ (K + 1) + 1) / (2 : Int) ^ (54 : Nat)) / Hour := by
  have hH : (0 : Int) < Hour := by decide
  have hd0 : (0 : Int) ≤ d := le_trans (mul_nonneg (by positivity) (le_of_lt hH)) hlo
  obtain ⟨hw0, hw⟩ := window_bounds Hour K hH hK
  unfold Duration.Hours
  rw [Int.tdiv_eq_ediv hd0 (by decide), Int.tmod_eq_emod hd0 (by decide)]
  have hU : ((3600000000000 : Rat)) = ((Hour : Int) : Rat) := by
    unfold Hour
    norm_num
  rw [hU, float_quotient_round (d / Hour) (d % Hour) Hour K hK1 hK
    ((Int.le_ediv_iff_mul_le hH).2 hlo) ((Int.ediv_lt_iff_lt_mul hH).2 hhi)
    (Int.emod_nonneg d (by decide)) (Int.emod_lt_of_pos d hH) (by unfold Hour; decide)]
  exact ediv_hour_window d _ hw0 hw

/-- `int(d.Minutes())` for a duration with `2 ^ K` to `2 ^ (K + 1)` whole
minutes: the whole minutes of the duration moved on by the window
`Minute * (2 ^ (K + 1) + 1) / 2 ^ 54`. -/
theorem Minutes_round (d : Duration) (K : Nat) (hK1 : 1 ≤ K) (hK : K ≤ 51)
    (hlo : (2 : Int) ^ K * Minute ≤ d) (hhi : d < (2 : Int) ^ (K + 1) * Minute) :
    f64ToInt (Duration.Minutes d)
      = (d + Minute * ((2 : Int) ^ (K + 1) + 1) / (2 : Int) ^ (54 : Nat)) / Minute := by
  have hM : (0 : Int) < Minute := by decide
  have hd0 : (0 : Int) ≤ d := le_trans (mul_nonneg (by positivity) (le_of_lt hM)) hlo
  obtain ⟨hw0, hw⟩ := window_bounds Minute K hM hK
  unfold Duration.Minutes
  rw [Int.tdiv_eq_ediv hd0 (by decide), Int.tmod_eq_emod hd0 (by decide)]
  have hU : ((60000000000 : Rat)) = ((Minute : Int) : Rat) := by
    unfold Minute
    norm_num
  rw [hU, float_quotient_round (d / Minute) (d % Minute) Minute K hK1 hK
    ((Int.le_ediv_iff_mul_le hM).2 hlo) ((Int.ediv_lt_iff_lt_mul hM).2 hhi)
    (Int.emod_nonneg d (by decide)) (Int.emod_lt_of_pos d hM) (by unfold Minute; decide)]
  exact ediv_minute_window d _ hw0 hw

/-- Rounding to the nearest integer, ties to even, is symmetric about zero. -/
theorem roundHalfEven_neg (m : Rat) : roundHalfEven (-m) = -roundHalfEven m := by
  have h1 : (⌊m⌋ : Rat) ≤ m := Int.floor_le m
  have h2 : m < ⌊m⌋ + 1 := Int.lt_floor_add_one m
  by_cases hint : m = (⌊m⌋ : Rat)
  · have hneg : -m = ((-⌊m⌋ : Int) : Rat) := by
      push_cast
      rw [← hint]
    rw [hneg, roundHalfEven_intCast]
    conv_rhs => rw [hint, roundHalfEven_intCast]
  · have hlt : (⌊m⌋ : Rat) < m := lt_of_le_of_ne h1 (Ne.symm hint)
    have hfl : ⌊-m⌋ = -(⌊m⌋ + 1) := by
      rw [Int.floor_eq_iff]
      push_cast
      constructor <;> linarith
    unfold roundHalfEven
    rw [hfl]
    push_cast
    split_ifs <;> first | omega | (exfalso; linarith)

/-- The binade of a number is the binade of its negative. -/
theorem binade_neg (x : Rat) : binade (-x) = binade x := by
  unfold binade
  simp only [Rat.neg_num, Rat.neg_den, Int.natAbs_neg, abs_neg]

/-- Rounding to `float64` is symmetric about zero. -/
theorem roundF64_neg (x : Rat) : roundF64 (-x) = -roundF64 x := by
  unfold roundF64
  by_cases hx : x = 0
  · simp [hx]
  · have hnx : -x ≠ 0 := neg_ne_zero.2 hx
    rw [if_neg hnx, if_neg hx, binade_neg, neg_div, roundHalfEven_neg]
    push_cast
    ring

/-- Rounding to `float64` keeps a number that is not negative from becoming
negative. -/
theorem roundF64_nonneg (x : Rat) (hx : 0 ≤ x) : 0 ≤ roundF64 x := by
  unfold roundF64
  split_ifs
  · exact le_refl _
  · apply mul_nonneg
    · have : (0 : Int) ≤ roundHalfEven (x / (2 : Rat) ^ (binade x - 52)) :=
        le_roundHalfEven 0 _ (by
          push_cast
          exact div_nonneg hx (by positivity))
      exact_mod_cast this
    · positivity

/-- The conversion to an integer is symmetric about zero. -/
theorem f64ToInt_neg (x : Rat) : f64ToInt (-x) = -f64ToInt x := by
  unfold f64ToInt
  rcases lt_trichotomy x 0 with h | h | h
  · rw [if_pos (by linarith), if_neg (by linarith), Int.floor_neg]
  · rw [h]
    simp
  · rw [if_neg (by linarith), if_pos (by linarith), Int.ceil_neg]

/-- The rest of a truncated division changes sign with the dividend. -/
theorem neg_tmod (a b : Int) : (-a).tmod b = -(a.tmod b) := by
  rw [Int.tmod_def, Int.tmod_def, Int.neg_tdiv]
  ring

/-- The hour count of the negative of a duration. -/
theorem Hours_neg (d : Duration) : Duration.Hours (-d) = -Duration.Hours d := by
  unfold Duration.Hours f64Add f64Div f64OfInt
  rw [Int.neg_tdiv, neg_tmod]
  push_cast
  rw [roundF64_neg, roundF64_neg, neg_div, roundF64_neg, ← neg_add, roundF64_neg]

/-- The minute count of the negative of a duration. -/
theorem Minutes_neg (d : Duration) : Duration.Minutes (-d) = -Duration.Minutes d := by
  unfold Duration.Minutes f64Add f64Div f64OfInt
  rw [Int.neg_tdiv, neg_tmod]
  push_cast
  rw [roundF64_neg, roundF64_neg, neg_div, roundF64_neg, ← neg_add, roundF64_neg]

/-- The hour count of a duration that is not negative is not negative. -/
theorem Hours_nonneg (d : Duration) (hd : 0 ≤ d) : 0 ≤ Duration.Hours d := by
  unfold Duration.Hours f64Add f64Div f64OfInt
  rw [Int.tdiv_eq_ediv hd (by decide), Int.tmod_eq_emod hd (by decide)]
  apply roundF64_nonneg
  apply add_nonneg
  · apply roundF64_nonneg
    exact_mod_cast Int.ediv_nonneg hd (by decide)
  · apply roundF64_nonneg
    apply div_nonneg
    · apply roundF64_nonneg
      exact_mod_cast Int.emod_nonneg d (by decide)
    · apply roundF64_nonneg
      norm_num

/-- For a negative duration `formatDuration` takes the minutes form, with the
negative of the minute count of the duration taken positive. -/
theorem formatDuration_neg (d : Duration) (hd : 0 ≤ d) :
    formatDuration (-d) = toString (-f64ToInt (Duration.Minutes d)) ++ " นาที" := by
  have hH : f64ToInt (Duration.Hours (-d)) < 1 := by
    rw [Hours_neg, f64ToInt_neg]
    have h0 := Hours_nonneg d hd
    have : 0 ≤ f64ToInt (Duration.Hours d) := by
      unfold f64ToInt
      rw [if_pos h0]
      exact Int.floor_nonneg.2 h0
    omega
  unfold formatDuration
  simp only []
  rw [if_pos hH, Minutes_neg, f64ToInt_neg]

/-- Below 4096 minutes `int(d.Minutes())` is the whole number of minutes. -/
theorem Minutes_below (d : Duration) (hd0 : 0 ≤ d) (hd : d < 4096 * Minute) :
    f64ToInt (Duration.Minutes d) = d / Minute := by
  have hM : (0 : Int) < Minute := by decide
  unfold Duration.Minutes
  rw [Int.tdiv_eq_ediv hd0 (by decide), Int.tmod_eq_emod hd0 (by decide)]
  have hU : ((60000000000 : Rat)) = ((Minute : Int) : Rat) := by
    unfold Minute
    norm_num
  rw [hU]
  apply float_quotient
  · exact Int.ediv_nonneg hd0 (by decide)
  · exact (Int.ediv_lt_iff_lt_mul hM).2 hd
  · exact Int.emod_nonneg d (by decide)
  · exact Int.emod_lt_of_pos d (by decide)
  · unfold Minute
    decide

/-- A whole number from 4096 on lies in a binade from the twelfth on. -/
theorem exists_binade (h : Int) (B : Nat) (hh : 4096 ≤ h) (hB : h < (2 : Int) ^ (B + 1)) :
    ∃ K : Nat, 12 ≤ K ∧ K ≤ B ∧ (2 : Int) ^ K ≤ h ∧ h < (2 : Int) ^ (K + 1) := by
  have h0 : 0 ≤ h := by omega
  have hcast : ((h.toNat : Nat) : Int) = h := Int.toNat_of_nonneg h0
  have hn : h.toNat ≠ 0 := by omega
  have h12 : 2 ^ 12 ≤ h.toNat := by
    have : (4096 : Int) ≤ ((h.toNat : Nat) : Int) := by rw [hcast]; exact hh
    have : 4096 ≤ h.toNat := by exact_mod_cast this
    simpa using this
  have hBn : h.toNat < 2 ^ (B + 1) := by
    have : ((h.toNat : Nat) : Int) < (2 : Int) ^ (B + 1) := by rw [hcast]; exact hB
    exact_mod_cast this
  refine ⟨Nat.log 2 h.toNat, ?_, ?_, ?_, ?_⟩
  · exact Nat.le_log_of_pow_le (by norm_num) h12
  · have := Nat.log_lt_of_lt_pow hn hBn
    omega
  · have := Nat.pow_log_le_self 2 hn
    rw [← hcast]
    exact_mod_cast this
  · have := Nat.lt_pow_succ_log_self (by norm_num : 1 < 2) h.toNat
    rw [← hcast]
    exact_mod_cast this

/-- The window of a binade is at most the window of a later one. -/
theorem window_le (U : Int) (K B : Nat) (hU : 0 ≤ U) (hKB : K ≤ B) :
    U * ((2 : Int) ^ (K + 1) + 1) / (2 : Int) ^ (54 : Nat)
      ≤ U * ((2 : Int) ^ (B + 1) + 1) / (2 : Int) ^ (54 : Nat) := by
  apply Int.ediv_le_ediv (by positivity)
  apply mul_le_mul_of_nonneg_left _ hU
  have : (2 : Int) ^ (K + 1) ≤ (2 : Int) ^ (B + 1) := pow_le_pow_right₀ (by norm_num) (by omega)
  omega

/-- From 4096 hours on the whole hours are at least 24. -/
theorem hours_ge (x : Int) (hx : 4096 * 3600000000000 ≤ x) :
    ¬ x / 3600000000000 < 1 ∧ ¬ x / 3600000000000 < 24 ∧ 0 ≤ x / 3600000000000 := by
  refine ⟨?_, ?_, ?_⟩ <;> omega

/-- A window of at most 838 nanoseconds does not reach the next whole day
from a duration that is more than 838 nanoseconds before it. -/
theorem days_window (d w : Int) (hw0 : 0 ≤ w) (hw : w ≤ 838)
    (h : d % (24 * 3600000000000) + 838 < 24 * 3600000000000) :
    (d + w) / (24 * 3600000000000) = d / (24 * 3600000000000) := by
  omega

/-- A window of at most 894 nanoseconds does not reach the next whole minute
from a duration that is more than 894 nanoseconds before it. -/
theorem minutes_window (d w : Int) (hw0 : 0 ≤ w) (hw : w ≤ 894)
    (h : d % 60000000000 + 894 < 60000000000) :
    (d + w) / 60000000000 = d / 60000000000 := by
  omega

/-- From 4096 hours on, with `2 ^ K` to `2 ^ (K + 1)` whole hours,
`formatDuration` gives the whole days of the duration moved on by the window
`Hour * (2 ^ (K + 1) + 1) / 2 ^ 54`. -/
theorem formatDuration_days (d : Duration) (K : Nat) (hK12 : 12 ≤ K) (hK : K ≤ 51)
    (hlo : (2 : Int) ^ K * Hour ≤ d) (hhi : d < (2 : Int) ^ (K + 1) * Hour) :
    formatDuration d
      = toString ((d + Hour * ((2 : Int) ^ (K + 1) + 1) / (2 : Int) ^ (54 : Nat)) / (24 * Hour))
          ++ " วัน" := by
  have hH : (0 : Int) < Hour := by decide
  obtain ⟨hw0, _⟩ := window_bounds Hour K hH hK
  have hpow : (2 : Int) ^ (12 : Nat) ≤ (2 : Int) ^ K := pow_le_pow_right₀ (by norm_num) hK12
  have hd : 4096 * 3600000000000 ≤ d := by
    have h1 : (2 : Int) ^ (12 : Nat) * Hour ≤ (2 : Int) ^ K * Hour :=
      mul_le_mul_of_nonneg_right hpow (le_of_lt hH)
    have h2 : (2 : Int) ^ (12 : Nat) * Hour = 4096 * 3600000000000 := by decide
    rw [h2] at h1
    exact le_trans h1 hlo
  obtain ⟨c1, c2, c3⟩ := hours_ge
    (d + Hour * ((2 : Int) ^ (K + 1) + 1) / (2 : Int) ^ (54 : Nat)) (le_trans hd (by omega))
  have hround := Hours_round d K (by omega) hK hlo hhi
  have c1' : ¬ f64ToInt (Duration.Hours d) < 1 := by rw [hround]; exact c1
  have c2' : ¬ f64ToInt (Duration.Hours d) < 24 := by rw [hround]; exact c2
  have c3' : 0 ≤ f64ToInt (Duration.Hours d) := by rw [hround]; exact c3
  unfold formatDuration
  simp only []
  rw [if_neg c1', if_neg c2', Int.tdiv_eq_ediv c3' (by decide), hround]
  have hdays : (d + Hour * ((2 : Int) ^ (K + 1) + 1) / (2 : Int) ^ (54 : Nat)) / Hour / 24
      = (d + Hour * ((2 : Int) ^ (K + 1) + 1) / (2 : Int) ^ (54 : Nat)) / (24 * Hour) :=
    days_eq _
  rw [hdays]

/-- For a negative duration of fewer than 4096 minutes `formatDuration` gives
the whole minutes, rounded toward zero. -/
theorem formatDuration_neg_below (d : Int) (hd : d < 0) (hlo : -(4096 * Minute) < d) :
    formatDuration d = toString (d.tdiv Minute) ++ " นาที" := by
  have hpos : (0 : Int) ≤ -d := by omega
  have h := formatDuration_neg (-d) hpos
  rw [neg_neg] at h
  rw [h, Minutes_below (-d) hpos (neg_lt.1 hlo)]
  have : d.tdiv Minute = -(-d / Minute) := by
    have h1 : (-d).tdiv Minute = -d / Minute := Int.tdiv_eq_ediv hpos (by decide)
    rw [← h1, Int.neg_tdiv, neg_neg]
  rw [this]

/-- For a negative duration with `2 ^ K` to `2 ^ (K + 1)` whole minutes
`formatDuration` gives the whole minutes, rounded toward zero, of the
duration moved back by the window `Minute * (2 ^ (K + 1) + 1) / 2 ^ 54`. -/
theorem formatDuration_neg_round (d : Int) (K : Nat) (hK1 : 1 ≤ K) (hK : K ≤ 51)
    (hlo : (2 : Int) ^ K * Minute ≤ -d) (hhi : -d < (2 : Int) ^ (K + 1) * Minute) :
    formatDuration d
      = toString ((d - Minute * ((2 : Int) ^ (K + 1) + 1) / (2 : Int) ^ (54 : Nat)).tdiv Minute)
          ++ " นาที" := by
  have hM : (0 : Int) < Minute := by decide
  have hpos : (0 : Int) ≤ -d := le_trans (mul_nonneg (by positivity) (le_of_lt hM)) hlo
  obtain ⟨hw0, _⟩ := window_bounds Minute K hM hK
  have h := formatDuration_neg (-d) hpos
  rw [neg_neg] at h
  rw [h, Minutes_round (-d) K hK1 hK hlo hhi]
  have hsum : (0 : Int) ≤ -d + Minute * ((2 : Int) ^ (K + 1) + 1) / (2 : Int) ^ (54 : Nat) := by
    omega
  have : (d - Minute * ((2 : Int) ^ (K + 1) + 1) / (2 : Int) ^ (54 : Nat)).tdiv Minute
      = -((-d + Minute * ((2 : Int) ^ (K + 1) + 1) / (2 : Int) ^ (54 : Nat)) / Minute) := by
    have h1 := Int.tdiv_eq_ediv hsum (by decide : (0 : Int) ≤ Minute)
    rw [← h1, ← Int.neg_tdiv]
    congr 1
    ring
  rw [this]

/-- For every duration of the `int64` range that is not negative and not
within the last 838 nanoseconds before a whole number of days,
`formatDuration` gives the whole minutes, hours or days. -/
theorem formatDuration_outside_window (d : Duration) (hd0 : 0 ≤ d)
    (hmax : d ≤ 9223372036854775807) (hwin : d % (24 * Hour) + 838 < 24 * Hour) :
    formatDuration d =
      if d < Hour then toString (d / Minute) ++ " นาที"
      else if d < 24 * Hour then toString (d / Hour) ++ " ชั่วโมง"
      else toString (d / (24 * Hour)) ++ " วัน" := by
  have hH : (0 : Int) < Hour := by decide
  by_cases hbelow : d < 4096 * Hour
  · exact formatDuration_below d hd0 hbelow
  · have hge : 4096 * Hour ≤ d := not_lt.1 hbelow
    have hh : 4096 ≤ d / Hour := (Int.le_ediv_iff_mul_le hH).2 hge
    have hB : d / Hour < (2 : Int) ^ (21 + 1) :=
      (Int.ediv_lt_iff_lt_mul hH).2 (lt_of_le_of_lt hmax (by decide))
    obtain ⟨K, hK12, hK21, hlo, hhi⟩ := exists_binade (d / Hour) 21 hh hB
    have hlo' : (2 : Int) ^ K * Hour ≤ d := (Int.le_ediv_iff_mul_le hH).1 hlo
    have hhi' : d < (2 : Int) ^ (K + 1) * Hour := (Int.ediv_lt_iff_lt_mul hH).1 hhi
    obtain ⟨hw0, _⟩ := window_bounds Hour K hH (by omega)
    have hw : Hour * ((2 : Int) ^ (K + 1) + 1) / (2 : Int) ^ (54 : Nat) ≤ 838 :=
      le_trans (window_le Hour K 21 (le_of_lt hH) hK21) (by decide)
    have hdays : (d + Hour * ((2 : Int) ^ (K + 1) + 1) / (2 : Int) ^ (54 : Nat)) / (24 * Hour)
        = d / (24 * Hour) := days_window d _ hw0 hw hwin
    rw [formatDuration_days d K hK12 (by omega) hlo' hhi', hdays]
    have c1 : ¬ d < Hour := not_lt.2 (le_trans (by decide) hge)
    have c2 : ¬ d < 24 * Hour := not_lt.2 (le_trans (by decide) hge)
    rw [if_neg c1, if_neg c2]

/-- For every negative duration of the `int64` range that is not within the
last 894 nanoseconds before a whole number of minutes, `formatDuration` gives
the whole minutes, rounded toward zero. -/
theorem formatDuration_neg_outside_window (d : Int) (hd : d < 0)
    (hmin : -9223372036854775808 ≤ d) (hwin : (-d) % Minute + 894 < Minute) :
    formatDuration d = toString (d.tdiv Minute) ++ " นาที" := by
  have hM : (0 : Int) < Minute := by decide
  by_cases hbelow : -(4096 * Minute) < d
  · exact formatDuration_neg_below d hd hbelow
  · have hge : 4096 * Minute ≤ -d := by
      have := not_lt.1 hbelow
      exact le_neg_of_le_neg this
    have hpos : (0 : Int) ≤ -d := by omega
    have hh : 4096 ≤ -d / Minute := (Int.le_ediv_iff_mul_le hM).2 hge
    have hB : -d / Minute < (2 : Int) ^ (27 + 1) := by
      apply (Int.ediv_lt_iff_lt_mul hM).2
      have h1 : -d ≤ 9223372036854775808 := by omega
      exact lt_of_le_of_lt h1 (by decide)
    obtain ⟨K, hK12, hK27, hlo, hhi⟩ := exists_binade (-d / Minute) 27 hh hB
    have hlo' : (2 : Int) ^ K * Minute ≤ -d := (Int.le_ediv_iff_mul_le hM).1 hlo
    have hhi' : -d < (2 : Int) ^ (K + 1) * Minute := (Int.ediv_lt_iff_lt_mul hM).1 hhi
    obtain ⟨hw0, _⟩ := window_bounds Minute K hM (by omega)
    have hw : Minute * ((2 : Int) ^ (K + 1) + 1) / (2 : Int) ^ (54 : Nat) ≤ 894 :=
      le_trans (window_le Minute K 27 (le_of_lt hM) hK27) (by decide)
    have hmins : (-d + Minute * ((2 : Int) ^ (K + 1) + 1) / (2 : Int) ^ (54 : Nat)) / Minute
        = -d / Minute := minutes_window (-d) _ hw0 hw hwin
    rw [formatDuration_neg_round d K (by omega) (by omega) hlo' hhi']
    have hsum : (0 : Int)
        ≤ -d + Minute * ((2 : Int) ^ (K + 1) + 1) / (2 : Int) ^ (54 : Nat) := by omega
    have e1 : (d - Minute * ((2 : Int) ^ (K + 1) + 1) / (2 : Int) ^ (54 : Nat)).tdiv Minute
        = -(-d / Minute) := by
      have h1 := Int.tdiv_eq_ediv hsum (by decide : (0 : Int) ≤ Minute)
      rw [← hmins, ← h1, ← Int.neg_tdiv]
      congr 1
      ring
    have e2 : d.tdiv Minute = -(-d / Minute) := by
      have h1 : (-d).tdiv Minute = -d / Minute := Int.tdiv_eq_ediv hpos (by decide)
      rw [← h1, Int.neg_tdiv, neg_neg]
    rw [e1, e2]

/-- C19 (as amended). For every duration `formatDuration` gives exactly one
number and one unit, never a combination.  It takes the number from the
`float64` hour and minute counts of the Go library, which are rounded.

For a duration `d` from zero up to 4096 hours the number is the whole number
of minutes when `d` is under one hour, the whole number of hours when `d` is
at least one hour and under 24 hours, and the whole number of days
`floor(d / 24h)` otherwise.  For a longer duration, with `2 ^ K` to
`2 ^ (K + 1)` whole hours, the number is the whole number of days of `d`
moved on by a window of `Hour * (2 ^ (K + 1) + 1) / 2 ^ 54` nanoseconds: it
is `floor(d / 24h)` except in that window before a whole number of days,
where it is one more.  The window is one nanosecond up to 8192 hours and at
most 838 nanoseconds over the whole `int64` range, so every duration that is
not within 838 nanoseconds before a whole number of days gets
`floor(d / 24h)`.

A negative duration gets the minutes form; the number is the whole number of
minutes rounded toward zero for fewer than 4096 minutes, and beyond that,
with `2 ^ K` to `2 ^ (K + 1)` whole minutes, the one of `d` moved back by a
window of `Minute * (2 ^ (K + 1) + 1) / 2 ^ 54` nanoseconds, which is at most
894 nanoseconds over the whole `int64` range. -/
theorem formatDuration_exact (d : Duration) :
    (∃ n : Int, formatDuration d = toString n ++ " นาที" ∨
      formatDuration d = toString n ++ " ชั่วโมง" ∨
      formatDuration d = toString n ++ " วัน") ∧
    (0 ≤ d → d < 4096 * Hour →
      formatDuration d =
        if d < Hour then toString (d / Minute) ++ " นาที"
        else if d < 24 * Hour then toString (d / Hour) ++ " ชั่วโมง"
        else toString (d / (24 * Hour)) ++ " วัน") ∧
    (∀ K : Nat, 12 ≤ K → K ≤ 51 → (2 : Int) ^ K * Hour ≤ d → d < (2 : Int) ^ (K + 1) * Hour →
      formatDuration d
        = toString ((d + Hour * ((2 : Int) ^ (K + 1) + 1) / (2 : Int) ^ (54 : Nat))
            / (24 * Hour)) ++ " วัน") ∧
    (4096 * Hour ≤ d → d < 8192 * Hour →
      formatDuration d = toString ((d + 1) / (24 * Hour)) ++ " วัน") ∧
    (0 ≤ d → d ≤ 9223372036854775807 → d % (24 * Hour) + 838 < 24 * Hour →
      formatDuration d =
        if d < Hour then toString (d / Minute) ++ " นาที"
        else if d < 24 * Hour then toString (d / Hour) ++ " ชั่วโมง"
        else toString (d / (24 * Hour)) ++ " วัน") ∧
    (d < 0 → -(4096 * Minute) < d →
      formatDuration d = toString (d.tdiv Minute) ++ " นาที") ∧
    (∀ K : Nat, 12 ≤ K → K ≤ 51 → (2 : Int) ^ K * Minute ≤ -d →
      -d < (2 : Int) ^ (K + 1) * Minute →
      formatDuration d
        = toString ((d - Minute * ((2 : Int) ^ (K + 1) + 1) / (2 : Int) ^ (54 : Nat)).tdiv
            Minute) ++ " นาที") ∧
    (d < 0 → -9223372036854775808 ≤ d → (-d) % Minute + 894 < Minute →
      formatDuration d = toString (d.tdiv Minute) ++ " นาที") := by
  refine ⟨formatDuration_form d, formatDuration_below d, ?_, ?_, ?_, ?_, ?_, ?_⟩
  · intro K hK12 hK hlo hhi
    exact formatDuration_days d K hK12 hK hlo hhi
  · intro hlo hhi
    have h := formatDuration_days d 12 (le_refl _) (by decide) hlo hhi
    have hw : Hour * ((2 : Int) ^ (12 + 1) + 1) / (2 : Int) ^ (54 : Nat) = 1 := by decide
    rw [hw] at h
    exact h
  · exact formatDuration_outside_window d
  · exact formatDuration_neg_below d
  · intro K hK12 hK hlo hhi
    exact formatDuration_neg_round d K (by omega) hK hlo hhi
  · exact formatDuration_neg_outside_window d

/-! ## The renderer -/

/-- `truncateText` counts and cuts bytes. -/
theorem truncateText_bytes (text : GoString) (maxLength : Nat) :
    (text.length ≤ maxLength → truncateText text maxLength = text) ∧
    (maxLength < text.length →
      truncateText text maxLength = text.take maxLength ++ [46, 46, 46]) := by
  unfold truncateText
  constructor
  · intro h
    rw [if_pos h]
  · intro h
    rw [if_neg (by omega)]
    rfl

/-- The Go string of a text of ASCII characters has one byte per character. -/
theorem goString_ascii (chars : List Char) (h : ∀ c ∈ chars, c.toNat < 128) :
    goString (String.mk chars) = chars.map (fun c => c.toNat) := by
  unfold goString
  induction chars with
  | nil => rfl
  | cons c rest ih =>
    have hc : c.toNat < 128 := h c (List.mem_cons_self _ _)
    have hrest := ih (fun c' hc' => h c' (List.mem_cons_of_mem _ hc'))
    simp only [List.flatMap_cons, List.map_cons] at hrest ⊢
    rw [hrest]
    simp [utf8EncodeChar, hc]

/-- On a text of ASCII characters `truncateText(text, 100)` does what the
character budget asks for: the text itself up to 100 characters, its first
100 characters and the ellipsis beyond. -/
theorem truncateText_ascii (chars : List Char) (h : ∀ c ∈ chars, c.toNat < 128) :
    truncateText (goString (String.mk chars)) 100 =
      if chars.length ≤ 100 then goString (String.mk chars)
      else goString (String.mk (chars.take 100)) ++ goString "..." := by
  have htake : ∀ c ∈ chars.take 100, c.toNat < 128 :=
    fun c hc => h c (List.mem_of_mem_take hc)
  rw [goString_ascii chars h, goString_ascii (chars.take 100) htake]
  unfold truncateText
  simp only [List.length_map, List.map_take]

/-- The message of `NotifyAssignment` is built exactly when the technician
pointer is not nil. -/
theorem assignmentMessage_panics_iff (lib : Stdlib) (now : Time) (request : RepairRequest)
    (technician : Option User) :
    assignmentMessage lib now request technician = Except.error Panic.nilDereference ↔
      technician = none := by
  unfold assignmentMessage
  cases technician <;> simp

/-- The message of `NotifyCompletion` is built exactly when neither the
technician pointer nor the completion time of the request is nil. -/
theorem completionMessage_panics_iff (lib : Stdlib) (request : RepairRequest)
    (technician : Option User) :
    completionMessage lib request technician = Except.error Panic.nilDereference ↔
      technician = none ∨ request.CompletedAt = none := by
  unfold completionMessage
  cases technician <;> cases request.CompletedAt <;> simp

/-- The messages of `NotifyNewRepairRequest`, `NotifyStatusChange` and
`NotifyRejection` are always built: the handlers pass them a requester and an
admin that are not nil, and an absent technician goes through
`getTechnicianName`. -/
theorem message_ok (lib : Stdlib) (now : Time) (n : Notification)
    (h : n.kind = Kind.newTicket ∨ n.kind = Kind.statusChanged ∨ n.kind = Kind.rejected) :
    ∃ text, n.message lib now = Except.ok text := by
  cases n with
  | NewRepairRequest request requester => exact ⟨_, rfl⟩
  | StatusChange request oldStatus technician => exact ⟨_, rfl⟩
  | Rejection request reason admin => exact ⟨_, rfl⟩
  | Assignment request technician => simp [Notification.kind] at h
  | Completion request technician => simp [Notification.kind] at h

/-! ## More evaluations on concrete stores -/

/-- An upsert of the chat id on the demo store: the store keeps one row per
key and its other rows. -/
theorem SetSetting_upsert_witness :
    UniqueKeys demoSettings ∧
    UniqueKeys (saveByKey demoSettings "telegram_chat_id" "99") ∧
    (saveByKey demoSettings "telegram_chat_id" "99").filter
        (fun r => r.Key != "telegram_chat_id")
      = demoSettings.filter (fun r => r.Key != "telegram_chat_id") := by
  obtain ⟨c, _, _, _, huniq, hfilter⟩ :=
    SetSetting_upsert demoSettingsService 0 demoSettings
      (saveByKey demoSettings "telegram_chat_id" "99") "telegram_chat_id" "99"
      (by decide) (by decide)
  exact ⟨by decide, huniq, hfilter⟩

/-- On the demo store `GetSetting` of the bot token is the decryption of the
stored text, and `GetSetting` of the chat id the stored text. -/
theorem encryption_exactly_for_token_witness :
    demoSettingsService.GetSetting demoSettings "telegram_bot_token"
        = demoSettingsService.encryption.Decrypt "acba:321" ∧
    demoSettingsService.GetSetting demoSettings "telegram_chat_id" = Except.ok "42" :=
  ⟨((encryption_exactly_for_token demoSettingsService 0 demoSettings "telegram_bot_token"
      "x").2.2.2.1 { Key := "telegram_bot_token", Value := "acba:321" } (by decide)).1 rfl,
   ((encryption_exactly_for_token demoSettingsService 0 demoSettings "telegram_chat_id"
      "x").2.2.2.1 { Key := "telegram_chat_id", Value := "42" } (by decide)).2 (by decide)⟩

/-- C13 (counterexample). The bot-token key is set, but its stored text does
not decrypt: `GetSettingWithDefault` returns the fallback, not a stored plain
value.  And the site name is set to the very text that is passed as
fallback: the fallback comes back although the key is set. -/
theorem GetSettingWithDefault_fallback_when_set :
    firstByKey demoSettingsCorrupt "telegram_bot_token"
      = some { Key := "telegram_bot_token", Value := "" } ∧
    demoSettingsService.GetSettingWithDefault demoSettingsCorrupt "telegram_bot_token" "fallback"
      = "fallback" ∧
    firstByKey demoSettingsCorrupt "site_name" = some { Key := "site_name", Value := "Workshop" } ∧
    demoSettingsService.GetSettingWithDefault demoSettingsCorrupt "site_name" "Workshop"
      = "Workshop" := by
  decide

/-- On the demo store the chat id is set and comes back, and a key that is
not set gives the fallback. -/
theorem GetSettingWithDefault_cases_witness :
    demoSettingsService.GetSettingWithDefault demoSettings "telegram_chat_id" "0" = "42" ∧
    demoSettingsService.GetSettingWithDefault demoSettings "site_name" "Repair System"
      = "Repair System" :=
  ⟨(GetSettingWithDefault_cases demoSettingsService demoSettings "telegram_chat_id" "0").2.2.1
      { Key := "telegram_chat_id", Value := "42" } "42" (by decide) (by decide),
   (GetSettingWithDefault_cases demoSettingsService demoSettings "site_name"
      "Repair System").1 (by decide)⟩

/-- Switching telegram off on the demo store: `GetBoolSetting` then answers
false. -/
theorem GetBoolSetting_contract_witness :
    demoSettingsService.SetBoolSetting 0 demoSettings "telegram_enabled" false
      = Except.ok (saveByKey demoSettings "telegram_enabled" "false") ∧
    demoSettingsService.GetBoolSetting (saveByKey demoSettings "telegram_enabled" "false")
      "telegram_enabled" = false :=
  ⟨by decide,
   (GetBoolSetting_contract demoSettingsService demoSettings "telegram_enabled").2 0 false
      (saveByKey demoSettings "telegram_enabled" "false") (fun _ => toyEncryption_roundTrip)
      (by decide)⟩

/-- A store whose bot-token row does not decrypt: `GetAllSettings` returns an
error; the demo store: it returns a map. -/
theorem GetAllSettings_all_or_error_witness :
    (∃ err, demoSettingsService.GetAllSettings demoSettingsCorrupt = Except.error err) ∧
    (∃ m, demoSettingsService.GetAllSettings demoSettings = Except.ok m) :=
  ⟨(GetAllSettings_all_or_error demoSettingsService demoSettingsCorrupt).2.1
      ⟨{ Key := "telegram_bot_token", Value := "" }, by decide, by decide,
        Error.crypto "ciphertext too short", by decide⟩,
   (GetAllSettings_all_or_error demoSettingsService demoSettings).2.2 (by
      intro row hrow hs
      simp only [demoSettings, List.mem_cons, List.mem_singleton, List.not_mem_nil,
        or_false] at hrow
      rcases hrow with rfl | rfl | rfl | rfl | rfl | rfl | rfl <;>
        exact ⟨_, rfl⟩)⟩

/-- Two runs of the seeding, the second in the reverse order, on a store with
a changed site name. -/
theorem InitializeDefaultSettings_idempotent_witness :
    ∃ db1, demoSettingsService.InitializeDefaultSettings 0 defaults demoChangedSettings
        = Except.ok db1 ∧
      (∀ kv ∈ defaults, (firstByKey db1 kv.1).isSome = true) ∧
      demoSettingsService.InitializeDefaultSettings 1 defaults.reverse db1 = Except.ok db1 :=
  (InitializeDefaultSettings_idempotent demoSettingsService 0 1 defaults defaults.reverse
    demoChangedSettings (List.Perm.refl _) (List.reverse_perm _)).2

/-- The seeding of a store with a changed site name and a bot token: the site
name stays as changed and the bot-token row stays as it is. -/
theorem InitializeDefaultSettings_frame_witness :
    demoSettingsService.InitializeDefaultSettings 0 defaults demoChangedSettings
      = Except.ok demoSeeded ∧
    firstByKey demoSeeded "site_name" = some { Key := "site_name", Value := "Workshop" } ∧
    firstByKey demoSeeded SettingTelegramBotToken
      = firstByKey demoChangedSettings SettingTelegramBotToken :=
  ⟨by decide,
   (InitializeDefaultSettings_frame demoSettingsService 0 defaults demoChangedSettings
      demoSeeded (List.Perm.refl _) (by decide)).2.1 "site_name"
      { Key := "site_name", Value := "Workshop" } (by decide),
   (InitializeDefaultSettings_frame demoSettingsService 0 defaults demoChangedSettings
      demoSeeded (List.Perm.refl _) (by decide)).2.2.2.1⟩

/-- C18 (the code at the failing input). A description of 90 Thai characters
has 270 bytes, so `truncateText(text, 100)` does not return it unchanged: it
returns the first 100 bytes, which are 33 characters and the first byte of
the 34th, followed by the ellipsis.  A description of 150 Thai characters is
cut at the same place, not after 100 characters. -/
theorem truncateText_thai :
    demoThaiDescription.length = 90 ∧
    (goString demoThaiDescription).length = 270 ∧
    truncateText (goString demoThaiDescription) 100
      = goString (String.mk (List.replicate 33 'ก')) ++ [224] ++ goString "..." ∧
    demoLongThaiDescription.length = 150 ∧
    truncateText (goString demoLongThaiDescription) 100
      = goString (String.mk (List.replicate 33 'ก')) ++ [224] ++ goString "..." := by
  decide!

/-- C19 (counterexample). One nanosecond less than 171 days: the `float64`
hour count of the Go library rounds to 4104, so `formatDuration` gives 171
days, while the whole number of days is 170. -/
theorem formatDuration_rounds_up :
    Duration.Hours (4104 * Hour - 1) = 4104 ∧
    formatDuration (4104 * Hour - 1) = "171 วัน" ∧
    (4104 * Hour - 1) / (24 * Hour) = 170 := by
  decide!

/-- Forty-five minutes, three hours and fifty hours; two nanoseconds and one
nanosecond before 171 days; 5000 hours and five minutes; two nanoseconds
before 8000 hours; three nanoseconds before 500 days, where the window is
three nanoseconds; and ninety minutes before zero. -/
theorem formatDuration_exact_witness :
    formatDuration (45 * Minute) = "45 นาที" ∧
    formatDuration (3 * Hour) = "3 ชั่วโมง" ∧
    formatDuration (50 * Hour) = "2 วัน" ∧
    formatDuration (4104 * Hour - 2) = "170 วัน" ∧
    formatDuration (4104 * Hour - 1) = "171 วัน" ∧
    formatDuration (5000 * Hour + 5 * Minute) = "208 วัน" ∧
    formatDuration (8000 * Hour - 2) = "333 วัน" ∧
    formatDuration (12000 * Hour - 3) = "500 วัน" ∧
    formatDuration (-(90 * Minute)) = "-90 นาที" :=
  ⟨((formatDuration_exact (45 * Minute)).2.1 (by decide) (by decide)).trans (by decide),
   ((formatDuration_exact (3 * Hour)).2.1 (by decide) (by decide)).trans (by decide),
   ((formatDuration_exact (50 * Hour)).2.1 (by decide) (by decide)).trans (by decide),
   ((formatDuration_exact (4104 * Hour - 2)).2.2.2.1 (by decide) (by decide)).trans (by decide),
   ((formatDuration_exact (4104 * Hour - 1)).2.2.2.1 (by decide) (by decide)).trans (by decide),
   ((formatDuration_exact (5000 * Hour + 5 * Minute)).2.2.2.2.1 (by decide) (by decide)
      (by decide)).trans (by decide),
   ((formatDuration_exact (8000 * Hour - 2)).2.2.2.1 (by decide) (by decide)).trans (by decide),
   ((formatDuration_exact (12000 * Hour - 3)).2.2.1 13 (by decide) (by decide) (by decide)
      (by decide)).trans (by decide),
   ((formatDuration_exact (-(90 * Minute))).2.2.2.2.2.1 (by decide) (by decide)).trans
      (by decide)⟩

/-- C20 (the code at the failing inputs). With notifications enabled: setting
the pending ticket 1, which has no technician, to `completed` starts
`NotifyCompletion` with a nil technician, and its message construction
panics; setting ticket 2, which has a technician but no completion time, to
`completed` starts `NotifyCompletion` on a request with a nil `CompletedAt`,
and its message construction panics. -/
theorem completion_message_panics :
    (demoService.IsEnabled demoDB.settings demoEnv).1 = true ∧
    (UpdateRepairRequest true demoService demoDB demoEnv 2000 demoContext (some 1)
        (some demoCompleteBody)).dispatched.map
      (fun n => (n.kind, decide (n.message demoLib 2000 = Except.error Panic.nilDereference)))
      = [(Kind.statusChanged, false), (Kind.completed, true)] ∧
    (UpdateRepairRequest true demoService demoDB demoEnv 2000 demoContext (some 2)
        (some demoCompleteBody)).dispatched.map
      (fun n => (n.kind, decide (n.message demoLib 2000 = Except.error Panic.nilDereference)))
      = [(Kind.statusChanged, false), (Kind.assigned, false), (Kind.completed, true)] := by
  decide!

/-! ## The vocabulary tables -/

/-- C21. The vocabulary tables cover the five statuses and the four
priorities: each status has its label and a symbol other than the default
one, each priority likewise; every other string is its own label (and gets
the default symbol). -/
theorem vocabulary_exhaustive :
    [StatusPending, StatusInProgress, StatusWaitingPart, StatusCompleted, StatusRejected].map
        getStatusText = ["รอดำเนินการ", "กำลังดำเนินการ", "รออะไหล่", "เสร็จสิ้น", "ปฏิเสธ"] ∧
    [StatusPending, StatusInProgress, StatusWaitingPart, StatusCompleted, StatusRejected].map
        getStatusEmoji = ["⏳", "🔧", "📦", "✅", "❌"] ∧
    (∀ status ∈ [StatusPending, StatusInProgress, StatusWaitingPart, StatusCompleted,
        StatusRejected], getStatusText status ≠ status ∧ getStatusEmoji status ≠ "❓") ∧
    [PriorityLow, PriorityMedium, PriorityHigh, PriorityUrgent].map getPriorityText
      = ["ต่ำ", "ปานกลาง", "สูง", "เร่งด่วน"] ∧
    [PriorityLow, PriorityMedium, PriorityHigh, PriorityUrgent].map getPriorityEmoji
      = ["🟢", "🟡", "🔴", "🚨"] ∧
    (∀ priority ∈ [PriorityLow, PriorityMedium, PriorityHigh, PriorityUrgent],
      getPriorityText priority ≠ priority ∧ getPriorityEmoji priority ≠ "⚪") ∧
    (∀ status, status ∉ [StatusPending, StatusInProgress, StatusWaitingPart, StatusCompleted,
        StatusRejected] → getStatusText status = status ∧ getStatusEmoji status = "❓") ∧
    (∀ priority, priority ∉ [PriorityLow, PriorityMedium, PriorityHigh, PriorityUrgent] →
      getPriorityText priority = priority ∧ getPriorityEmoji priority = "⚪") := by
  refine ⟨by decide, by decide, by decide, by decide, by decide, by decide, ?_, ?_⟩
  · intro status hstatus
    simp only [StatusPending, StatusInProgress, StatusWaitingPart, StatusCompleted,
      StatusRejected, List.mem_cons, List.mem_singleton, List.not_mem_nil, or_false,
      not_or] at hstatus
    obtain ⟨h1, h2, h3, h4, h5⟩ := hstatus
    constructor
    · unfold getStatusText
      split <;> first | rfl | contradiction
    · unfold getStatusEmoji
      split <;> first | rfl | contradiction
  · intro priority hpriority
    simp only [PriorityLow, PriorityMedium, PriorityHigh, PriorityUrgent, List.mem_cons,
      List.mem_singleton, List.not_mem_nil, or_false, not_or] at hpriority
    obtain ⟨h1, h2, h3, h4⟩ := hpriority
    constructor
    · unfold getPriorityText
      split <;> first | rfl | contradiction
    · unfold getPriorityEmoji
      split <;> first | rfl | contradiction

/-- The tables at the five statuses and the four priorities, and at a string
that is neither. -/
theorem vocabulary_exhaustive_witness :
    getStatusText "waiting_part" = "รออะไหล่" ∧ getStatusEmoji "waiting_part" = "📦" ∧
    getPriorityText "urgent" = "เร่งด่วน" ∧ getPriorityEmoji "urgent" = "🚨" ∧
    getStatusText "archived" = "archived" ∧ getPriorityText "critical" = "critical" :=
  ⟨by decide, by decide, by decide, by decide,
   (vocabulary_exhaustive.2.2.2.2.2.2.1 "archived" (by decide)).1,
   (vocabulary_exhaustive.2.2.2.2.2.2.2 "critical" (by decide)).1⟩

/-! ## Placeholders for absent fields -/

/-- The three helper functions: the placeholder for an absent technician, an
empty location and a cost of zero, and the value itself otherwise. -/
theorem placeholders (lib : Stdlib) :
    getTechnicianName none = "ยังไม่ได้มอบหมาย" ∧
    (∀ technician : User, getTechnicianName (some technician) = technician.FullName) ∧
    getLocationText (some "") = "ไม่ระบุ" ∧
    (∀ location : String, location ≠ "" → getLocationText (some location) = location) ∧
    getCostText lib (some 0) = "ไม่มีค่าใช้จ่าย" ∧
    (∀ cost : Rat, 0 < cost → getCostText lib (some cost) = lib.formatFloat2 cost ++ " บาท") := by
  refine ⟨rfl, fun _ => rfl, by decide, ?_, ?_, ?_⟩
  · intro location hne
    unfold getLocationText
    simp [hne]
  · unfold getCostText
    simp
  · intro cost hcost
    unfold getCostText
    simp [hcost]

/-- The message of `NotifyStatusChange` for a request without technician is
the message for a technician whose name is the placeholder: the placeholder
stands where the name would. -/
theorem statusChangeMessage_placeholder (lib : Stdlib) (now : Time) (request : RepairRequest)
    (oldStatus : String) (technician : User) (h : technician.FullName = "ยังไม่ได้มอบหมาย") :
    statusChangeMessage lib now request oldStatus none
      = statusChangeMessage lib now request oldStatus (some technician) := by
  unfold statusChangeMessage getTechnicianName
  simp only [h]

/-- The messages of `NotifyNewRepairRequest` and `NotifyAssignment` for a
request with an empty location are the messages for the location
`ไม่ระบุ`: the placeholder stands where the location would. -/
theorem location_placeholder (lib : Stdlib) (now : Time) (request : RepairRequest)
    (requester : User) (technician : Option User) (h : request.Location = "") :
    newRepairRequestMessage lib request requester
        = newRepairRequestMessage lib { request with Location := "ไม่ระบุ" } requester ∧
    assignmentMessage lib now request technician
        = assignmentMessage lib now { request with Location := "ไม่ระบุ" } technician := by
  have hloc : getLocationText (some request.Location) = getLocationText (some "ไม่ระบุ") := by
    rw [h]
    decide
  constructor
  · unfold newRepairRequestMessage
    simp only [hloc]
  · unfold assignmentMessage
    simp only [hloc]

/-- C22 (the code at the failing input). With notifications enabled, ticket
1, which has no technician, is set to `completed` with a completion time.
The update starts `NotifyStatusChange` and `NotifyCompletion`, both with a nil
technician.  The message of `NotifyStatusChange` is built, with the
placeholder where the name of the technician would stand; the message of
`NotifyCompletion` is not built: its construction panics on the nil
technician.  So does the construction of the message of `NotifyAssignment`
for the same request. -/
theorem absent_technician_not_rendered :
    (UpdateRepairRequest true demoService demoDB demoEnv 2000 demoContext (some 1)
        (some demoCompletedAtBody)).dispatched
      = [Notification.StatusChange (updatedRequest true demoDB 2000 demoPending
            demoCompletedAtBody) "pending" none,
         Notification.Completion (updatedRequest true demoDB 2000 demoPending
            demoCompletedAtBody) none] ∧
    (updatedRequest true demoDB 2000 demoPending demoCompletedAtBody).CompletedAt = some 5000 ∧
    statusChangeMessage demoLib 2000
        (updatedRequest true demoDB 2000 demoPending demoCompletedAtBody) "pending" none
      = statusChangeMessage demoLib 2000
        (updatedRequest true demoDB 2000 demoPending demoCompletedAtBody) "pending"
        (some { demoTechnician with FullName := "ยังไม่ได้มอบหมาย" }) ∧
    completionMessage demoLib
        (updatedRequest true demoDB 2000 demoPending demoCompletedAtBody) none
      = Except.error Panic.nilDereference ∧
    (∃ text, completionMessage demoLib
        (updatedRequest true demoDB 2000 demoPending demoCompletedAtBody) (some demoTechnician)
      = Except.ok text) ∧
    assignmentMessage demoLib 2000
        (updatedRequest true demoDB 2000 demoPending demoCompletedAtBody) none
      = Except.error Panic.nilDereference := by
  refine ⟨by decide, by decide, rfl, rfl, ⟨_, rfl⟩, rfl⟩

/-! ## The settings handlers -/

/-- A guarded write to a key other than the bot token, followed by a rest
that leaves the bot-token row alone, makes no call for the bot token and
keeps the calls made before it, does the same. -/
theorem setOrFail_untouched (s : SettingsService) (nonce : Nat) (key value msg : String)
    (st : WriteState) (next : WriteState → SettingsResponse)
    (hne : key ≠ SettingTelegramBotToken)
    (hnext : ∀ st', firstByKey (next st').settings SettingTelegramBotToken
        = firstByKey st'.settings SettingTelegramBotToken ∧
      (∀ call ∈ (next st').calls, call ∈ st'.calls ∨ call.1 ≠ SettingTelegramBotToken) ∧
      ∀ call ∈ st'.calls, call ∈ (next st').calls) :
    firstByKey (setOrFail s nonce key value msg st next).settings SettingTelegramBotToken
        = firstByKey st.settings SettingTelegramBotToken ∧
      (∀ call ∈ (setOrFail s nonce key value msg st next).calls,
        call ∈ st.calls ∨ call.1 ≠ SettingTelegramBotToken) ∧
      ∀ call ∈ st.calls, call ∈ (setOrFail s nonce key value msg st next).calls := by
  unfold setOrFail
  cases hset : s.SetSetting nonce st.settings key value with
  | error err =>
    refine ⟨rfl, ?_, fun call hcall => List.mem_append_left _ hcall⟩
    intro call hcall
    rcases List.mem_append.1 hcall with h | h
    · exact Or.inl h
    · rw [List.mem_singleton] at h
      rw [h]
      exact Or.inr hne
  | ok settings =>
    obtain ⟨hrow, hcalls, hkept⟩ :=
      hnext { settings := settings, calls := st.calls ++ [(key, value)] }
    refine ⟨?_, ?_, fun call hcall => hkept call (List.mem_append_left _ hcall)⟩
    · rw [hrow]
      exact firstByKey_SetSetting_of_ne s nonce st.settings settings key value
        SettingTelegramBotToken hne hset
    · intro call hcall
      rcases hcalls call hcall with h | h
      · rcases List.mem_append.1 h with h | h
        · exact Or.inl h
        · rw [List.mem_singleton] at h
          rw [h]
          exact Or.inr hne
      · exact Or.inr h

/-- The same for a guarded write of a flag. -/
theorem setBoolOrFail_untouched (s : SettingsService) (nonce : Nat) (key : String)
    (value : Bool) (msg : String) (st : WriteState) (next : WriteState → SettingsResponse)
    (hne : key ≠ SettingTelegramBotToken)
    (hnext : ∀ st', firstByKey (next st').settings SettingTelegramBotToken
        = firstByKey st'.settings SettingTelegramBotToken ∧
      (∀ call ∈ (next st').calls, call ∈ st'.calls ∨ call.1 ≠ SettingTelegramBotToken) ∧
      ∀ call ∈ st'.calls, call ∈ (next st').calls) :
    firstByKey (setBoolOrFail s nonce key value msg st next).settings SettingTelegramBotToken
        = firstByKey st.settings SettingTelegramBotToken ∧
      (∀ call ∈ (setBoolOrFail s nonce key value msg st next).calls,
        call ∈ st.calls ∨ call.1 ≠ SettingTelegramBotToken) ∧
      ∀ call ∈ st.calls, call ∈ (setBoolOrFail s nonce key value msg st next).calls :=
  setOrFail_untouched s nonce key (FormatBool value) msg st next hne hnext

/-- The writes of `UpdateSettings` from the chat id on leave the bot-token
row alone, make no call for the bot token and keep the calls made before
them. -/
theorem updateRest_untouched (s : SettingsService) (nonce : Nat) (settings : Settings)
    (st : WriteState) :
    firstByKey (updateRest s nonce settings st).settings SettingTelegramBotToken
        = firstByKey st.settings SettingTelegramBotToken ∧
      (∀ call ∈ (updateRest s nonce settings st).calls,
        call ∈ st.calls ∨ call.1 ≠ SettingTelegramBotToken) ∧
      ∀ call ∈ st.calls, call ∈ (updateRest s nonce settings st).calls := by
  unfold updateRest
  apply setOrFail_untouched _ _ _ _ _ _ _ (by decide)
  intro st
  apply setBoolOrFail_untouched _ _ _ _ _ _ _ (by decide)
  intro st
  apply setBoolOrFail_untouched _ _ _ _ _ _ _ (by decide)
  intro st
  apply setBoolOrFail_untouched _ _ _ _ _ _ _ (by decide)
  intro st
  apply setBoolOrFail_untouched _ _ _ _ _ _ _ (by decide)
  intro st
  apply setOrFail_untouched _ _ _ _ _ _ _ (by decide)
  intro st
  apply setOrFail_untouched _ _ _ _ _ _ _ (by decide)
  intro st
  apply setOrFail_untouched _ _ _ _ _ _ _ (by decide)
  intro st
  apply setBoolOrFail_untouched _ _ _ _ _ _ _ (by decide)
  intro st
  apply setBoolOrFail_untouched _ _ _ _ _ _ _ (by decide)
  intro st
  apply setOrFail_untouched _ _ _ _ _ _ _ (by decide)
  intro st
  apply setBoolOrFail_untouched _ _ _ _ _ _ _ (by decide)
  intro st
  exact ⟨rfl, fun call hcall => Or.inl hcall, fun call hcall => hcall⟩

/-- C23. `UpdateSettings` and the bot token.  When the bot token of the
request is empty or the mask `***hidden***`, the row of the bot token is
after the request what it was before, whether the update succeeds or not, and
no call of `SetSetting` is made for the bot-token key.  For any other bot
token `t`, after an update answered with 200 `GetSetting` of the bot-token key
returns `t` (by the round trip of the encryption service), and `SetSetting`
was called for the bot-token key with `t`.  A request whose body cannot be
decoded writes nothing. -/
theorem UpdateSettings_token (s : SettingsService) (nonce : Nat) (db : SettingsTable)
    (settings : Settings) :
    ((settings.Telegram.BotToken = "" ∨ settings.Telegram.BotToken = "***hidden***") →
      firstByKey (UpdateSettings s nonce db (some settings)).settings SettingTelegramBotToken
        = firstByKey db SettingTelegramBotToken ∧
      ∀ call ∈ (UpdateSettings s nonce db (some settings)).calls,
        call.1 ≠ SettingTelegramBotToken) ∧
    (settings.Telegram.BotToken ≠ "" → settings.Telegram.BotToken ≠ "***hidden***" →
      (UpdateSettings s nonce db (some settings)).statusCode = 200 →
      (s.encryption.RoundTrip →
        s.GetSetting (UpdateSettings s nonce db (some settings)).settings
          SettingTelegramBotToken = Except.ok settings.Telegram.BotToken) ∧
      (SettingTelegramBotToken, settings.Telegram.BotToken)
        ∈ (UpdateSettings s nonce db (some settings)).calls) ∧
    ((UpdateSettings s nonce db none).settings = db ∧
      (UpdateSettings s nonce db none).calls = [] ∧
      (UpdateSettings s nonce db none).statusCode = 400) := by
  refine ⟨?_, ?_, ⟨rfl, rfl, rfl⟩⟩
  · intro hmask
    have hguard : (settings.Telegram.BotToken != ""
        && settings.Telegram.BotToken != "***hidden***") = false := by
      rcases hmask with h | h <;> rw [h] <;> decide
    have hall : firstByKey (UpdateSettings s nonce db (some settings)).settings
          SettingTelegramBotToken
          = firstByKey ({ settings := db, calls := [] } : WriteState).settings
            SettingTelegramBotToken ∧
        (∀ call ∈ (UpdateSettings s nonce db (some settings)).calls,
          call ∈ ({ settings := db, calls := [] } : WriteState).calls
            ∨ call.1 ≠ SettingTelegramBotToken) ∧
        ∀ call ∈ ({ settings := db, calls := [] } : WriteState).calls,
          call ∈ (UpdateSettings s nonce db (some settings)).calls := by
      unfold UpdateSettings
      simp only [hguard, Bool.false_eq_true, if_false]
      apply setBoolOrFail_untouched _ _ _ _ _ _ _ (by decide)
      intro st
      exact updateRest_untouched s nonce settings st
    refine ⟨hall.1, ?_⟩
    intro call hcall
    rcases hall.2.1 call hcall with h | h
    · simp at h
    · exact h
  · intro hne hmask
    have hguard : (settings.Telegram.BotToken != ""
        && settings.Telegram.BotToken != "***hidden***") = true := by
      simp [hne, hmask]
    unfold UpdateSettings
    simp only [hguard, if_true]
    unfold setBoolOrFail
    cases hflag : s.SetBoolSetting nonce db SettingTelegramEnabled settings.Telegram.Enabled with
    | error err =>
      intro hstatus
      simp at hstatus
    | ok db0 =>
      simp only []
      unfold setOrFail
      cases hset : s.SetSetting nonce db0 SettingTelegramBotToken settings.Telegram.BotToken with
      | error err =>
        intro hstatus
        simp at hstatus
      | ok db1 =>
        simp only []
        intro _
        obtain ⟨hrow, _, hkept⟩ := updateRest_untouched s nonce settings
          { settings := db1,
            calls := ([] ++ [(SettingTelegramEnabled, FormatBool settings.Telegram.Enabled)])
              ++ [(SettingTelegramBotToken, settings.Telegram.BotToken)] }
        constructor
        · intro hround
          rw [GetSetting_congr s db1 _ SettingTelegramBotToken hrow]
          obtain ⟨c, hc, hfound⟩ := firstByKey_SetSetting s nonce db0 db1
            SettingTelegramBotToken settings.Telegram.BotToken hset
          have hs : s.isSensitiveKey SettingTelegramBotToken = true :=
            (isSensitiveKey_iff s _).2 rfl
          rw [if_pos hs] at hc
          unfold SettingsService.GetSetting
          rw [hfound]
          simp only [hs, if_true]
          exact hround nonce _ c hc
        · exact hkept _ (List.mem_append_right _ (List.mem_singleton_self _))

/-- The bot token `TestTelegram` resolves: the one of the body unless that is
empty or the mask, else the stored one provided it can be retrieved and is
not empty. -/
theorem resolveBotToken_ok_iff (s : SettingsService) (db : SettingsTable) (testData : TestData)
    (token : String) :
    resolveBotToken s db testData = Except.ok token ↔
      (testData.BotToken ≠ "" ∧ testData.BotToken ≠ "***hidden***" ∧
          token = testData.BotToken) ∨
      ((testData.BotToken = "" ∨ testData.BotToken = "***hidden***") ∧
          s.GetSetting db SettingTelegramBotToken = Except.ok token ∧ token ≠ "") := by
  unfold resolveBotToken
  simp only []
  by_cases hmask : testData.BotToken = "" ∨ testData.BotToken = "***hidden***"
  · have hguard : (testData.BotToken == "" || testData.BotToken == "***hidden***") = true := by
      rcases hmask with h | h <;> rw [h] <;> decide
    rw [if_pos hguard]
    cases hget : s.GetSetting db SettingTelegramBotToken with
    | error err =>
      simp only []
      constructor
      · intro h
        simp at h
      · rintro (⟨h1, h2, _⟩ | ⟨_, h, _⟩)
        · rcases hmask with h | h
          · exact absurd h h1
          · exact absurd h h2
        · simp at h
    | ok realToken =>
      simp only []
      by_cases hempty : realToken = ""
      · have hg : (realToken == "") = true := by simp [hempty]
        rw [if_pos hg]
        constructor
        · intro h
          simp at h
        · rintro (⟨h1, h2, _⟩ | ⟨_, h, hne⟩)
          · rcases hmask with h | h
            · exact absurd h h1
            · exact absurd h h2
          · injection h with h
            exact absurd (h ▸ hempty) hne
      · have hg : ¬ (realToken == "") = true := by simp [hempty]
        rw [if_neg hg]
        constructor
        · intro h
          injection h with h
          exact Or.inr ⟨hmask, by rw [h], h ▸ hempty⟩
        · rintro (⟨h1, h2, _⟩ | ⟨_, h, _⟩)
          · rcases hmask with h | h
            · exact absurd h h1
            · exact absurd h h2
          · injection h with h
            rw [h]
  · have hguard : ¬ (testData.BotToken == "" || testData.BotToken == "***hidden***") = true := by
      simpa using hmask
    rw [if_neg hguard]
    push_neg at hmask
    constructor
    · intro h
      injection h with h
      exact Or.inl ⟨hmask.1, hmask.2, h.symm⟩
    · rintro (⟨_, _, h⟩ | ⟨h, _, _⟩)
      · rw [h]
      · rcases h with h | h
        · exact absurd h hmask.1
        · exact absurd h hmask.2

/-- The chat id `TestTelegram` resolves: the one of the body unless that is
empty, else the stored one provided it is not empty. -/
theorem resolveChatID_ok_iff (s : SettingsService) (db : SettingsTable) (testData : TestData)
    (chat : String) :
    resolveChatID s db testData = Except.ok chat ↔
      (testData.ChatID ≠ "" ∧ chat = testData.ChatID) ∨
      (testData.ChatID = "" ∧ s.GetSettingWithDefault db SettingTelegramChatID "" = chat ∧
          chat ≠ "") := by
  unfold resolveChatID
  simp only []
  by_cases hempty : testData.ChatID = ""
  · have hguard : (testData.ChatID == "") = true := by simp [hempty]
    rw [if_pos hguard]
    by_cases hstored : s.GetSettingWithDefault db SettingTelegramChatID "" = ""
    · have hg : (s.GetSettingWithDefault db SettingTelegramChatID "" == "") = true := by
        simp [hstored]
      rw [if_pos hg]
      constructor
      · intro h
        simp at h
      · rintro (⟨h, _⟩ | ⟨_, h, hne⟩)
        · exact absurd hempty h
        · exact absurd (h ▸ hstored) hne
    · have hg : ¬ (s.GetSettingWithDefault db SettingTelegramChatID "" == "") = true := by
        simp [hstored]
      rw [if_neg hg]
      constructor
      · intro h
        injection h with h
        exact Or.inr ⟨hempty, h, h ▸ hstored⟩
      · rintro (⟨h, _⟩ | ⟨_, h, _⟩)
        · exact absurd hempty h
        · rw [h]
  · have hguard : ¬ (testData.ChatID == "") = true := by simp [hempty]
    rw [if_neg hguard]
    constructor
    · intro h
      injection h with h
      exact Or.inl ⟨hempty, h.symm⟩
    · rintro (⟨_, h⟩ | ⟨h, _, _⟩)
      · rw [h]
      · exact absurd h hempty

/-- C24 (as amended). `TestTelegram`: a bot token that the request leaves out
or sends as the mask is replaced by the stored token, and a chat id that the
request leaves out is replaced by the stored chat id; a chat id that is not
empty is used as sent, the mask included.  When no token that is not empty or
no chat id that is not empty can be resolved, the handler answers 400 and
makes no call.  Otherwise it makes exactly one call, to the bot endpoint of
the resolved token with the resolved chat id and the diagnostic message, and
answers 200 when that call is answered with 200 and 400 with the error of the
send otherwise. -/
theorem TestTelegram_contract (s : SettingsService) (db : SettingsTable) (env : Env)
    (lib : Stdlib) (now : Time) (post : Transport) (testData : TestData) :
    (∀ token, resolveBotToken s db testData = Except.ok token ↔
      (testData.BotToken ≠ "" ∧ testData.BotToken ≠ "***hidden***" ∧
          token = testData.BotToken) ∨
      ((testData.BotToken = "" ∨ testData.BotToken = "***hidden***") ∧
          s.GetSetting db SettingTelegramBotToken = Except.ok token ∧ token ≠ "")) ∧
    (∀ chat, resolveChatID s db testData = Except.ok chat ↔
      (testData.ChatID ≠ "" ∧ chat = testData.ChatID) ∨
      (testData.ChatID = "" ∧ s.GetSettingWithDefault db SettingTelegramChatID "" = chat ∧
          chat ≠ "")) ∧
    (((∀ token, resolveBotToken s db testData ≠ Except.ok token) ∨
        (∀ chat, resolveChatID s db testData ≠ Except.ok chat)) →
      (TestTelegram s db env lib now post (some testData)).statusCode = 400 ∧
      (TestTelegram s db env lib now post (some testData)).calls = []) ∧
    (∀ token chat, resolveBotToken s db testData = Except.ok token →
      resolveChatID s db testData = Except.ok chat →
      (TestTelegram s db env lib now post (some testData)).calls =
        [{ url := "https://api.telegram.org/bot" ++ token ++ "/sendMessage",
           contentType := "application/json",
           body := { ChatID := chat, Text := testMessage s db lib now, ParseMode := "HTML" } }] ∧
      (post { url := "https://api.telegram.org/bot" ++ token ++ "/sendMessage",
              contentType := "application/json",
              body := { ChatID := chat, Text := testMessage s db lib now, ParseMode := "HTML" } }
          = HttpResult.response 200 →
        (TestTelegram s db env lib now post (some testData)).statusCode = 200) ∧
      (post { url := "https://api.telegram.org/bot" ++ token ++ "/sendMessage",
              contentType := "application/json",
              body := { ChatID := chat, Text := testMessage s db lib now, ParseMode := "HTML" } }
          ≠ HttpResult.response 200 →
        (TestTelegram s db env lib now post (some testData)).statusCode = 400 ∧
        (TestTelegram s db env lib now post (some testData)).cause ≠ none)) ∧
    ((TestTelegram s db env lib now post none).statusCode = 400 ∧
      (TestTelegram s db env lib now post none).calls = []) := by
  refine ⟨resolveBotToken_ok_iff s db testData, resolveChatID_ok_iff s db testData, ?_, ?_,
    ⟨rfl, rfl⟩⟩
  · intro hnone
    unfold TestTelegram
    simp only []
    cases htoken : resolveBotToken s db testData with
    | error msg => exact ⟨rfl, rfl⟩
    | ok token =>
      simp only []
      cases hchat : resolveChatID s db testData with
      | error msg => exact ⟨rfl, rfl⟩
      | ok chat =>
        rcases hnone with h | h
        · exact absurd htoken (h token)
        · exact absurd hchat (h chat)
  · intro token chat htoken hchat
    have htne : token ≠ "" := by
      rcases (resolveBotToken_ok_iff s db testData token).1 htoken with ⟨h1, _, h3⟩ | ⟨_, _, h⟩
      · rw [h3]
        exact h1
      · exact h
    have hcne : chat ≠ "" := by
      rcases (resolveChatID_ok_iff s db testData chat).1 hchat with ⟨h1, h2⟩ | ⟨_, _, h⟩
      · rw [h2]
        exact h1
      · exact h
    have henabled : ((testService token chat).IsEnabled db env).1 = true := by
      rw [IsEnabled_true_iff]
      exact ⟨rfl, htne, hcne⟩
    obtain ⟨hcalls, herr⟩ := SendMessage_enabled (testService token chat)
      db env post (testMessage s db lib now) henabled
    have hcall : sentCall ((testService token chat).refreshSettings db env)
        (testMessage s db lib now)
        = { url := "https://api.telegram.org/bot" ++ token ++ "/sendMessage",
            contentType := "application/json",
            body := { ChatID := chat, Text := testMessage s db lib now,
                      ParseMode := "HTML" } } := rfl
    rw [hcall] at hcalls herr
    unfold TestTelegram
    simp only [htoken, hchat]
    refine ⟨?_, ?_, ?_⟩
    · cases hsent : ((testService token chat).SendMessage db env post
          (testMessage s db lib now)).err with
      | none => exact hcalls
      | some err => exact hcalls
    · intro hpost
      rw [hpost] at herr
      simp only [if_true] at herr
      rw [herr]
    · intro hpost
      cases hres : post
          { url := "https://api.telegram.org/bot" ++ token ++ "/sendMessage",
            contentType := "application/json",
            body := { ChatID := chat, Text := testMessage s db lib now, ParseMode := "HTML" } }
        with
      | failure msg =>
        rw [hres] at herr
        simp only [] at herr
        rw [herr]
        exact ⟨rfl, by simp⟩
      | response statusCode =>
        rw [hres] at herr hpost
        have hcode : statusCode ≠ 200 := fun h => hpost (by rw [h])
        simp only [hcode, if_false] at herr
        rw [herr]
        exact ⟨rfl, by simp⟩

/-! ## No caching of the settings -/

/-- With a settings service attached, `IsEnabled` is computed from the store
and the environment alone. -/
theorem IsEnabled_of_store (s : TelegramService) (ss : SettingsService) (db : SettingsTable)
    (env : Env) (hss : s.settingsService = some ss) :
    s.IsEnabled db env =
      ((ss.GetBoolSetting db SettingTelegramEnabled || env "TELEGRAM_ENABLED" == "true")
          && ss.GetSettingWithDefault db SettingTelegramBotToken (env "TELEGRAM_BOT_TOKEN") != ""
          && ss.GetSettingWithDefault db SettingTelegramChatID (env "TELEGRAM_CHAT_ID") != "",
        { BotToken :=
            ss.GetSettingWithDefault db SettingTelegramBotToken (env "TELEGRAM_BOT_TOKEN"),
          ChatID := ss.GetSettingWithDefault db SettingTelegramChatID (env "TELEGRAM_CHAT_ID"),
          Enabled :=
            ss.GetBoolSetting db SettingTelegramEnabled || env "TELEGRAM_ENABLED" == "true",
          settingsService := some ss }) := by
  rw [IsEnabled_eq, refreshSettings_of_store s ss db env hss]

/-- The flag read back after it was written. -/
theorem GetBoolSetting_SetBoolSetting_enabled (ss : SettingsService) (nonce : Nat)
    (db db' : SettingsTable) (b : Bool)
    (hset : ss.SetBoolSetting nonce db SettingTelegramEnabled b = Except.ok db') :
    ss.GetBoolSetting db' SettingTelegramEnabled = b := by
  unfold SettingsService.SetBoolSetting at hset
  obtain ⟨c, hc, hrow⟩ :=
    firstByKey_SetSetting ss nonce db db' SettingTelegramEnabled (FormatBool b) hset
  have hns : ss.isSensitiveKey SettingTelegramEnabled = false := by
    cases h : ss.isSensitiveKey SettingTelegramEnabled with
    | false => rfl
    | true => exact absurd ((isSensitiveKey_iff ss _).1 h) (by decide)
  rw [hns] at hc
  simp only [Bool.false_eq_true, if_false] at hc
  injection hc with hc
  subst hc
  unfold SettingsService.GetBoolSetting SettingsService.GetSetting
  rw [hrow]
  simp only [hns, Bool.false_eq_true, if_false]
  cases b <;> decide

/-- C25. No caching: for two services backed by the same settings service,
whatever bot token, chat id and enabled flag each of them holds, `IsEnabled`
gives the same answer and leaves the same fields, and `SendMessage` returns
the same error and makes the same calls; the answer is the one computed from
the store and the environment.  After the enabled flag has been written to
the store, the next `IsEnabled` answers with the new flag (or the environment
flag) and the token and chat id of the store. -/
theorem IsEnabled_no_cache (s1 s2 : TelegramService) (ss : SettingsService)
    (db : SettingsTable) (env : Env) (h1 : s1.settingsService = some ss)
    (h2 : s2.settingsService = some ss) :
    s1.IsEnabled db env = s2.IsEnabled db env ∧
    (s1.IsEnabled db env).1 =
      ((ss.GetBoolSetting db SettingTelegramEnabled || env "TELEGRAM_ENABLED" == "true")
        && ss.GetSettingWithDefault db SettingTelegramBotToken (env "TELEGRAM_BOT_TOKEN") != ""
        && ss.GetSettingWithDefault db SettingTelegramChatID (env "TELEGRAM_CHAT_ID") != "") ∧
    (∀ (post : Transport) (message : String),
      s1.SendMessage db env post message = s2.SendMessage db env post message) ∧
    (∀ (nonce : Nat) (b : Bool) (db' : SettingsTable),
      ss.SetBoolSetting nonce db SettingTelegramEnabled b = Except.ok db' →
      (s1.IsEnabled db' env).1 =
        ((b || env "TELEGRAM_ENABLED" == "true")
          && ss.GetSettingWithDefault db SettingTelegramBotToken (env "TELEGRAM_BOT_TOKEN") != ""
          && ss.GetSettingWithDefault db SettingTelegramChatID (env "TELEGRAM_CHAT_ID")
              != "")) := by
  have heq : s1.IsEnabled db env = s2.IsEnabled db env := by
    rw [IsEnabled_of_store s1 ss db env h1, IsEnabled_of_store s2 ss db env h2]
  refine ⟨heq, ?_, ?_, ?_⟩
  · rw [IsEnabled_of_store s1 ss db env h1]
  · intro post message
    unfold TelegramService.SendMessage
    rw [heq]
  · intro nonce b db' hset
    rw [IsEnabled_of_store s1 ss db' env h1]
    have hflag := GetBoolSetting_SetBoolSetting_enabled ss nonce db db' b hset
    unfold SettingsService.SetBoolSetting at hset
    have htoken : ss.GetSetting db' SettingTelegramBotToken
        = ss.GetSetting db SettingTelegramBotToken :=
      GetSetting_congr ss db db' _ (firstByKey_SetSetting_of_ne ss nonce db db'
        SettingTelegramEnabled (FormatBool b) SettingTelegramBotToken (by decide) hset)
    have hchat : ss.GetSetting db' SettingTelegramChatID
        = ss.GetSetting db SettingTelegramChatID :=
      GetSetting_congr ss db db' _ (firstByKey_SetSetting_of_ne ss nonce db db'
        SettingTelegramEnabled (FormatBool b) SettingTelegramChatID (by decide) hset)
    simp only [SettingsService.GetSettingWithDefault, htoken, hchat, hflag]

/-- The service built at start-up and a service holding stale fields answer
alike on the store with telegram switched off and on the store with telegram
switched on. -/
theorem IsEnabled_no_cache_witness :
    (demoService.IsEnabled demoSettingsOff demoEnv).1 = false ∧
    (demoStaleService.IsEnabled demoSettingsOff demoEnv).1 = false ∧
    (demoStaleService.IsEnabled demoSettings demoEnv).1 = true ∧
    (demoService.SendMessage demoSettings demoEnv demoPostOk "hello").calls
      = (demoStaleService.SendMessage demoSettings demoEnv demoPostOk "hello").calls :=
  ⟨by decide,
   ((IsEnabled_no_cache demoStaleService demoService demoSettingsService demoSettingsOff demoEnv
      rfl rfl).2.1).trans (by decide),
   ((IsEnabled_no_cache demoStaleService demoService demoSettingsService demoSettings demoEnv
      rfl rfl).2.1).trans (by decide),
   congrArg SendResult.calls
     ((IsEnabled_no_cache demoService demoStaleService demoSettingsService demoSettings demoEnv
        rfl rfl).2.2.1 demoPostOk "hello")⟩

/-! ## The field merge of the update handler -/

/-- C26. The field merge of `UpdateRepairRequest`: each of the ten fields
title, description, location, category id, technician id, status, priority,
rejection reason, cost and completion time takes the value of the payload
when that value is not empty, zero or nil, and keeps its previous value
otherwise; every other field of the request keeps its value.  So a field that
was set stays set: no payload empties a text field, sets the cost back to
zero, or takes the technician or the completion time away. -/
theorem mergeUpdate_frame (request updateData : RepairRequest) :
    ((mergeUpdate request updateData).Title =
        (if updateData.Title != "" then updateData.Title else request.Title) ∧
      (mergeUpdate request updateData).Description =
        (if updateData.Description != "" then updateData.Description
          else request.Description) ∧
      (mergeUpdate request updateData).Location =
        (if updateData.Location != "" then updateData.Location else request.Location) ∧
      (mergeUpdate request updateData).CategoryID =
        (if updateData.CategoryID != 0 then updateData.CategoryID else request.CategoryID) ∧
      (mergeUpdate request updateData).TechnicianID =
        (if updateData.TechnicianID.isSome then updateData.TechnicianID
          else request.TechnicianID) ∧
      (mergeUpdate request updateData).Status =
        (if updateData.Status != "" then updateData.Status else request.Status) ∧
      (mergeUpdate request updateData).Priority =
        (if updateData.Priority != "" then updateData.Priority else request.Priority) ∧
      (mergeUpdate request updateData).RejectionReason =
        (if updateData.RejectionReason != "" then updateData.RejectionReason
          else request.RejectionReason) ∧
      (mergeUpdate request updateData).Cost =
        (if updateData.Cost != 0 then updateData.Cost else request.Cost) ∧
      (mergeUpdate request updateData).CompletedAt =
        (if updateData.CompletedAt.isSome then updateData.CompletedAt
          else request.CompletedAt)) ∧
    ((mergeUpdate request updateData).ID = request.ID ∧
      (mergeUpdate request updateData).CreatedAt = request.CreatedAt ∧
      (mergeUpdate request updateData).UpdatedAt = request.UpdatedAt ∧
      (mergeUpdate request updateData).Category = request.Category ∧
      (mergeUpdate request updateData).RequesterID = request.RequesterID ∧
      (mergeUpdate request updateData).Requester = request.Requester ∧
      (mergeUpdate request updateData).Technician = request.Technician ∧
      (mergeUpdate request updateData).Images = request.Images ∧
      (mergeUpdate request updateData).Comments = request.Comments ∧
      (mergeUpdate request updateData).PartsUsed = request.PartsUsed) ∧
    ((request.Title ≠ "" → (mergeUpdate request updateData).Title ≠ "") ∧
      (request.Description ≠ "" → (mergeUpdate request updateData).Description ≠ "") ∧
      (request.Location ≠ "" → (mergeUpdate request updateData).Location ≠ "") ∧
      (request.CategoryID ≠ 0 → (mergeUpdate request updateData).CategoryID ≠ 0) ∧
      (request.TechnicianID ≠ none → (mergeUpdate request updateData).TechnicianID ≠ none) ∧
      (request.Status ≠ "" → (mergeUpdate request updateData).Status ≠ "") ∧
      (request.Priority ≠ "" → (mergeUpdate request updateData).Priority ≠ "") ∧
      (request.RejectionReason ≠ "" →
        (mergeUpdate request updateData).RejectionReason ≠ "") ∧
      (request.Cost ≠ 0 → (mergeUpdate request updateData).Cost ≠ 0) ∧
      (request.CompletedAt ≠ none → (mergeUpdate request updateData).CompletedAt ≠ none)) := by
  have hfields :
      (mergeUpdate request updateData).Title =
        (if updateData.Title != "" then updateData.Title else request.Title) ∧
      (mergeUpdate request updateData).Description =
        (if updateData.Description != "" then updateData.Description
          else request.Description) ∧
      (mergeUpdate request updateData).Location =
        (if updateData.Location != "" then updateData.Location else request.Location) ∧
      (mergeUpdate request updateData).CategoryID =
        (if updateData.CategoryID != 0 then updateData.CategoryID else request.CategoryID) ∧
      (mergeUpdate request updateData).TechnicianID =
        (if updateData.TechnicianID.isSome then updateData.TechnicianID
          else request.TechnicianID) ∧
      (mergeUpdate request updateData).Status =
        (if updateData.Status != "" then updateData.Status else request.Status) ∧
      (mergeUpdate request updateData).Priority =
        (if updateData.Priority != "" then updateData.Priority else request.Priority) ∧
      (mergeUpdate request updateData).RejectionReason =
        (if updateData.RejectionReason != "" then updateData.RejectionReason
          else request.RejectionReason) ∧
      (mergeUpdate request updateData).Cost =
        (if updateData.Cost != 0 then updateData.Cost else request.Cost) ∧
      (mergeUpdate request updateData).CompletedAt =
        (if updateData.CompletedAt.isSome then updateData.CompletedAt
          else request.CompletedAt) := by
    refine ⟨?_, ?_, ?_, ?_, ?_, ?_, ?_, ?_, ?_, ?_⟩ <;>
      simp only [mergeUpdate, mergeTitle, mergeDescription, mergeLocation, mergeCategoryID,
        mergeTechnicianID, mergeStatus, mergePriority, mergeRejectionReason, mergeCost,
        mergeCompletedAt, apply_ite RepairRequest.Title, apply_ite RepairRequest.Description,
        apply_ite RepairRequest.Location, apply_ite RepairRequest.CategoryID,
        apply_ite RepairRequest.TechnicianID, apply_ite RepairRequest.Status,
        apply_ite RepairRequest.Priority, apply_ite RepairRequest.RejectionReason,
        apply_ite RepairRequest.Cost, apply_ite RepairRequest.CompletedAt, ite_self]
  obtain ⟨hTitle, hDescription, hLocation, hCategoryID, hTechnicianID, hStatus, hPriority,
    hRejectionReason, hCost, hCompletedAt⟩ := hfields
  refine ⟨⟨hTitle, hDescription, hLocation, hCategoryID, hTechnicianID, hStatus, hPriority,
    hRejectionReason, hCost, hCompletedAt⟩, ?_, ?_⟩
  · refine ⟨?_, ?_, ?_, ?_, ?_, ?_, ?_, ?_, ?_, ?_⟩ <;>
      simp only [mergeUpdate, mergeTitle, mergeDescription, mergeLocation, mergeCategoryID,
        mergeTechnicianID, mergeStatus, mergePriority, mergeRejectionReason, mergeCost,
        mergeCompletedAt, apply_ite RepairRequest.ID, apply_ite RepairRequest.CreatedAt,
        apply_ite RepairRequest.UpdatedAt, apply_ite RepairRequest.Category,
        apply_ite RepairRequest.RequesterID, apply_ite RepairRequest.Requester,
        apply_ite RepairRequest.Technician, apply_ite RepairRequest.Images,
        apply_ite RepairRequest.Comments, apply_ite RepairRequest.PartsUsed, ite_self]
  · refine ⟨?_, ?_, ?_, ?_, ?_, ?_, ?_, ?_, ?_, ?_⟩
    · intro h
      rw [hTitle]
      split
      · rename_i hc
        simpa using hc
      · exact h
    · intro h
      rw [hDescription]
      split
      · rename_i hc
        simpa using hc
      · exact h
    · intro h
      rw [hLocation]
      split
      · rename_i hc
        simpa using hc
      · exact h
    · intro h
      rw [hCategoryID]
      split
      · rename_i hc
        simpa using hc
      · exact h
    · intro h
      rw [hTechnicianID]
      split
      · rename_i hc
        intro hnone
        rw [hnone] at hc
        simp at hc
      · exact h
    · intro h
      rw [hStatus]
      split
      · rename_i hc
        simpa using hc
      · exact h
    · intro h
      rw [hPriority]
      split
      · rename_i hc
        simpa using hc
      · exact h
    · intro h
      rw [hRejectionReason]
      split
      · rename_i hc
        simpa using hc
      · exact h
    · intro h
      rw [hCost]
      split
      · rename_i hc
        simpa using hc
      · exact h
    · intro h
      rw [hCompletedAt]
      split
      · rename_i hc
        intro hnone
        rw [hnone] at hc
        simp at hc
      · exact h

/-- The merge of the body `{"title": "Printer jam, again"}` into ticket 2:
the title is the new one, the technician, the status and the location are
the old ones. -/
theorem mergeUpdate_frame_witness :
    (mergeUpdate demoAssigned demoTitleBody).Title = "Printer jam, again" ∧
    (mergeUpdate demoAssigned demoTitleBody).TechnicianID = demoAssigned.TechnicianID ∧
    (mergeUpdate demoAssigned demoTitleBody).Status = "in_progress" ∧
    (mergeUpdate demoAssigned demoTitleBody).Location = "Room 12" ∧
    (mergeUpdate demoAssigned demoTitleBody).ID = 2 :=
  ⟨(mergeUpdate_frame demoAssigned demoTitleBody).1.1.trans (by decide),
   (mergeUpdate_frame demoAssigned demoTitleBody).1.2.2.2.2.1.trans (by decide),
   (mergeUpdate_frame demoAssigned demoTitleBody).1.2.2.2.2.2.1.trans (by decide),
   (mergeUpdate_frame demoAssigned demoTitleBody).1.2.2.1.trans (by decide),
   (mergeUpdate_frame demoAssigned demoTitleBody).2.1.1.trans (by decide)⟩

/-! ## Evaluations of the settings handlers -/

/-- An update that sends the mask back leaves the stored token as it is; an
update with the token `999:xyz` is answered with 200, and the token is then
read back. -/
theorem UpdateSettings_token_witness :
    firstByKey (UpdateSettings demoSettingsService 0 demoSettings (some demoMaskedUpdate)).settings
        SettingTelegramBotToken
      = some { Key := "telegram_bot_token", Value := "acba:321" } ∧
    (UpdateSettings demoSettingsService 0 demoSettings (some demoTokenUpdate)).statusCode = 200 ∧
    demoSettingsService.GetSetting
        (UpdateSettings demoSettingsService 0 demoSettings (some demoTokenUpdate)).settings
        SettingTelegramBotToken
      = Except.ok "999:xyz" :=
  ⟨(((UpdateSettings_token demoSettingsService 0 demoSettings demoMaskedUpdate).1
      (Or.inr rfl)).1).trans (by decide),
   by decide,
   ((UpdateSettings_token demoSettingsService 0 demoSettings demoTokenUpdate).2.1
      (by decide) (by decide) (by decide)).1 toyEncryption_roundTrip⟩

/-- C24 (counterexample). A test request that leaves out the token and sends
the mask as chat id, on a store whose chat id is 42: the handler answers 200
after one call whose chat id is the mask, not the stored chat id. -/
theorem TestTelegram_masked_chat_id_sent :
    demoSettingsService.GetSetting demoSettings SettingTelegramChatID = Except.ok "42" ∧
    (TestTelegram demoSettingsService demoSettings demoEnv demoLib 2000 demoPostOk
        (some demoMaskedChatTest)).statusCode = 200 ∧
    (TestTelegram demoSettingsService demoSettings demoEnv demoLib 2000 demoPostOk
        (some demoMaskedChatTest)).calls.map (fun call => (call.url, call.body.ChatID))
      = [("https://api.telegram.org/bot123:abc/sendMessage", "***hidden***")] := by
  decide

/-- A test request that sends the mask as token and leaves out the chat id:
one call with the stored token and the stored chat id, answered 200 when the
network answers 200 and 400 when it answers 500; on a store without a chat id
the answer is 400 and no call is made. -/
theorem TestTelegram_contract_witness :
    (TestTelegram demoSettingsService demoSettings demoEnv demoLib 2000 demoPostOk
        (some demoMaskedTokenTest)).calls
      = [{ url := "https://api.telegram.org/bot" ++ "123:abc" ++ "/sendMessage",
           contentType := "application/json",
           body := { ChatID := "42",
                     Text := testMessage demoSettingsService demoSettings demoLib 2000,
                     ParseMode := "HTML" } }] ∧
    (TestTelegram demoSettingsService demoSettings demoEnv demoLib 2000 demoPostOk
        (some demoMaskedTokenTest)).statusCode = 200 ∧
    (TestTelegram demoSettingsService demoSettings demoEnv demoLib 2000 demoPostDown
        (some demoMaskedTokenTest)).statusCode = 400 ∧
    (TestTelegram demoSettingsService demoChangedSettings demoEnv demoLib 2000 demoPostOk
        (some demoMaskedTokenTest)).calls = [] :=
  ⟨((TestTelegram_contract demoSettingsService demoSettings demoEnv demoLib 2000 demoPostOk
      demoMaskedTokenTest).2.2.2.1 "123:abc" "42" (by decide) (by decide)).1,
   ((TestTelegram_contract demoSettingsService demoSettings demoEnv demoLib 2000 demoPostOk
      demoMaskedTokenTest).2.2.2.1 "123:abc" "42" (by decide) (by decide)).2.1 (by decide),
   (((TestTelegram_contract demoSettingsService demoSettings demoEnv demoLib 2000 demoPostDown
      demoMaskedTokenTest).2.2.2.1 "123:abc" "42" (by decide) (by decide)).2.2 (by decide)).1,
   ((TestTelegram_contract demoSettingsService demoChangedSettings demoEnv demoLib 2000
      demoPostOk demoMaskedTokenTest).2.2.1 (Or.inr (by
        intro chat h
        have herr : resolveChatID demoSettingsService demoChangedSettings demoMaskedTokenTest
            = Except.error "Chat ID is required" := by decide
        rw [herr] at h
        cases h))).2⟩

end RepairSystem
